import Mathlib

/-!
# Ogg/OGM reader (`src/input/r_ogm.cpp`): shallow embedding and properties

Bytes are natural numbers below 256, buffers are lists of bytes, 64-bit
integers are `Int`.  The Ogg library (`ogg_stream_state`, page assembly) is
outside the repository: a page is modelled by the packets that become
available once it has been submitted with `ogg_stream_pagein`, and an
`ogg_stream_state` by the queue of packets that `ogg_stream_packetout` has
not handed out yet.
-/

namespace Ogm

/-! ## C library helpers -/

/-- Byte `p[i]` of a buffer.  An index beyond the buffer reads as 0 here (in C
the value is indeterminate); no theorem below depends on such a read. -/
def byte_at (p : List Nat) (i : Nat) : Nat := p.getD i 0

/-- C `strncmp(s1, s2, n)`: at most `n` characters are compared, and the
comparison stops behind a NUL.  A list that has ended reads as NUL, which is how
a string literal ends. -/
def strncmp (s1 s2 : List Nat) : Nat → Int
  | 0 => 0
  | n + 1 =>
    if s1.headD 0 ≠ s2.headD 0 then (s1.headD 0 : Int) - (s2.headD 0 : Int)
    else if s1.headD 0 = 0 then 0
    else strncmp s1.tail s2.tail n

/-- C `memcmp(s1, s2, n)`: all `n` bytes are compared. -/
def memcmp (s1 s2 : List Nat) : Nat → Int
  | 0 => 0
  | n + 1 =>
    if s1.headD 0 ≠ s2.headD 0 then (s1.headD 0 : Int) - (s2.headD 0 : Int)
    else memcmp s1.tail s2.tail n

/-- The literal "OggS". -/
def lit_OggS : List Nat := [79, 103, 103, 83]

/-! ## The byte source seen by `probe_file` -/

/-- The calls `ogm_reader_c::probe_file` makes on its `mm_io_c *io`, in order:
`setFilePointer(0, seek_beginning)`, `read(data, 4)`, `setFilePointer(0,
seek_beginning)`.  Each may throw.  `read n` is `none` when the call throws and
otherwise the bytes the source has at the file pointer, of which at most `n`
are stored and counted. -/
structure mm_io_c where
  setFilePointer_before : Bool
  read : Nat → Option (List Nat)
  setFilePointer_after : Bool

/-- `ogm_reader_c::probe_file(mm_io_c *io, int64_t size)`. -/
def probe_file (io : mm_io_c) (size : Int) : Int :=
  if 4 > size then 0
  else if !io.setFilePointer_before then 0          -- throws: catch (...) return 0
  else
    match io.read 4 with
    | none => 0                                      -- throws: catch (...) return 0
    | some avail =>
      let data := avail.take 4
      if (data.length : Int) ≠ 4 then 0              -- io->read(data, 4) != 4
      else if !io.setFilePointer_after then 0        -- throws: catch (...) return 0
      else if strncmp data lit_OggS 4 ≠ 0 then 0
      else 1

/-! ## Declarations of headers that are not among the sources -/

/-- Modelled from the spec: macro `PACKET_TYPE_HEADER` of `common/ogmstreams.h`
(not among the sources), the header marker of the packet type field. -/
def PACKET_TYPE_HEADER : Nat := 0x01

/-- Modelled from the spec: macro `PACKET_TYPE_COMMENT` of `common/ogmstreams.h`
(not among the sources), the comment marker of the packet type field. -/
def PACKET_TYPE_COMMENT : Nat := 0x03

/-- Modelled from the spec: macro `PACKET_TYPE_BITS` of `common/ogmstreams.h`
(not among the sources), the mask of the packet type field. -/
def PACKET_TYPE_BITS : Nat := 0x07

/-- Modelled from the spec: macro `PACKET_LEN_BITS01` of `common/ogmstreams.h`
(not among the sources), the two low bits of the duration length. -/
def PACKET_LEN_BITS01 : Nat := 0xc0

/-- Modelled from the spec: macro `PACKET_LEN_BITS2` of `common/ogmstreams.h`
(not among the sources), the third bit of the duration length. -/
def PACKET_LEN_BITS2 : Nat := 0x02

/-- Modelled from the spec: macro `PACKET_IS_SYNCPOINT` of `common/ogmstreams.h`
(not among the sources), the sync-point flag of a packet's first byte. -/
def PACKET_IS_SYNCPOINT : Nat := 0x08

/-- Modelled from the spec: macro `iscr` of `common/common.h` (not among the
sources): the character is a line feed or a carriage return. -/
def iscr (c : Nat) : Bool := c == 10 || c == 13

/-- Modelled from the spec: the coarse kinds `ID_RESULT_TRACK_AUDIO`,
`ID_RESULT_TRACK_VIDEO`, `ID_RESULT_TRACK_SUBTITLES` (macros of a header that is
not among the sources) are the strings audio, video and subtitles. -/
def ID_RESULT_TRACK_AUDIO : String := "audio"

/-- Modelled from the spec: see `ID_RESULT_TRACK_AUDIO`. -/
def ID_RESULT_TRACK_VIDEO : String := "video"

/-- Modelled from the spec: see `ID_RESULT_TRACK_AUDIO`. -/
def ID_RESULT_TRACK_SUBTITLES : String := "subtitles"

/-- Layout of `struct stream_header` (`common/ogmstreams.h`, not among the
sources), taken as a parameter: its size and the byte offsets of the members
that `r_ogm.cpp` reads. -/
structure stream_header_layout where
  sizeof_stream_header : Nat
  streamtype : Nat
  subtype : Nat
  time_unit : Nat

/-- The stream type tags `OGM_STREAM_TYPE_*` that `r_ogm.cpp` uses. -/
inductive ogm_stream_type_e
  | OGM_STREAM_TYPE_UNKNOWN
  | OGM_STREAM_TYPE_A_AAC
  | OGM_STREAM_TYPE_A_AC3
  | OGM_STREAM_TYPE_A_MP3
  | OGM_STREAM_TYPE_A_PCM
  | OGM_STREAM_TYPE_A_VORBIS
  | OGM_STREAM_TYPE_A_FLAC
  | OGM_STREAM_TYPE_V_AVC
  | OGM_STREAM_TYPE_V_MSCOMP
  | OGM_STREAM_TYPE_V_THEORA
  | OGM_STREAM_TYPE_S_KATE
  deriving DecidableEq, Repr

open ogm_stream_type_e

/-- The classes of the demuxer hierarchy; `ogm_demuxer_c` is the base class. -/
inductive demuxer_class
  | ogm_demuxer_c
  | ogm_a_aac_demuxer_c
  | ogm_a_ac3_demuxer_c
  | ogm_a_mp3_demuxer_c
  | ogm_a_pcm_demuxer_c
  | ogm_a_vorbis_demuxer_c
  | ogm_a_flac_demuxer_c
  | ogm_s_text_demuxer_c
  | ogm_v_avc_demuxer_c
  | ogm_v_mscomp_demuxer_c
  | ogm_v_theora_demuxer_c
  | ogm_s_kate_demuxer_c
  deriving DecidableEq, Repr

/-! ## Data model -/

/-- An `ogg_packet`: its bytes (`packet`, `bytes` is their number) and `e_o_s`. -/
structure ogg_packet where
  packet : List Nat
  e_o_s : Bool
  deriving DecidableEq, Repr

/-- Number of bytes of a packet (`op.bytes`). -/
def ogg_packet.bytes (op : ogg_packet) : Int := op.packet.length

/-- An `ogg_page` as the reader sees it: serial number, granule position,
beginning-of-stream flag, and the packets that `ogg_stream_packetout` hands
out once the page has been submitted. -/
structure ogg_page where
  serialno : Int
  granulepos : Int
  bos : Bool
  packets : List ogg_packet
  deriving DecidableEq, Repr

/-- The members of `theora_identification_header_t` that the reader uses. -/
structure theora_identification_header_t where
  frn : Nat
  frd : Nat
  display_width : Nat
  display_height : Nat
  deriving DecidableEq, Repr

/-- The member of `kate_identification_header_t` that the reader uses. -/
structure kate_identification_header_t where
  nheaders : Nat
  deriving DecidableEq, Repr

/-- A `memory_c` built over part of a packet: the size handed to the
constructor and the bytes it covers. -/
structure memory_c where
  size : Int
  data : List Nat
  deriving DecidableEq, Repr

/-- The frame type constants passed as `bref` and `fref` of a `packet_t`. -/
inductive frame_type_e
  | VFT_IFRAME
  | VFT_PFRAMEAUTOMATIC
  | VFT_NOBFRAME
  deriving DecidableEq, Repr

/-- A `packet_t` handed to a packetizer.  An argument the call leaves out is
`none`. -/
structure packet_t where
  mem : memory_c
  timecode : Option Int
  duration : Option Int
  bref : Option frame_type_e
  fref : Option frame_type_e
  deriving DecidableEq, Repr

/-- State of one logical stream: the members of `ogm_demuxer_c` and of its
subclasses (`frames_since_granulepos_change`, `theora`, `kate`), with the
dynamic class in `cls` and the pending packets of the `ogg_stream_state` in
`os`.  The strings `language` and `title` are kept as their bytes. -/
structure ogm_demuxer_c where
  cls : demuxer_class
  os : List ogg_packet
  ptzr : Int
  track_id : Nat
  stype : ogm_stream_type_e
  serialno : Int
  eos : Bool
  units_processed : Int
  num_header_packets : Nat
  num_non_header_packets : Nat
  headers_read : Bool
  language : List Nat
  title : List Nat
  packet_data : List (List Nat)
  nh_packet_data : List (List Nat)
  first_granulepos : Int
  last_granulepos : Int
  default_duration : Int
  in_use : Bool
  display_width : Nat
  display_height : Nat
  frames_since_granulepos_change : Int
  theora : theora_identification_header_t
  kate : kate_identification_header_t
  deriving DecidableEq, Repr

/-- Code of the repository and of its libraries that is not among the sources,
taken as parameters.  The methods of the FLAC demuxer act on the stream state;
the dynamic class of an object does not change. -/
structure externals where
  /-- Layout of `stream_header`. -/
  layout : stream_header_layout
  /-- Function `mpeg4::p10::is_avc_fourcc` on the NUL-terminated 4 character buffer. -/
  is_avc_fourcc : List Nat → Bool
  /-- Function `theora_parse_identification_header`; `none` when it throws. -/
  theora_parse_identification_header : List Nat → Option theora_identification_header_t
  /-- Function `kate_parse_identification_header`; `none` when it throws. -/
  kate_parse_identification_header : List Nat → Option kate_identification_header_t
  /-- Method `ogm_demuxer_c::is_header_packet` of the base class (declared in `r_ogm.h`). -/
  is_header_packet : ogm_demuxer_c → ogg_packet → Bool
  /-- The object that `new ogm_a_flac_demuxer_c(this)` builds (`r_ogm_flac.cpp`). -/
  ogm_a_flac_demuxer_c : ogm_demuxer_c
  /-- Method `ogm_a_flac_demuxer_c::initialize`. -/
  initialize_flac : ogm_demuxer_c → ogm_demuxer_c
  /-- Method `ogm_a_flac_demuxer_c::process_header_page`. -/
  flac_process_header_page : ogm_demuxer_c → ogm_demuxer_c
  /-- Method `ogm_a_flac_demuxer_c::process_page` and the packets it hands on. -/
  flac_process_page : ogm_demuxer_c → Int → ogm_demuxer_c × List packet_t
  /-- Value of `(int64_t)(1000000000.0 * units_processed * frd / frn)` in double
  arithmetic, from `units_processed`, `frd`, `frn`. -/
  theora_timecode : Int → Nat → Nat → Int
  /-- Value of `(int64_t)(1000000000.0 * frd / frn)` in double arithmetic, from
  `frd`, `frn`. -/
  theora_duration : Nat → Nat → Int
  /-- Whether `size_t` has 64 bits, so that an `int64_t` compared with a
  `size()` is converted to an unsigned 64-bit value first. -/
  size_t_64 : Bool

/-- What differs between runs and builds: whether `HAVE_FLAC_FORMAT_H` is
defined, `hack_engaged(ENGAGE_ALLOW_AVC_IN_VFW_MODE)`, the user's track
selection `demuxing_requested(type, id)`, whether `ogg_stream_init` fails, and
what an `ogg_packet` variable holds that `ogg_stream_packetout` did not fill. -/
structure reader_config where
  HAVE_FLAC_FORMAT_H : Bool
  hack_allow_avc_in_vfw_mode : Bool
  demuxing_requested : Char → Nat → Bool
  ogg_stream_init_fails : Bool
  indeterminate_packet : ogg_packet

/-- State of `ogm_reader_c` and of the session: the registry `sdemuxers`,
`bos_pages_read`, the packets handed to packetizers so far (each with the
`ptzr` index it went to), the number of warnings printed, and the stream
header time unit from which the global `g_video_fps` was set, if it was. -/
structure ogm_reader_c where
  sdemuxers : List ogm_demuxer_c
  bos_pages_read : Int
  delivered : List (Int × packet_t)
  warnings : Nat
  g_video_fps : Option Nat
  deriving DecidableEq, Repr

/-! ## Integer helpers -/

/-- Value of a 64-bit two's complement pattern: the result of `int64_t`
arithmetic that wraps. -/
def int64 (x : Int) : Int := (x + 2 ^ 63) % 2 ^ 64 - 2 ^ 63

/-- Conversion of an `int64_t` to an unsigned 64-bit integer. -/
def uint64 (x : Int) : Int := x % 2 ^ 64

/-- Modelled from the spec: function `get_uint64_le` of `common/endian.h` (not
among the sources): the little-endian value of the 8 bytes at `off`. -/
def get_uint64_le (p : List Nat) (off : Nat) : Nat :=
  (List.range 8).foldr (fun i acc => byte_at p (off + i) + 256 * acc) 0

/-- C `isspace` in the C locale. -/
def isspace (c : Nat) : Bool := c == 32 || (9 ≤ c && c ≤ 13)

/-- Value of a hexadecimal digit character, if it is one. -/
def hex_digit (c : Nat) : Option Nat :=
  if 48 ≤ c ∧ c ≤ 57 then some (c - 48)
  else if 97 ≤ c ∧ c ≤ 102 then some (c - 87)
  else if 65 ≤ c ∧ c ≤ 70 then some (c - 55)
  else none

/-- The digit loop of `strtol` in base 16: digits are accumulated up to the
first character that is not a hexadecimal digit (the terminating NUL at the
latest). -/
def strtol16_digits : List Nat → Int → Int
  | [], acc => acc
  | c :: cs, acc =>
    match hex_digit c with
    | some v => strtol16_digits cs (acc * 16 + v)
    | none => acc

/-- C `strtol(s, NULL, 16)` on a string of at most a few characters (no
overflow of `long`): leading white space, an optional sign, an optional `0x`
or `0X` in front of a digit, then the digits. -/
def strtol16 (s : List Nat) : Int :=
  let s1 := s.dropWhile isspace
  let neg := s1.headD 0 == 45
  let s2 := if s1.headD 0 == 45 || s1.headD 0 == 43 then s1.tail else s1
  let s3 :=
    match s2 with
    | 48 :: x :: h :: t => if (x == 120 || x == 88) && (hex_digit h).isSome then h :: t else s2
    | _ => s2
  let v := strtol16_digits s3 0
  if neg then -v else v

/-! ## String literals -/

/-- The literal "vorbis". -/
def lit_vorbis : List Nat := [118, 111, 114, 98, 105, 115]

/-- The literal "theora". -/
def lit_theora : List Nat := [116, 104, 101, 111, 114, 97]

/-- The 7 bytes of the literal "kate\0\0\0" that `memcmp` compares. -/
def lit_kate : List Nat := [107, 97, 116, 101, 0, 0, 0]

/-- The literal "fLaC". -/
def lit_fLaC : List Nat := [102, 76, 97, 67]

/-- The literal "video". -/
def lit_video : List Nat := [118, 105, 100, 101, 111]

/-- The literal "audio". -/
def lit_audio : List Nat := [97, 117, 100, 105, 111]

/-- The literal "text". -/
def lit_text : List Nat := [116, 101, 120, 116]

/-! ## Constructors -/

/-- Constructor `ogm_demuxer_c::ogm_demuxer_c`: the initialiser list; the
containers and strings start empty, `os` is cleared by `memset`. -/
def ogm_demuxer_c.new : ogm_demuxer_c where
  cls := demuxer_class.ogm_demuxer_c
  os := []
  ptzr := -1
  track_id := 0
  stype := OGM_STREAM_TYPE_UNKNOWN
  serialno := 0
  eos := false
  units_processed := 0
  num_header_packets := 2
  num_non_header_packets := 0
  headers_read := false
  language := []
  title := []
  packet_data := []
  nh_packet_data := []
  first_granulepos := 0
  last_granulepos := 0
  default_duration := 0
  in_use := false
  display_width := 0
  display_height := 0
  frames_since_granulepos_change := 0
  theora := ⟨0, 0, 0, 0⟩
  kate := ⟨0⟩

/-- Constructor `ogm_a_aac_demuxer_c::ogm_a_aac_demuxer_c`. -/
def new_ogm_a_aac_demuxer_c : ogm_demuxer_c :=
  { ogm_demuxer_c.new with
    cls := demuxer_class.ogm_a_aac_demuxer_c, stype := OGM_STREAM_TYPE_A_AAC }

/-- Constructor `ogm_a_ac3_demuxer_c::ogm_a_ac3_demuxer_c`. -/
def new_ogm_a_ac3_demuxer_c : ogm_demuxer_c :=
  { ogm_demuxer_c.new with
    cls := demuxer_class.ogm_a_ac3_demuxer_c, stype := OGM_STREAM_TYPE_A_AC3 }

/-- Constructor `ogm_a_mp3_demuxer_c::ogm_a_mp3_demuxer_c`. -/
def new_ogm_a_mp3_demuxer_c : ogm_demuxer_c :=
  { ogm_demuxer_c.new with
    cls := demuxer_class.ogm_a_mp3_demuxer_c, stype := OGM_STREAM_TYPE_A_MP3 }

/-- Constructor `ogm_a_pcm_demuxer_c::ogm_a_pcm_demuxer_c`. -/
def new_ogm_a_pcm_demuxer_c : ogm_demuxer_c :=
  { ogm_demuxer_c.new with
    cls := demuxer_class.ogm_a_pcm_demuxer_c, stype := OGM_STREAM_TYPE_A_PCM }

/-- Constructor `ogm_a_vorbis_demuxer_c::ogm_a_vorbis_demuxer_c`. -/
def new_ogm_a_vorbis_demuxer_c : ogm_demuxer_c :=
  { ogm_demuxer_c.new with
    cls := demuxer_class.ogm_a_vorbis_demuxer_c, stype := OGM_STREAM_TYPE_A_VORBIS,
    num_header_packets := 3 }

/-- Constructor `ogm_s_text_demuxer_c::ogm_s_text_demuxer_c`. -/
def new_ogm_s_text_demuxer_c : ogm_demuxer_c :=
  { ogm_demuxer_c.new with
    cls := demuxer_class.ogm_s_text_demuxer_c, stype := OGM_STREAM_TYPE_A_AAC }

/-- Constructor `ogm_v_avc_demuxer_c::ogm_v_avc_demuxer_c`. -/
def new_ogm_v_avc_demuxer_c : ogm_demuxer_c :=
  { ogm_demuxer_c.new with
    cls := demuxer_class.ogm_v_avc_demuxer_c, stype := OGM_STREAM_TYPE_V_AVC,
    num_non_header_packets := 3 }

/-- Constructor `ogm_v_mscomp_demuxer_c::ogm_v_mscomp_demuxer_c`. -/
def new_ogm_v_mscomp_demuxer_c : ogm_demuxer_c :=
  { ogm_demuxer_c.new with
    cls := demuxer_class.ogm_v_mscomp_demuxer_c, stype := OGM_STREAM_TYPE_V_MSCOMP,
    frames_since_granulepos_change := 0 }

/-- Constructor `ogm_v_theora_demuxer_c::ogm_v_theora_demuxer_c`. -/
def new_ogm_v_theora_demuxer_c : ogm_demuxer_c :=
  { ogm_demuxer_c.new with
    cls := demuxer_class.ogm_v_theora_demuxer_c, stype := OGM_STREAM_TYPE_V_THEORA,
    num_header_packets := 3, theora := ⟨0, 0, 0, 0⟩ }

/-- Constructor `ogm_s_kate_demuxer_c::ogm_s_kate_demuxer_c`. -/
def new_ogm_s_kate_demuxer_c : ogm_demuxer_c :=
  { ogm_demuxer_c.new with
    cls := demuxer_class.ogm_s_kate_demuxer_c, stype := OGM_STREAM_TYPE_S_KATE,
    num_header_packets := 1, kate := ⟨0⟩ }

/-- The object `new ogm_a_flac_demuxer_c(this)`: what the constructor outside
the sources builds, with its dynamic class. -/
def new_ogm_a_flac_demuxer_c (ext : externals) : ogm_demuxer_c :=
  { ext.ogm_a_flac_demuxer_c with cls := demuxer_class.ogm_a_flac_demuxer_c }

/-! ## Virtual methods -/

/-- Modelled from the spec: method `ogm_demuxer_c::get_type` of the base class
(declared in `r_ogm.h`, not among the sources) returns the type name
"unknown". -/
def ogm_demuxer_c_get_type : String := "unknown"

/-- Modelled from the spec: method `ogm_a_flac_demuxer_c::get_type`
(`r_ogm_flac.h`, not among the sources): a FLAC stream is an audio track, as
`demuxing_requested('a', ...)` in the FLAC branch of `handle_new_stream` has
it. -/
def ogm_a_flac_demuxer_c_get_type : String := ID_RESULT_TRACK_AUDIO

/-- Virtual `get_type()` by dynamic class. -/
def get_type (d : ogm_demuxer_c) : String :=
  match d.cls with
  | demuxer_class.ogm_demuxer_c => ogm_demuxer_c_get_type
  | demuxer_class.ogm_a_aac_demuxer_c => ID_RESULT_TRACK_AUDIO
  | demuxer_class.ogm_a_ac3_demuxer_c => ID_RESULT_TRACK_AUDIO
  | demuxer_class.ogm_a_mp3_demuxer_c => ID_RESULT_TRACK_AUDIO
  | demuxer_class.ogm_a_pcm_demuxer_c => ID_RESULT_TRACK_AUDIO
  | demuxer_class.ogm_a_vorbis_demuxer_c => ID_RESULT_TRACK_AUDIO
  | demuxer_class.ogm_a_flac_demuxer_c => ogm_a_flac_demuxer_c_get_type
  | demuxer_class.ogm_s_text_demuxer_c => ID_RESULT_TRACK_SUBTITLES
  | demuxer_class.ogm_v_avc_demuxer_c => ID_RESULT_TRACK_VIDEO
  | demuxer_class.ogm_v_mscomp_demuxer_c => ID_RESULT_TRACK_VIDEO
  | demuxer_class.ogm_v_theora_demuxer_c => ID_RESULT_TRACK_VIDEO
  | demuxer_class.ogm_s_kate_demuxer_c => ID_RESULT_TRACK_SUBTITLES

/-- Virtual `get_codec()` for the classes that return a literal; the base
class, FLAC and MS-compressed video (which returns the fourcc) are `none`. -/
def get_codec (d : ogm_demuxer_c) : Option String :=
  match d.cls with
  | demuxer_class.ogm_a_aac_demuxer_c => some "AAC"
  | demuxer_class.ogm_a_ac3_demuxer_c => some "AC3"
  | demuxer_class.ogm_a_mp3_demuxer_c => some "MP2/MP3"
  | demuxer_class.ogm_a_pcm_demuxer_c => some "PCM"
  | demuxer_class.ogm_a_vorbis_demuxer_c => some "Vorbis"
  | demuxer_class.ogm_s_text_demuxer_c => some "Text"
  | demuxer_class.ogm_v_avc_demuxer_c => some "h.264/AVC"
  | demuxer_class.ogm_v_theora_demuxer_c => some "Theora"
  | demuxer_class.ogm_s_kate_demuxer_c => some "Kate"
  | _ => none

/-- Virtual `is_header_packet(op)`: the overrides of Theora and Kate, the base
class method for every other class. -/
def is_header_packet (ext : externals) (d : ogm_demuxer_c) (op : ogg_packet) : Bool :=
  match d.cls with
  | demuxer_class.ogm_v_theora_demuxer_c =>
    decide (0x80 ≤ byte_at op.packet 0) && decide (0x82 ≥ byte_at op.packet 0)
  | demuxer_class.ogm_s_kate_demuxer_c => (0x80 &&& byte_at op.packet 0) != 0
  | _ => ext.is_header_packet d op

/-- Result of a call that may end in `mxerror` (the program terminates): the
state reached, and whether the call returned. -/
structure outcome (α : Type) where
  state : α
  fatal : Bool

/-- Modelled from the spec: method `ogm_demuxer_c::initialize` of the base class
(declared in `r_ogm.h`, not among the sources) derives nothing: it is empty. -/
def initialize_ogm_demuxer_c (d : ogm_demuxer_c) : ogm_demuxer_c := d

/-- Virtual `initialize()` (the name is reserved in Lean): the overrides of AVC,
MS-compressed video, Theora and Kate on the demuxer; the second component is
the time unit when a video stream offers a value for `g_video_fps`. -/
def initialize_dmx (ext : externals) (d : ogm_demuxer_c) : outcome ogm_demuxer_c × Option Nat :=
  match d.cls with
  | demuxer_class.ogm_v_avc_demuxer_c =>
    (⟨d, false⟩, some (get_uint64_le (d.packet_data.headD []) (1 + ext.layout.time_unit)))
  | demuxer_class.ogm_v_mscomp_demuxer_c =>
    let time_unit := get_uint64_le (d.packet_data.headD []) (1 + ext.layout.time_unit)
    (⟨{ d with default_duration := int64 (uint64 (100 * (time_unit : Int))) }, false⟩,
      some time_unit)
  | demuxer_class.ogm_v_theora_demuxer_c =>
    match ext.theora_parse_identification_header (d.packet_data.headD []) with
    | some th =>
      (⟨{ d with theora := th, display_width := th.display_width,
                 display_height := th.display_height }, false⟩, none)
    | none => (⟨d, true⟩, none)
  | demuxer_class.ogm_s_kate_demuxer_c =>
    match ext.kate_parse_identification_header (d.packet_data.headD []) with
    | some k => (⟨{ d with kate := k, num_header_packets := k.nheaders }, false⟩, none)
    | none => (⟨d, true⟩, none)
  | demuxer_class.ogm_a_flac_demuxer_c =>
    (⟨{ ext.initialize_flac d with cls := d.cls }, false⟩, none)
  | _ => (⟨initialize_ogm_demuxer_c d, false⟩, none)

/-! ## Per-stream processing -/

/-- The call `new memory_c(&p[off], size, false)`: the size as passed and the
bytes of the packet it covers. -/
def memory_at (p : List Nat) (off : Nat) (size : Int) : memory_c :=
  ⟨size, (p.drop off).take size.toNat⟩

/-- Method `ogm_demuxer_c::get_duration_and_len`: the pair `(duration,
duration_len)` it stores through its reference arguments. -/
def get_duration_and_len (op : ogg_packet) : Nat × Nat :=
  let duration_len := ((byte_at op.packet 0 &&& PACKET_LEN_BITS01) >>> 6)
    ||| ((byte_at op.packet 0 &&& PACKET_LEN_BITS2) <<< 1)
  if 0 < duration_len ∧ op.bytes ≥ (duration_len : Int) + 1 then
    ((List.range duration_len).foldl
      (fun duration i => (duration <<< 8) + byte_at op.packet (duration_len - i)) 0,
     duration_len)
  else (0, duration_len)

/-- Whether the type bits of the first byte mark a header or a comment packet:
`((*op.packet & 3) == PACKET_TYPE_HEADER) || ((*op.packet & 3) == PACKET_TYPE_COMMENT)`. -/
def is_header_or_comment (op : ogg_packet) : Bool :=
  (byte_at op.packet 0 &&& 3) == PACKET_TYPE_HEADER
    || (byte_at op.packet 0 &&& 3) == PACKET_TYPE_COMMENT

/-- The loop of `ogm_demuxer_c::process_page` over the packets that
`ogg_stream_packetout` hands out; the result is the stream state and the
packets passed to `process`, in order. -/
def ogm_demuxer_c.process_page_loop (d : ogm_demuxer_c) :
    List ogg_packet → ogm_demuxer_c × List packet_t
  | [] => ({ d with os := [] }, [])
  | op :: rest =>
    let d1 := { d with os := rest, eos := d.eos || op.e_o_s }
    if is_header_or_comment op then ogm_demuxer_c.process_page_loop d1 rest
    else
      let dl := (get_duration_and_len op).2
      let mem := memory_at op.packet (dl + 1) (op.bytes - 1 - dl)
      let d2 := { d1 with units_processed := d1.units_processed + (op.bytes - 1) }
      let res := ogm_demuxer_c.process_page_loop d2 rest
      (res.1, ⟨mem, none, none, none, none⟩ :: res.2)

/-- Method `ogm_demuxer_c::process_page`. -/
def ogm_demuxer_c.process_page (d : ogm_demuxer_c) (_granulepos : Int) :
    ogm_demuxer_c × List packet_t :=
  ogm_demuxer_c.process_page_loop d d.os

/-- The loop of `ogm_a_vorbis_demuxer_c::process_page`. -/
def ogm_a_vorbis_demuxer_c.process_page_loop (d : ogm_demuxer_c) :
    List ogg_packet → ogm_demuxer_c × List packet_t
  | [] => ({ d with os := [] }, [])
  | op :: rest =>
    let d1 := { d with os := rest, eos := d.eos || op.e_o_s }
    if is_header_or_comment op then ogm_a_vorbis_demuxer_c.process_page_loop d1 rest
    else
      let res := ogm_a_vorbis_demuxer_c.process_page_loop d1 rest
      (res.1, ⟨memory_at op.packet 0 op.bytes, none, none, none, none⟩ :: res.2)

/-- Method `ogm_a_vorbis_demuxer_c::process_page`. -/
def ogm_a_vorbis_demuxer_c.process_page (d : ogm_demuxer_c) (_granulepos : Int) :
    ogm_demuxer_c × List packet_t :=
  ogm_a_vorbis_demuxer_c.process_page_loop d d.os

/-- The loop of `ogm_s_text_demuxer_c::process_page`. -/
def ogm_s_text_demuxer_c.process_page_loop (granulepos : Int) (d : ogm_demuxer_c) :
    List ogg_packet → ogm_demuxer_c × List packet_t
  | [] => ({ d with os := [] }, [])
  | op :: rest =>
    let d1 := { d with os := rest, eos := d.eos || op.e_o_s }
    if is_header_or_comment op then ogm_s_text_demuxer_c.process_page_loop granulepos d1 rest
    else
      let duration := (get_duration_and_len op).1
      let dl := (get_duration_and_len op).2
      let c := byte_at op.packet (dl + 1)
      let res := ogm_s_text_demuxer_c.process_page_loop granulepos d1 rest
      if (op.bytes - 1 - dl) > 2 ∨ (c ≠ 32 ∧ c ≠ 0 ∧ iscr c = false) then
        (res.1, ⟨memory_at op.packet (dl + 1) (op.bytes - 1 - dl),
                 some (int64 (granulepos * 1000000)),
                 some (int64 ((duration : Int) * 1000000)), none, none⟩ :: res.2)
      else res

/-- Method `ogm_s_text_demuxer_c::process_page`. -/
def ogm_s_text_demuxer_c.process_page (d : ogm_demuxer_c) (granulepos : Int) :
    ogm_demuxer_c × List packet_t :=
  ogm_s_text_demuxer_c.process_page_loop granulepos
    { d with units_processed := d.units_processed + 1 } d.os

/-- A collected frame of MS-compressed video (`ogm_frame_t`). -/
structure ogm_frame_t where
  mem : memory_c
  duration : Int
  flags : Nat
  deriving DecidableEq, Repr

/-- The first loop of `ogm_v_mscomp_demuxer_c::process_page`: the stream state,
the value left in the local `duration` (`none` while it is unassigned), and the
frames collected. -/
def ogm_v_mscomp_demuxer_c.collect_frames (d : ogm_demuxer_c) (duration : Option Int) :
    List ogg_packet → ogm_demuxer_c × Option Int × List ogm_frame_t
  | [] => ({ d with os := [] }, duration, [])
  | op :: rest =>
    let d1 := { d with os := rest, eos := d.eos || op.e_o_s }
    if is_header_or_comment op then ogm_v_mscomp_demuxer_c.collect_frames d1 duration rest
    else
      let dl := (get_duration_and_len op).2
      let dur : Int :=
        if dl = 0 ∨ (get_duration_and_len op).1 = 0 then 1 else (get_duration_and_len op).1
      let frame : ogm_frame_t :=
        ⟨memory_at op.packet (dl + 1) (op.bytes - 1 - dl), int64 (dur * d.default_duration),
         byte_at op.packet 0⟩
      let res := ogm_v_mscomp_demuxer_c.collect_frames d1 (some dur) rest
      (res.1, res.2.1, frame :: res.2.2)

/-- The second loop of `ogm_v_mscomp_demuxer_c::process_page`, over the
collected frames; `duration` is the value the first loop left. -/
def ogm_v_mscomp_demuxer_c.emit_frames (duration : Int) (d : ogm_demuxer_c) :
    List ogm_frame_t → ogm_demuxer_c × List packet_t
  | [] => (d, [])
  | frame :: rest =>
    let timecode := int64 ((d.last_granulepos + d.frames_since_granulepos_change)
      * d.default_duration)
    let d1 := { d with
      frames_since_granulepos_change := d.frames_since_granulepos_change + 1,
      units_processed := d.units_processed + duration }
    let res := ogm_v_mscomp_demuxer_c.emit_frames duration d1 rest
    (res.1, ⟨frame.mem, some timecode, some frame.duration,
             some (if (frame.flags &&& PACKET_IS_SYNCPOINT) ≠ 0 then frame_type_e.VFT_IFRAME
                   else frame_type_e.VFT_PFRAMEAUTOMATIC), none⟩ :: res.2)

/-- Method `ogm_v_mscomp_demuxer_c::process_page`. -/
def ogm_v_mscomp_demuxer_c.process_page (ext : externals) (d : ogm_demuxer_c)
    (granulepos : Int) : ogm_demuxer_c × List packet_t :=
  let col := ogm_v_mscomp_demuxer_c.collect_frames d none d.os
  let d1 := col.1
  let frames := col.2.2
  let gap : Bool :=
    if ext.size_t_64 then
      decide (uint64 (int64 (granulepos - d1.last_granulepos)) > (frames.length : Int))
    else decide (int64 (granulepos - d1.last_granulepos) > (frames.length : Int))
  let d2 :=
    if gap then { d1 with last_granulepos := int64 (granulepos - (frames.length : Int)) }
    else d1
  let res := ogm_v_mscomp_demuxer_c.emit_frames (col.2.1.getD 0) d2 frames
  let d3 := res.1
  (if granulepos ≠ d3.last_granulepos then { d3 with frames_since_granulepos_change := 0 }
   else d3, res.2)

/-- The loop of `ogm_v_theora_demuxer_c::process_page`. -/
def ogm_v_theora_demuxer_c.process_page_loop (ext : externals) (d : ogm_demuxer_c) :
    List ogg_packet → ogm_demuxer_c × List packet_t
  | [] => ({ d with os := [] }, [])
  | op :: rest =>
    let d1 := { d with os := rest, eos := d.eos || op.e_o_s }
    if op.bytes = 0 ∨ (byte_at op.packet 0 &&& 0x80) ≠ 0 then
      ogm_v_theora_demuxer_c.process_page_loop ext d1 rest
    else
      let is_keyframe := (byte_at op.packet 0 &&& 0x40) == 0x00
      let timecode := ext.theora_timecode d1.units_processed d1.theora.frd d1.theora.frn
      let duration := ext.theora_duration d1.theora.frd d1.theora.frn
      let bref := if is_keyframe then frame_type_e.VFT_IFRAME
        else frame_type_e.VFT_PFRAMEAUTOMATIC
      let d2 := { d1 with units_processed := d1.units_processed + 1 }
      let res := ogm_v_theora_demuxer_c.process_page_loop ext d2 rest
      (res.1, ⟨memory_at op.packet 0 op.bytes, some timecode, some duration, some bref,
               some frame_type_e.VFT_NOBFRAME⟩ :: res.2)

/-- Method `ogm_v_theora_demuxer_c::process_page`. -/
def ogm_v_theora_demuxer_c.process_page (ext : externals) (d : ogm_demuxer_c)
    (_granulepos : Int) : ogm_demuxer_c × List packet_t :=
  ogm_v_theora_demuxer_c.process_page_loop ext d d.os

/-- The loop of `ogm_s_kate_demuxer_c::process_page`; it returns at the first
delivered packet that has `e_o_s` set and leaves the rest pending. -/
def ogm_s_kate_demuxer_c.process_page_loop (d : ogm_demuxer_c) :
    List ogg_packet → ogm_demuxer_c × List packet_t
  | [] => ({ d with os := [] }, [])
  | op :: rest =>
    let d1 := { d with os := rest, eos := d.eos || op.e_o_s }
    if op.bytes = 0 ∨ (byte_at op.packet 0 &&& 0x80) ≠ 0 then
      ogm_s_kate_demuxer_c.process_page_loop d1 rest
    else
      let pk : packet_t := ⟨memory_at op.packet 0 op.bytes, none, none, none, none⟩
      let d2 := { d1 with units_processed := d1.units_processed + 1 }
      if op.e_o_s then ({ d2 with eos := true }, [pk])
      else
        let res := ogm_s_kate_demuxer_c.process_page_loop d2 rest
        (res.1, pk :: res.2)

/-- Method `ogm_s_kate_demuxer_c::process_page`. -/
def ogm_s_kate_demuxer_c.process_page (d : ogm_demuxer_c) (_granulepos : Int) :
    ogm_demuxer_c × List packet_t :=
  ogm_s_kate_demuxer_c.process_page_loop d d.os

/-- Virtual `dmx->process_page(granulepos)` by dynamic class. -/
def dmx_process_page (ext : externals) (d : ogm_demuxer_c) (granulepos : Int) :
    ogm_demuxer_c × List packet_t :=
  match d.cls with
  | demuxer_class.ogm_a_vorbis_demuxer_c => ogm_a_vorbis_demuxer_c.process_page d granulepos
  | demuxer_class.ogm_s_text_demuxer_c => ogm_s_text_demuxer_c.process_page d granulepos
  | demuxer_class.ogm_v_mscomp_demuxer_c => ogm_v_mscomp_demuxer_c.process_page ext d granulepos
  | demuxer_class.ogm_v_theora_demuxer_c => ogm_v_theora_demuxer_c.process_page ext d granulepos
  | demuxer_class.ogm_s_kate_demuxer_c => ogm_s_kate_demuxer_c.process_page d granulepos
  | demuxer_class.ogm_a_flac_demuxer_c =>
    ({ (ext.flac_process_page d granulepos).1 with cls := d.cls },
     (ext.flac_process_page d granulepos).2)
  | _ => ogm_demuxer_c.process_page d granulepos

/-- The loop of `ogm_demuxer_c::process_header_page` with the check behind it;
the second component counts the warnings printed (1 on the path that finds a
non-header packet while the non-header buffer is full, which also resets the
stream state). -/
def ogm_demuxer_c.process_header_page_loop (ext : externals) (d : ogm_demuxer_c) :
    List ogg_packet → ogm_demuxer_c × Nat
  | [] =>
    let d1 := { d with os := [] }
    if d1.packet_data.length = d1.num_header_packets
        ∧ d1.nh_packet_data.length ≥ d1.num_non_header_packets then
      ({ d1 with headers_read := true }, 0)
    else (d1, 0)
  | op :: rest =>
    let d1 := { d with os := rest, eos := d.eos || op.e_o_s }
    if is_header_packet ext d1 op = false then
      if d1.nh_packet_data.length ≠ d1.num_non_header_packets then
        ogm_demuxer_c.process_header_page_loop ext
          { d1 with nh_packet_data := d1.nh_packet_data ++ [op.packet] } rest
      else ({ d1 with headers_read := true, os := [] }, 1)
    else
      ogm_demuxer_c.process_header_page_loop ext
        { d1 with packet_data := d1.packet_data ++ [op.packet], eos := d1.eos || op.e_o_s } rest

/-- Method `ogm_demuxer_c::process_header_page`. -/
def ogm_demuxer_c.process_header_page (ext : externals) (d : ogm_demuxer_c) :
    ogm_demuxer_c × Nat :=
  ogm_demuxer_c.process_header_page_loop ext d d.os

/-- The call `dmx->process_header_page()` by dynamic class. -/
def dmx_process_header_page (ext : externals) (d : ogm_demuxer_c) : ogm_demuxer_c × Nat :=
  match d.cls with
  | demuxer_class.ogm_a_flac_demuxer_c =>
    ({ ext.flac_process_header_page d with cls := d.cls }, 0)
  | _ => ogm_demuxer_c.process_header_page ext d

/-! ## The reader -/

/-- Method `ogm_reader_c::find_demuxer`: the position and the state of the
stream the returned pointer refers to, `none` for the NULL pointer. -/
def find_demuxer_from (serialno : Int) : List ogm_demuxer_c → Nat → Option (Nat × ogm_demuxer_c)
  | [], _ => none
  | d :: ds, i =>
    if d.serialno = serialno then
      if d.in_use then some (i, d) else none
    else find_demuxer_from serialno ds (i + 1)

/-- Method `ogm_reader_c::find_demuxer`. -/
def find_demuxer (r : ogm_reader_c) (serialno : Int) : Option (Nat × ogm_demuxer_c) :=
  find_demuxer_from serialno r.sdemuxers 0

/-- What the if-chain of `handle_new_stream` leaves in `dmx`: a new object, the
NULL pointer (with the number of warnings printed), or no return at all
(`mxerror_fn`). -/
inductive sniffed
  | dmx (d : ogm_demuxer_c)
  | null (warnings : Nat)
  | fatal
  deriving DecidableEq, Repr

/-- The 4 characters `memcpy(buf, sth->subtype, 4)` copies, for the stream
header that starts at byte 1 of the packet. -/
def subtype_buf (ext : externals) (op : ogg_packet) : List Nat :=
  (List.range 4).map (fun i => byte_at op.packet (1 + ext.layout.subtype + i))

/-- The branch for `streamtype` "audio": the codec id read by `strtol(buf, NULL,
16)` and stored in a `uint32_t`, and the demuxer it selects. -/
def sniff_audio (ext : externals) (op : ogg_packet) : sniffed :=
  let codec_id := strtol16 (subtype_buf ext op) % 2 ^ 32
  if 0x0001 = codec_id then sniffed.dmx new_ogm_a_pcm_demuxer_c
  else if 0x0050 = codec_id ∨ 0x0055 = codec_id then sniffed.dmx new_ogm_a_mp3_demuxer_c
  else if 0x2000 = codec_id then sniffed.dmx new_ogm_a_ac3_demuxer_c
  else if 0x00ff = codec_id then sniffed.dmx new_ogm_a_aac_demuxer_c
  else sniffed.null 1

/-- The if-chain of `ogm_reader_c::handle_new_stream` that inspects the first
packet `op`; `n` is `sdemuxers.size()`. -/
def sniff (ext : externals) (cfg : reader_config) (n : Nat) (op : ogg_packet) : sniffed :=
  if 7 ≤ op.bytes ∧ strncmp (op.packet.drop 1) lit_vorbis 6 = 0 then
    sniffed.dmx new_ogm_a_vorbis_demuxer_c
  else if 7 ≤ op.bytes ∧ strncmp (op.packet.drop 1) lit_theora 6 = 0 then
    sniffed.dmx new_ogm_v_theora_demuxer_c
  else if 8 ≤ op.bytes ∧ memcmp (op.packet.drop 1) lit_kate 7 = 0 then
    sniffed.dmx new_ogm_s_kate_demuxer_c
  else if 4 ≤ op.bytes ∧ strncmp op.packet lit_fLaC 4 = 0 then
    if cfg.HAVE_FLAC_FORMAT_H then sniffed.dmx (new_ogm_a_flac_demuxer_c ext)
    else if cfg.demuxing_requested 'a' n then sniffed.fatal
    else sniffed.dmx { ogm_demuxer_c.new with stype := OGM_STREAM_TYPE_A_FLAC, in_use := true }
  else if (byte_at op.packet 0 &&& PACKET_TYPE_BITS) = PACKET_TYPE_HEADER
      ∧ op.bytes ≥ (ext.layout.sizeof_stream_header : Int) + 1 then
    if strncmp (op.packet.drop (1 + ext.layout.streamtype)) lit_video 5 = 0 then
      if ext.is_avc_fourcc (subtype_buf ext op ++ [0]) && !cfg.hack_allow_avc_in_vfw_mode then
        sniffed.dmx new_ogm_v_avc_demuxer_c
      else sniffed.dmx new_ogm_v_mscomp_demuxer_c
    else if strncmp (op.packet.drop (1 + ext.layout.streamtype)) lit_audio 5 = 0 then
      sniff_audio ext op
    else if strncmp (op.packet.drop (1 + ext.layout.streamtype)) lit_text 4 = 0 then
      sniffed.dmx new_ogm_s_text_demuxer_c
    else sniffed.null 0
  else sniffed.null 0

/-- The rest of `ogm_reader_c::handle_new_stream` once `dmx` is not NULL: the
stream is completed, registered at the end of `sdemuxers` and initialised. -/
def register_stream (ext : externals) (cfg : reader_config) (r : ogm_reader_c) (og : ogg_page)
    (op : ogg_packet) (os : List ogg_packet) (dmx : ogm_demuxer_c) : outcome ogm_reader_c :=
  let type := get_type dmx
  let d1 := { dmx with serialno := og.serialno, track_id := r.sdemuxers.length }
  let d2 := { d1 with
    in_use := (type != "unknown") && cfg.demuxing_requested (type.get 0) d1.track_id }
  let d3 := { d2 with packet_data := d2.packet_data ++ [op.packet] }
  let d4 := { d3 with os := os }
  let ini := initialize_dmx ext d4
  ⟨{ r with
      sdemuxers := r.sdemuxers ++ [ini.1.state],
      g_video_fps := if r.g_video_fps.isNone then ini.2 else r.g_video_fps },
   ini.1.fatal⟩

/-- Method `ogm_reader_c::handle_new_stream`. -/
def handle_new_stream (ext : externals) (cfg : reader_config) (r : ogm_reader_c)
    (og : ogg_page) : outcome ogm_reader_c :=
  if cfg.ogg_stream_init_fails then ⟨{ r with warnings := r.warnings + 1 }, false⟩
  else
    let op := og.packets.headD cfg.indeterminate_packet
    let os := og.packets.tail
    match sniff ext cfg r.sdemuxers.length op with
    | sniffed.fatal => ⟨r, true⟩
    | sniffed.dmx d => register_stream ext cfg r og op os d
    | sniffed.null w =>
      register_stream ext cfg { r with warnings := r.warnings + w } og op os ogm_demuxer_c.new

/-- Method `ogm_reader_c::process_header_packets` for the stream at position
`i` of the registry. -/
def process_header_packets (ext : externals) (r : ogm_reader_c) (i : Nat)
    (dmx : ogm_demuxer_c) : ogm_reader_c :=
  if dmx.headers_read then r
  else
    let res := dmx_process_header_page ext dmx
    { r with sdemuxers := r.sdemuxers.set i res.1, warnings := r.warnings + res.2 }

/-- Method `ogm_reader_c::handle_new_stream_and_packets`. -/
def handle_new_stream_and_packets (ext : externals) (cfg : reader_config) (r : ogm_reader_c)
    (og : ogg_page) : outcome ogm_reader_c :=
  let res := handle_new_stream ext cfg r og
  if res.fatal then res
  else
    match find_demuxer res.state og.serialno with
    | some (i, dmx) => ⟨process_header_packets ext res.state i dmx, false⟩
    | none => res

/-- Method `ogm_reader_c::process_page`. -/
def process_page (ext : externals) (r : ogm_reader_c) (og : ogg_page) : ogm_reader_c :=
  match find_demuxer r og.serialno with
  | none => r
  | some (i, dmx) =>
    if !dmx.in_use then r
    else
      let granulepos := og.granulepos
      if -1 ≠ granulepos ∧ granulepos < dmx.last_granulepos then
        { r with warnings := r.warnings + 1 }
      else
        let d1 := { dmx with os := dmx.os ++ og.packets }
        let res := dmx_process_page ext d1 granulepos
        let d2 := { res.1 with last_granulepos := granulepos }
        { r with
          sdemuxers := r.sdemuxers.set i d2,
          delivered := r.delivered ++ res.2.map (fun pk => (d1.ptzr, pk)) }

/-- Method `ogm_reader_c::process_header_page`. -/
def process_header_page (ext : externals) (r : ogm_reader_c) (og : ogg_page) : ogm_reader_c :=
  match find_demuxer r og.serialno with
  | none => r
  | some (i, dmx) =>
    if dmx.headers_read then r
    else process_header_packets ext r i { dmx with os := dmx.os ++ og.packets }

/-- Method `ogm_reader_c::read_headers` on the pages `read_page` yields, in file
order: the value returned (with the state), or no return at all. -/
def read_headers (ext : externals) (cfg : reader_config) :
    List ogg_page → ogm_reader_c → outcome (Int × ogm_reader_c)
  | [], r => ⟨(0, r), false⟩
  | og :: rest, r =>
    if og.bos then
      let res := handle_new_stream_and_packets ext cfg r og
      if res.fatal then ⟨(0, res.state), true⟩
      else read_headers ext cfg rest res.state
    else
      let r1 := process_header_page ext { r with bos_pages_read := 1 } og
      if r1.sdemuxers.any (fun dmx => !dmx.headers_read && dmx.in_use) then
        read_headers ext cfg rest r1
      else ⟨(1, r1), false⟩


/-- The values of `file_status_e` that `ogm_reader_c::read` returns. -/
inductive file_status_e
  | FILE_STATUS_DONE
  | FILE_STATUS_HOLDING
  | FILE_STATUS_MOREDATA
  deriving DecidableEq, Repr

/-- What a call of `ogm_reader_c::read` leaves: the status returned, the reader
state, the pages of the source that have not been read, and whether
`flush_packetizers` was called. -/
structure read_result where
  status : file_status_e
  reader : ogm_reader_c
  rest : List ogg_page
  flushed : Bool
  deriving DecidableEq, Repr

/-- The do-while loop of `ogm_reader_c::read`: pages are read up to the first one
that is not a beginning-of-stream page, which goes to `process_page`; `none`
when `read_page` reports the end of the source first. -/
def read_loop (ext : externals) : List ogg_page → ogm_reader_c →
    Option (ogm_reader_c × List ogg_page)
  | [], _ => none
  | og :: rest, r =>
    if !og.bos then some (process_page ext r og, rest)
    else read_loop ext rest r

/-- Method `ogm_reader_c::read`; `queued_bytes` is what `get_queued_bytes()`
returns, `pages` are the pages `read_page` yields from the current position
of the source. -/
def read (ext : externals) (queued_bytes : Int) (pages : List ogg_page) (r : ogm_reader_c) :
    read_result :=
  if queued_bytes > 20 * 1024 * 1024 then ⟨file_status_e.FILE_STATUS_HOLDING, r, pages, false⟩
  else
    match read_loop ext pages r with
    | none => ⟨file_status_e.FILE_STATUS_DONE, r, [], true⟩
    | some (r1, rest) =>
      if r1.sdemuxers.any (fun dmx => !dmx.eos && dmx.in_use) then
        ⟨file_status_e.FILE_STATUS_MOREDATA, r1, rest, false⟩
      else ⟨file_status_e.FILE_STATUS_DONE, r1, rest, true⟩

/-! ## Comments -/

/-- Code of the repository that `extract_vorbis_comments` and
`handle_stream_comments` call and that is not among the sources, and the
command line options they read, taken as parameters. -/
structure comment_externals where
  /-- Whether `mm_io_c::skip` throws when the position it asks for lies behind the
  end of the buffer (otherwise the position is left at the end). -/
  skip_past_end_throws : Bool
  /-- Whether `vector<string>::reserve(n)` throws. -/
  reserve_throws : Nat → Bool
  /-- Function `split(s, "=", 2)` of `common/strings`. -/
  split : List Nat → List (List Nat)
  /-- Function `map_to_iso639_2_code` on a NUL-terminated string. -/
  map_to_iso639_2_code : List Nat → Int
  /-- Member `iso639_languages[index].iso639_2_code`. -/
  iso639_2_code : Int → List Nat
  /-- Method `charset_converter_c::utf8` of the converter for `ti.chapter_charset`. -/
  utf8 : List Nat → List Nat
  /-- Function `parse_chapters` on the memory file that holds the byte order mark
  and the given lines: `none` when it throws, else the pointer it returns
  (`none` for NULL). -/
  parse_chapters : List (List Nat) → Option (Option Nat)
  /-- Option `ti.no_chapters`. -/
  no_chapters : Bool
  /-- Whether `ti.chapter_charset == ""`. -/
  chapter_charset_empty : Bool

/-- Modelled from the spec: class `mm_mem_io_c` (`common/mm_io.h`, not among the
sources) reading a buffer front to back: the bytes from the current position
to the end of the buffer. -/
structure mm_mem_io_c where
  rest : List Nat
  deriving DecidableEq, Repr

/-- Modelled from the spec: method `mm_io_c::skip`; `none` when it throws. -/
def mm_mem_io_c.skip (cx : comment_externals) (inp : mm_mem_io_c) (n : Nat) :
    Option mm_mem_io_c :=
  if n ≤ inp.rest.length then some ⟨inp.rest.drop n⟩
  else if cx.skip_past_end_throws then none
  else some ⟨[]⟩

/-- Modelled from the spec: method `mm_mem_io_c::read(buffer, size)`: the bytes
copied to the buffer (as many as are left, at most `size`) and the reader
behind them. -/
def mm_mem_io_c.read (inp : mm_mem_io_c) (size : Nat) : List Nat × mm_mem_io_c :=
  (inp.rest.take size, ⟨inp.rest.drop size⟩)

/-- Modelled from the spec: function `get_uint32_le` of `common/endian.h` (not
among the sources): the little-endian value of 4 bytes. -/
def get_uint32_le (p : List Nat) : Nat :=
  (byte_at p 0 + 256 * (byte_at p 1 + 256 * (byte_at p 2 + 256 * byte_at p 3))) % 2 ^ 32

/-- Modelled from the spec: method `mm_io_c::read_uint32_le`: it throws (`none`)
when fewer than 4 bytes are left. -/
def mm_mem_io_c.read_uint32_le (inp : mm_mem_io_c) : Option (Nat × mm_mem_io_c) :=
  if (inp.read 4).1.length ≠ 4 then none
  else some (get_uint32_le (inp.read 4).1, (inp.read 4).2)

/-- The `for` loop of `extract_vorbis_comments` with `count = n - i` entries to
go.  An exception ends the loop and the `catch (...)` block leaves `comments`
as it is.  The buffer has `len + 1` bytes in `uint32_t` arithmetic; the result
is `none` when `read` copies more bytes than that to it (the behaviour is
undefined). -/
def extract_vorbis_comments_loop :
    Nat → mm_mem_io_c → List (List Nat) → Option (List (List Nat))
  | 0, _, comments => some comments
  | count + 1, inp, comments =>
    match inp.read_uint32_le with
    | none => some comments
    | some (len, in1) =>
      if (len + 1) % 2 ^ 32 < (in1.read len).1.length then none
      else if (in1.read len).1.length ≠ len then some comments
      else extract_vorbis_comments_loop count (in1.read len).2
        (comments ++ [(in1.read len).1])

/-- Function `extract_vorbis_comments` on the bytes of `mem`; `none` when the
behaviour is undefined. -/
def extract_vorbis_comments (cx : comment_externals) (mem : List Nat) :
    Option (List (List Nat)) :=
  match mm_mem_io_c.skip cx ⟨mem⟩ 7 with
  | none => some []
  | some in1 =>
    match in1.read_uint32_le with
    | none => some []
    | some (n, in2) =>
      match mm_mem_io_c.skip cx in2 n with
      | none => some []
      | some in3 =>
        match in3.read_uint32_le with
        | none => some []
        | some (n, in4) =>
          if cx.reserve_throws n then some []
          else extract_vorbis_comments_loop n in4 []

/-! ## Strings -/

/-- Value of a 32-bit two's complement pattern: a conversion to `int`, and the
result of `int` arithmetic that wraps. -/
def int32 (x : Int) : Int := (x + 2 ^ 31) % 2 ^ 32 - 2 ^ 31

/-- The value `std::string::npos`, the largest `size_t`. -/
def npos (ext : externals) : Nat := if ext.size_t_64 then 2 ^ 64 - 1 else 2 ^ 32 - 1

/-- Conversion of an `int` to `size_t`. -/
def to_size_t (ext : externals) (x : Int) : Nat := (x % ((npos ext : Int) + 1)).toNat

/-- Index of the first `c` in a string, if there is one. -/
def find_index (c : Nat) : List Nat → Option Nat
  | [] => none
  | x :: xs => if x = c then some 0 else (find_index c xs).map (fun i => i + 1)

/-- C++ `s.find(str, pos)` for a string `str` of the one character `c`: the index
of the first `c` at or behind `pos`, `npos` when there is none. -/
def string_find (ext : externals) (s : List Nat) (c : Nat) (pos : Nat) : Nat :=
  match find_index c (s.drop pos) with
  | some i => pos + i
  | none => npos ext

/-- C++ `s.erase(pos, n)` for `pos <= s.size()`: the characters from `pos` on, `n`
of them at most, are removed. -/
def string_erase (s : List Nat) (pos n : Nat) : List Nat := s.take pos ++ s.drop (pos + n)

/-- C++ `s.c_str()` as the callee sees it: the characters in front of the first
NUL. -/
def c_str (s : List Nat) : List Nat := s.takeWhile (fun c => c != 0)

/-- The literal "LANGUAGE". -/
def lit_LANGUAGE : List Nat := [76, 65, 78, 71, 85, 65, 71, 69]

/-- The literal "TITLE". -/
def lit_TITLE : List Nat := [84, 73, 84, 76, 69]

/-- The literal "CHAPTER". -/
def lit_CHAPTER : List Nat := [67, 72, 65, 80, 84, 69, 82]

/-- Modelled from the spec: function `starts_with` of `common/strings` (not among
the sources): whether `s` begins with `start`. -/
def starts_with (s start : List Nat) : Bool := s.take start.length == start

/-! ## Stream comments -/

/-- One of the two `while (0 <= pos1)` loops of `handle_stream_comments` that
strip annotations from a language, for the opening character `o` and the
closing character `c`; `pos1` holds `lang.find(o)` converted to `int`.  Every
iteration takes one unit of `fuel`; `none` when it is used up. -/
def strip_loop (ext : externals) (o c : Nat) : Nat → List Nat → Int → Option (List Nat)
  | 0, _, _ => none
  | fuel + 1, lang, pos1 =>
    if 0 ≤ pos1 then
      let found := int32 (string_find ext lang c (to_size_t ext pos1))
      let pos2 := if -1 = found then int32 ((lang.length : Int) - 1) else found
      let lang1 := string_erase lang (to_size_t ext pos1)
        (to_size_t ext (int32 (pos2 - pos1 + 1)))
      strip_loop ext o c fuel lang1 (int32 (string_find ext lang1 o 0))
    else some lang

/-- The two stripping loops of `handle_stream_comments` in a row, on the value of
a LANGUAGE comment: first "[" to "]", then "(" to ")". -/
def strip_language (ext : externals) (fuel : Nat) (value : List Nat) : Option (List Nat) :=
  match strip_loop ext 91 93 fuel value (int32 (string_find ext value 91 0)) with
  | none => none
  | some lang => strip_loop ext 40 41 fuel lang (int32 (string_find ext lang 40 0))

/-- The branch of `handle_stream_comments` for a LANGUAGE comment with the value
`comment[1]`: the stream with its language set when the language table knows
the value or the value without its annotations; `none` when a stripping loop
uses up `fuel`. -/
def handle_language (ext : externals) (cx : comment_externals) (fuel : Nat)
    (dmx : ogm_demuxer_c) (value : List Nat) : Option ogm_demuxer_c :=
  if -1 ≠ cx.map_to_iso639_2_code (c_str value) then
    some { dmx with language := cx.iso639_2_code (cx.map_to_iso639_2_code (c_str value)) }
  else
    match strip_language ext fuel value with
    | none => none
    | some lang =>
      if -1 ≠ cx.map_to_iso639_2_code (c_str lang) then
        some { dmx with language := cx.iso639_2_code (cx.map_to_iso639_2_code (c_str lang)) }
      else some dmx

/-- The loop of `handle_stream_comments` over the comments of one stream, on the
stream, the local `title` and the local `chapter_strings`. -/
def handle_comments_loop (ext : externals) (cx : comment_externals) (fuel : Nat) :
    List (List Nat) → ogm_demuxer_c → List Nat → List (List Nat) →
    Option (ogm_demuxer_c × List Nat × List (List Nat))
  | [], dmx, title, chapter_strings => some (dmx, title, chapter_strings)
  | c :: rest, dmx, title, chapter_strings =>
    if (cx.split c).length ≠ 2 then
      handle_comments_loop ext cx fuel rest dmx title chapter_strings
    else if (cx.split c).getD 0 [] = lit_LANGUAGE then
      match handle_language ext cx fuel dmx ((cx.split c).getD 1 []) with
      | none => none
      | some dmx1 => handle_comments_loop ext cx fuel rest dmx1 title chapter_strings
    else if (cx.split c).getD 0 [] = lit_TITLE then
      handle_comments_loop ext cx fuel rest dmx ((cx.split c).getD 1 []) chapter_strings
    else if starts_with ((cx.split c).getD 0 []) lit_CHAPTER then
      handle_comments_loop ext cx fuel rest dmx title (chapter_strings ++ [c])
    else handle_comments_loop ext cx fuel rest dmx title chapter_strings

/-- The globals of the session that `handle_stream_comments` reads and writes;
`g_kax_chapters` is `none` for NULL. -/
structure session_globals where
  g_segment_title : List Nat
  g_segment_title_set : Bool
  g_kax_chapters : Option Nat
  deriving DecidableEq, Repr

/-- What the loop of `handle_stream_comments` over the streams carries along: the
locals `title` and `charset_warning_printed`, the globals, and the number of
warnings printed. -/
structure comments_state where
  title : List Nat
  charset_warning_printed : Bool
  globals : session_globals
  warnings : Nat
  deriving DecidableEq, Repr

/-- The body of the loop of `handle_stream_comments` behind the loop over the
comments: the title, the chapters and the warning about the charset. -/
def apply_stream_comments (cx : comment_externals) (dmx : ogm_demuxer_c) (title : List Nat)
    (chapter_strings : List (List Nat)) (st : comments_state) :
    ogm_demuxer_c × comments_state :=
  let title1 := if title ≠ [] then cx.utf8 title else title
  let segment_title_set : Bool :=
    decide (title ≠ []) && !st.globals.g_segment_title_set
      && st.globals.g_segment_title.isEmpty && decide (OGM_STREAM_TYPE_V_MSCOMP = dmx.stype)
  let g1 : session_globals :=
    if segment_title_set then
      { st.globals with g_segment_title := title1, g_segment_title_set := true }
    else st.globals
  let dmx1 := if title ≠ [] then { dmx with title := c_str title1 } else dmx
  let title2 : List Nat := if title ≠ [] then [] else title1
  let parsed : Option (Option Nat) :=
    if !chapter_strings.isEmpty && !cx.no_chapters && g1.g_kax_chapters.isNone then
      cx.parse_chapters (chapter_strings.map cx.utf8)
    else none
  let chapters_set := parsed.isSome
  let g2 : session_globals :=
    match parsed with
    | some p => { g1 with g_kax_chapters := p }
    | none => g1
  let warn : Bool :=
    (segment_title_set || chapters_set) && !st.charset_warning_printed
      && cx.chapter_charset_empty
  (dmx1,
   { title := title2
     charset_warning_printed := if warn then true else st.charset_warning_printed
     globals := g2
     warnings := if warn then st.warnings + 1 else st.warnings })

/-- The body of the loop of `handle_stream_comments` over the streams; `none`
when the behaviour of `extract_vorbis_comments` is undefined or a stripping
loop uses up `fuel`. -/
def handle_stream (ext : externals) (cx : comment_externals) (fuel : Nat)
    (dmx : ogm_demuxer_c) (st : comments_state) : Option (ogm_demuxer_c × comments_state) :=
  if OGM_STREAM_TYPE_A_FLAC = dmx.stype ∨ 2 > dmx.packet_data.length then some (dmx, st)
  else
    match extract_vorbis_comments cx (dmx.packet_data.getD 1 []) with
    | none => none
    | some comments =>
      if comments.isEmpty then some (dmx, st)
      else
        match handle_comments_loop ext cx fuel comments dmx st.title [] with
        | none => none
        | some (dmx1, title, chapter_strings) =>
          some (apply_stream_comments cx dmx1 title chapter_strings st)

/-- The loop of `handle_stream_comments` over `sdemuxers`. -/
def handle_stream_comments_loop (ext : externals) (cx : comment_externals) (fuel : Nat) :
    List ogm_demuxer_c → comments_state → Option (List ogm_demuxer_c × comments_state)
  | [], st => some ([], st)
  | dmx :: rest, st =>
    match handle_stream ext cx fuel dmx st with
    | none => none
    | some (dmx1, st1) =>
      match handle_stream_comments_loop ext cx fuel rest st1 with
      | none => none
      | some (ds, st2) => some (dmx1 :: ds, st2)

/-- Method `ogm_reader_c::handle_stream_comments` on the reader and the globals
of the session. -/
def handle_stream_comments (ext : externals) (cx : comment_externals) (fuel : Nat)
    (r : ogm_reader_c) (g : session_globals) : Option (ogm_reader_c × session_globals) :=
  match handle_stream_comments_loop ext cx fuel r.sdemuxers ⟨[], false, g, r.warnings⟩ with
  | none => none
  | some (ds, st) => some ({ r with sdemuxers := ds, warnings := st.warnings }, st.globals)

/-! ## Example inputs -/

/-- A layout of `stream_header` with `streamtype` first, `subtype` behind its 8
characters, `time_unit` at offset 16 and 52 bytes in all. -/
def layout_example : stream_header_layout := ⟨52, 0, 8, 16⟩

/-- An instance of the code outside the sources, for the examples: the base
class takes a packet for a header packet when bit 0 of its first byte is
set. -/
def ext_example : externals where
  layout := layout_example
  is_avc_fourcc := fun buf => buf == [97, 118, 99, 49, 0]
  theora_parse_identification_header := fun _ => some ⟨25, 1, 0, 0⟩
  kate_parse_identification_header := fun p => some ⟨byte_at p 11⟩
  is_header_packet := fun _ op => (byte_at op.packet 0 &&& 1) == 1
  ogm_a_flac_demuxer_c := { ogm_demuxer_c.new with stype := OGM_STREAM_TYPE_A_FLAC }
  initialize_flac := fun d => d
  flac_process_header_page := fun d => d
  flac_process_page := fun d _ => (d, [])
  theora_timecode := fun k frd frn => 1000000000 * k * frd / frn
  theora_duration := fun frd frn => 1000000000 * frd / frn
  size_t_64 := true

/-- A run with FLAC support, no hack engaged and every track requested. -/
def cfg_example : reader_config := ⟨true, false, fun _ _ => true, false, ⟨[], false⟩⟩

/-- The reader before the first page. -/
def reader_initial : ogm_reader_c := ⟨[], 0, [], 0, none⟩

/-- A Vorbis identification packet: 0x01 "vorbis" and one more byte. -/
def op_vorbis_id : ogg_packet := ⟨[1, 118, 111, 114, 98, 105, 115, 0], false⟩

/-- A Vorbis stream's header pages: the identification packet on the
beginning-of-stream page, comment and setup packet on the next page. -/
def pages_vorbis_headers : List ogg_page :=
  [⟨7, 0, true, [op_vorbis_id]⟩,
   ⟨7, 0, false, [⟨[3, 118, 111, 114, 98, 105, 115], false⟩,
                  ⟨[5, 118, 111, 114, 98, 105, 115], false⟩]⟩]

/-- A Theora stream after its beginning-of-stream page (the identification
packet 0x80 "theora" is buffered), with the next page submitted: that page
holds one data packet, first byte 0x00. -/
def dmx_theora_data_early : ogm_demuxer_c :=
  { new_ogm_v_theora_demuxer_c with
    packet_data := [[0x80, 116, 104, 101, 111, 114, 97]],
    os := [⟨[0x00, 1, 2], false⟩] }

/-- The pages that lead to `dmx_theora_data_early`: a beginning-of-stream page
with the Theora identification packet, then a page with one data packet. -/
def pages_theora_data_early : List ogg_page :=
  [⟨3, 0, true, [⟨[0x80, 116, 104, 101, 111, 114, 97], false⟩]⟩,
   ⟨3, 0, false, [⟨[0x00, 1, 2], false⟩]⟩]

/-- A Vorbis stream after its beginning-of-stream page, with the next page
submitted: that page holds the comment and the setup packet. -/
def dmx_vorbis_two_headers : ogm_demuxer_c :=
  { new_ogm_a_vorbis_demuxer_c with
    packet_data := [op_vorbis_id.packet],
    os := [⟨[3, 118, 111, 114, 98, 105, 115], false⟩,
           ⟨[5, 118, 111, 114, 98, 105, 115], false⟩] }

/-- A Vorbis stream in steady state: in use, headers read, packetizer 0, serial
number 7, last granule position 0. -/
def dmx_vorbis_steady : ogm_demuxer_c :=
  { new_ogm_a_vorbis_demuxer_c with
    serialno := 7, in_use := true, headers_read := true, ptzr := 0,
    packet_data := [[1], [3], [5]] }

/-- A reader in steady state with the single stream `dmx_vorbis_steady`. -/
def reader_vorbis_steady : ogm_reader_c := ⟨[dmx_vorbis_steady], 1, [], 0, none⟩

/-- A page of stream 7 with granule position `g` and one audio packet whose
second byte is `tag`. -/
def page_audio (g : Int) (tag : Nat) : ogg_page := ⟨7, g, false, [⟨[0, tag], false⟩]⟩

/-- The reader `reader_vorbis_steady` after `process_page` on each of the given
pages, in order. -/
def reader_after_pages (pages : List ogg_page) : ogm_reader_c :=
  pages.foldl (process_page ext_example) reader_vorbis_steady

/-! ## Duration encodings, as the specification words them -/

/-- The first byte `b` of a packet encodes `len` in its 3-bit length field:
bits 0xC0 hold the two low bits of `len`, bit 0x02 holds the third. -/
def encodes_duration_len (b len : Nat) : Prop :=
  b < 256 ∧ b / 64 = len % 4 ∧ b / 2 % 2 = len / 4

/-- The `n` bytes that hold `d` in little-endian order (least significant byte
first). -/
def duration_bytes_le : Nat → Nat → List Nat
  | 0, _ => []
  | n + 1, d => d % 256 :: duration_bytes_le n (d / 256)

/-- The `n` bytes that hold `d` in big-endian order (most significant byte
first). -/
def duration_bytes_be (n d : Nat) : List Nat := (duration_bytes_le n d).reverse

/-! ## Classification of the first packet, as the specification words it -/

/-- The audio demuxer for a codec id: PCM for 0x0001, MP2/MP3 for 0x0050 and
0x0055, AC3 for 0x2000, AAC for 0x00ff, none (and one warning) otherwise. -/
def audio_by_codec_id (codec_id : Int) : sniffed :=
  if codec_id = 0x0001 then sniffed.dmx new_ogm_a_pcm_demuxer_c
  else if codec_id = 0x0050 ∨ codec_id = 0x0055 then sniffed.dmx new_ogm_a_mp3_demuxer_c
  else if codec_id = 0x2000 then sniffed.dmx new_ogm_a_ac3_demuxer_c
  else if codec_id = 0x00ff then sniffed.dmx new_ogm_a_aac_demuxer_c
  else sniffed.null 1

/-- The packet has at least `1 + lit.length` bytes and its bytes from index 1
on are `lit`. -/
def tagged (p lit : List Nat) : Prop :=
  1 + lit.length ≤ p.length ∧ (p.drop 1).take lit.length = lit

instance (p lit : List Nat) : Decidable (tagged p lit) := by
  unfold tagged; infer_instance

/-- The packet is tagged as a header packet, `(byte0 & 0x07) == 0x01`, and is
at least `1 + sizeof(stream_header)` bytes long. -/
def legacy_header (ext : externals) (p : List Nat) : Prop :=
  (byte_at p 0 &&& 0x07) = 0x01 ∧ 1 + ext.layout.sizeof_stream_header ≤ p.length

instance (ext : externals) (p : List Nat) : Decidable (legacy_header ext p) := by
  unfold legacy_header; infer_instance

/-- The member `streamtype` of the stream header behind byte 0 begins with
`lit`. -/
def streamtype_begins (ext : externals) (p lit : List Nat) : Prop :=
  (p.drop (1 + ext.layout.streamtype)).take lit.length = lit

instance (ext : externals) (p lit : List Nat) : Decidable (streamtype_begins ext p lit) := by
  unfold streamtype_begins; infer_instance

/-- The codec id of a legacy audio header: the 4 characters of `subtype` read
as a hexadecimal number by `strtol` and stored in a `uint32_t`. -/
def audio_codec_id (ext : externals) (p : List Nat) : Int :=
  strtol16 ((List.range 4).map (fun i => byte_at p (1 + ext.layout.subtype + i))) % 2 ^ 32

/-- The priority list by which the first packet `p` of a stream selects the
demuxer; `n` is the number of streams registered so far. -/
def classify_first_packet (ext : externals) (cfg : reader_config) (n : Nat)
    (p : List Nat) : sniffed :=
  if tagged p lit_vorbis then sniffed.dmx new_ogm_a_vorbis_demuxer_c
  else if tagged p lit_theora then sniffed.dmx new_ogm_v_theora_demuxer_c
  else if tagged p lit_kate then sniffed.dmx new_ogm_s_kate_demuxer_c
  else if p.take 4 = lit_fLaC then
    if cfg.HAVE_FLAC_FORMAT_H then sniffed.dmx (new_ogm_a_flac_demuxer_c ext)
    else if cfg.demuxing_requested 'a' n then sniffed.fatal
    else sniffed.dmx { ogm_demuxer_c.new with stype := OGM_STREAM_TYPE_A_FLAC, in_use := true }
  else if legacy_header ext p then
    if streamtype_begins ext p lit_video then
      if ext.is_avc_fourcc ((List.range 4).map (fun i => byte_at p (1 + ext.layout.subtype + i))
          ++ [0]) = true ∧ cfg.hack_allow_avc_in_vfw_mode = false then
        sniffed.dmx new_ogm_v_avc_demuxer_c
      else sniffed.dmx new_ogm_v_mscomp_demuxer_c
    else if streamtype_begins ext p lit_audio then audio_by_codec_id (audio_codec_id ext p)
    else if streamtype_begins ext p lit_text then sniffed.dmx new_ogm_s_text_demuxer_c
    else sniffed.null 0
  else sniffed.null 0

/-- The packet reaches the branch of `handle_new_stream` for the OggDS stream
headers (it is not taken for Vorbis, Theora or Kate and matches the legacy
header layout) and its streamtype begins "audio". -/
def legacy_audio_header (ext : externals) (p : List Nat) : Prop :=
  ¬tagged p lit_vorbis ∧ ¬tagged p lit_theora ∧ ¬tagged p lit_kate
    ∧ legacy_header ext p ∧ streamtype_begins ext p lit_audio

/-- The packet matches no known codec: none of the tags, not "fLaC", and either
not the legacy header layout or a streamtype that begins with none of "video",
"audio", "text". -/
def no_known_codec (ext : externals) (p : List Nat) : Prop :=
  ¬tagged p lit_vorbis ∧ ¬tagged p lit_theora ∧ ¬tagged p lit_kate ∧ p.take 4 ≠ lit_fLaC
    ∧ (¬legacy_header ext p
        ∨ (¬streamtype_begins ext p lit_video ∧ ¬streamtype_begins ext p lit_audio
            ∧ ¬streamtype_begins ext p lit_text))

/-- A legacy audio header whose codec id is none of 0x0001, 0x0050, 0x0055,
0x2000, 0x00ff. -/
def unknown_audio_codec (ext : externals) (p : List Nat) : Prop :=
  legacy_audio_header ext p ∧ audio_codec_id ext p ≠ 0x0001 ∧ audio_codec_id ext p ≠ 0x0050
    ∧ audio_codec_id ext p ≠ 0x0055 ∧ audio_codec_id ext p ≠ 0x2000
    ∧ audio_codec_id ext p ≠ 0x00ff

/-- A packet with the legacy header layout of `layout_example` (byte 0 is 0x01,
53 bytes) whose streamtype is all zero. -/
def op_legacy_unknown : ogg_packet := ⟨1 :: List.replicate 52 0, false⟩

/-- A legacy audio header for `layout_example`: 0x01, streamtype "audio" padded
to 8 characters, the given 4 characters of subtype, 40 more bytes. -/
def op_legacy_audio (subtype : List Nat) : ogg_packet :=
  ⟨1 :: (lit_audio ++ [0, 0, 0] ++ subtype ++ List.replicate 40 0), false⟩

/-- A FLAC first packet: "fLaC" and four more bytes. -/
def op_fLaC : ogg_packet := ⟨lit_fLaC ++ [0, 0, 0, 34], false⟩

/-- A run of a build without FLAC support in which no track is requested. -/
def cfg_no_flac : reader_config := ⟨false, false, fun _ _ => false, false, ⟨[], false⟩⟩

/-- A run of a build without FLAC support in which every track is requested. -/
def cfg_no_flac_requested : reader_config := ⟨false, false, fun _ _ => true, false, ⟨[], false⟩⟩

/-- A reader whose registry holds one stream, serial number 7, that is not in
use. -/
def reader_unused_stream : ogm_reader_c :=
  ⟨[{ dmx_vorbis_steady with in_use := false }], 1, [], 0, none⟩

/-- A Kate identification packet for the examples: 0x80 "kate", three zero
bytes, three more bytes and the number of headers `n` at index 11, where
`ext_example` reads it. -/
def op_kate_id (n : Nat) : ogg_packet := ⟨[0x80, 107, 97, 116, 101, 0, 0, 0, 0, 0, 0, n], false⟩

/-- A Kate stream as `handle_new_stream` has it before `initialize`: constructed,
the identification packet with `nheaders = 4` buffered. -/
def dmx_kate_registered : ogm_demuxer_c :=
  { new_ogm_s_kate_demuxer_c with
    serialno := 5, in_use := true, packet_data := [(op_kate_id 4).packet] }

/-- The stream `dmx_kate_registered` after `initialize`, with a page submitted
that holds the given packets. -/
def dmx_kate_with_page (packets : List ogg_packet) : ogm_demuxer_c :=
  { (initialize_dmx ext_example dmx_kate_registered).1.state with os := packets }

/-- A Kate stream with `nheaders = 4` whose second page holds a data packet. -/
def pages_kate_data_early : List ogg_page :=
  [⟨5, 0, true, [op_kate_id 4]⟩, ⟨5, 0, false, [⟨[0x00, 1], false⟩]⟩]

/-! ## Steady-state packet selection, as the specification words it -/

/-- The first byte of the packet has its high bit (0x80) set. -/
def high_bit_set (op : ogg_packet) : Bool := (byte_at op.packet 0 &&& 0x80) != 0

/-- The packet is a keyframe: bit 0x40 of its first byte is clear. -/
def theora_keyframe (op : ogg_packet) : Bool := (byte_at op.packet 0 &&& 0x40) == 0

/-- The packet handed on for a Theora packet whose `units_processed` is `k`: the
packet's bytes, the timecode and duration of the frame rate, the keyframe
flag. -/
def theora_packet (ext : externals) (th : theora_identification_header_t) (k : Int)
    (op : ogg_packet) : packet_t :=
  ⟨⟨op.packet.length, op.packet⟩, some (ext.theora_timecode k th.frd th.frn),
   some (ext.theora_duration th.frd th.frn),
   some (if theora_keyframe op then frame_type_e.VFT_IFRAME
         else frame_type_e.VFT_PFRAMEAUTOMATIC),
   some frame_type_e.VFT_NOBFRAME⟩

/-- The packets a Theora stream hands on for a list of packets, starting with
`units_processed = k`: empty packets and packets with the high bit set are left
out, every other packet is handed on and counts one unit. -/
def theora_output (ext : externals) (th : theora_identification_header_t) :
    Int → List ogg_packet → List packet_t
  | _, [] => []
  | k, op :: rest =>
    if op.packet.length = 0 || high_bit_set op then theora_output ext th k rest
    else theora_packet ext th k op :: theora_output ext th (k + 1) rest

/-- A Theora stream in steady state with frame rate 25/1 and a page submitted
that holds the given packets. -/
def dmx_theora_steady (packets : List ogg_packet) : ogm_demuxer_c :=
  { new_ogm_v_theora_demuxer_c with
    in_use := true, headers_read := true, ptzr := 0, theora := ⟨25, 1, 0, 0⟩, os := packets }

/-- The payload of a legacy packet: the bytes behind the first byte and the
`duration_len` bytes of the duration. -/
def text_payload (op : ogg_packet) : List Nat :=
  op.packet.drop (1 + (get_duration_and_len op).2)

/-- A filler byte: space, NUL, carriage return or line feed. -/
def is_filler (c : Nat) : Bool := c == 32 || c == 0 || c == 13 || c == 10

/-- The payload is at most 2 bytes long and consists only of filler bytes. -/
def all_filler_payload (op : ogg_packet) : Bool :=
  decide ((text_payload op).length ≤ 2) && (text_payload op).all is_filler

/-- The payload is at most 2 bytes long and its first byte is a filler byte. -/
def filler_start_payload (op : ogg_packet) : Bool :=
  decide ((text_payload op).length ≤ 2) && ((text_payload op).head?.map is_filler == some true)

/-- The packet a text stream hands on for a packet of a page with the given
granule position: the payload, the granule position and the decoded duration,
both times 1000000 in 64-bit arithmetic. -/
def text_packet (granulepos : Int) (op : ogg_packet) : packet_t :=
  ⟨⟨(text_payload op).length, text_payload op⟩, some (int64 (granulepos * 1000000)),
   some (int64 (((get_duration_and_len op).1 : Int) * 1000000)), none, none⟩

/-- A text stream in steady state with a page submitted that holds the given
packets. -/
def dmx_text_steady (packets : List ogg_packet) : ogm_demuxer_c :=
  { new_ogm_s_text_demuxer_c with
    in_use := true, headers_read := true, ptzr := 0, os := packets }

/-- An MS-compressed video stream in steady state: 40 ms per frame, baseline
`last_granulepos` 10, no frame since the last change, and a page submitted
that holds the given packets. -/
def dmx_mscomp_steady (packets : List ogg_packet) : ogm_demuxer_c :=
  { new_ogm_v_mscomp_demuxer_c with
    in_use := true, headers_read := true, ptzr := 0, default_duration := 40000000,
    last_granulepos := 10, os := packets }

/-- A reader in steady state whose only stream is `dmx_mscomp_steady []` with
serial number 7. -/
def reader_mscomp_steady : ogm_reader_c :=
  ⟨[{ dmx_mscomp_steady [] with serialno := 7 }], 1, [], 0, none⟩

/-- A Vorbis stream in steady state with a page submitted that holds the given
packets. -/
def dmx_vorbis_with_page (packets : List ogg_packet) : ogm_demuxer_c :=
  { dmx_vorbis_steady with os := packets }

/-- A stream of the base class in steady state with a page submitted that holds
the given packets. -/
def dmx_generic_steady (packets : List ogg_packet) : ogm_demuxer_c :=
  { new_ogm_a_pcm_demuxer_c with
    in_use := true, headers_read := true, ptzr := 0, os := packets }

/-- A legacy text header for `layout_example`: 0x01, streamtype "text" padded to
8 characters, 44 more bytes. -/
def op_legacy_text : ogg_packet := ⟨1 :: (lit_text ++ List.replicate 48 0), false⟩

/-- A Theora stream after its beginning-of-stream page (the identification
packet is buffered), with the next page submitted: that page holds three
packets that `is_header_packet` accepts, first bytes 0x81, 0x82, 0x80. -/
def dmx_theora_extra_header : ogm_demuxer_c :=
  { new_ogm_v_theora_demuxer_c with
    packet_data := [[0x80, 116, 104, 101, 111, 114, 97]],
    os := [⟨[0x81, 116], false⟩, ⟨[0x82, 116], false⟩, ⟨[0x80, 116], false⟩] }

/-- The header test of the Theora class as a function of the packet alone: the
first byte lies in 0x80..0x82. -/
def theora_header_test (op : ogg_packet) : Bool :=
  decide (0x80 ≤ byte_at op.packet 0) && decide (0x82 ≥ byte_at op.packet 0)

/-- The pages that lead to `dmx_theora_extra_header`. -/
def pages_theora_extra_header : List ogg_page :=
  [⟨3, 0, true, [⟨[0x80, 116, 104, 101, 111, 114, 97], false⟩]⟩,
   ⟨3, 0, false, [⟨[0x81, 116], false⟩, ⟨[0x82, 116], false⟩, ⟨[0x80, 116], false⟩]⟩]

/-- A legacy AVC stream that has buffered its stream header, with a page
submitted that holds the comment packet and three frames. -/
def dmx_avc_headers : ogm_demuxer_c :=
  { new_ogm_v_avc_demuxer_c with
    packet_data := [[1, 118]],
    os := [⟨[3, 118], false⟩, ⟨[8, 1], false⟩, ⟨[0, 2], false⟩, ⟨[0, 3], false⟩] }

/-! ## Contiguous video pages, as the specification words them -/

/-- The frames a page carries: its packets that are not tagged header or
comment. -/
def frames_of (og : ogg_page) : List ogg_packet :=
  og.packets.filter (fun op => !is_header_or_comment op)

/-- Pages of the stream `s` without gaps behind granule position `G`: no packet
of a page is empty, each page carries at least one frame, and its granule
position is the number of frames carried up to and including it. -/
def contiguous (s : Int) : Int → List ogg_page → Prop
  | _, [] => True
  | G, og :: rest =>
    og.serialno = s ∧ (∀ op ∈ og.packets, op.packet ≠ [])
      ∧ 1 ≤ (frames_of og).length
      ∧ og.granulepos = G + ((frames_of og).length : Int)
      ∧ contiguous s og.granulepos rest

/-- The number of frames the pages carry. -/
def frame_count (pages : List ogg_page) : Nat :=
  (pages.map (fun og => (frames_of og).length)).sum

/-- A frame of legacy video without a duration field: first byte `flags` (type
bits 0, length bits 0), then the payload `tag`. -/
def op_frame (flags tag : Nat) : ogg_packet := ⟨[flags, tag], false⟩

/-- Three contiguous pages of stream 7 with 2, 1 and 3 frames: granule positions
2, 3 and 6. -/
def pages_mscomp_contiguous : List ogg_page :=
  [⟨7, 2, false, [op_frame 8 1, op_frame 0 2]⟩,
   ⟨7, 3, false, [op_frame 0 3]⟩,
   ⟨7, 6, false, [op_frame 0 4, op_frame 8 5, op_frame 0 6]⟩]

/-- A reader in steady state whose only stream is MS-compressed video with
serial number 7, 40 ms per frame, at `last_granulepos = 0`. -/
def reader_mscomp_start : ogm_reader_c :=
  ⟨[{ dmx_mscomp_steady [] with serialno := 7, last_granulepos := 0 }], 1, [], 0, none⟩

/-- A legacy video header for `layout_example` whose `time_unit` is 0: 0x01,
streamtype "video", zeros up to 53 bytes. -/
def op_legacy_video_zero_unit : ogg_packet := ⟨1 :: (lit_video ++ List.replicate 47 0), false⟩

/-- The MS-compressed video stream that `read_headers` leaves for the header
`op_legacy_video_zero_unit` and a comment packet, in use as track 0 with serial
number 7. -/
def dmx_mscomp_zero_unit : ogm_demuxer_c :=
  { new_ogm_v_mscomp_demuxer_c with
    serialno := 7, in_use := true, headers_read := true,
    packet_data := [op_legacy_video_zero_unit.packet, [3, 118]], default_duration := 0 }

/-- The pages that lead to `dmx_mscomp_zero_unit`. -/
def pages_mscomp_zero_unit : List ogg_page :=
  [⟨7, 0, true, [op_legacy_video_zero_unit]⟩, ⟨7, 0, false, [⟨[3, 118], false⟩]⟩]

/-! ## Comment packets, as the specification words them -/

/-- The 4 bytes of a 32-bit little-endian number. -/
def le32 (n : Nat) : List Nat :=
  [n % 256, n / 256 % 256, n / 65536 % 256, n / 16777216 % 256]

/-- A string behind its 32-bit little-endian length. -/
def length_prefixed (s : List Nat) : List Nat := le32 s.length ++ s

/-- The entries of a comment packet, each behind its length. -/
def encoded_entries (entries : List (List Nat)) : List Nat :=
  (entries.map length_prefixed).flatten

/-- A comment packet: the leading bytes `lead`, the vendor string behind its
length, the count `n`, the entries each behind its length, and what follows
them (`tail`). -/
def comment_packet (lead vendor : List Nat) (n : Nat) (entries : List (List Nat))
    (tail : List Nat) : List Nat :=
  lead ++ length_prefixed vendor ++ le32 n ++ encoded_entries entries ++ tail

/-- The start of an entry that is not complete: fewer than 4 bytes of length, or
a 32-bit length `len` and fewer than `len` bytes. -/
def incomplete_entry (partial_entry : List Nat) : Prop :=
  partial_entry.length < 4
    ∨ ∃ (len : Nat) (body : List Nat),
        partial_entry = le32 len ++ body ∧ body.length < len ∧ len < 2 ^ 32

/-- The start of an entry for which `read` writes beyond the buffer: the length
is 2^32 - 1, so that the buffer of `len + 1` bytes has none, and at least one
byte follows. -/
def writes_beyond_buffer (partial_entry : List Nat) : Prop :=
  ∃ body : List Nat, partial_entry = le32 (2 ^ 32 - 1) ++ body ∧ body ≠ []

/-- Bytes of an ASCII string. -/
def ascii (s : String) : List Nat := s.toList.map Char.toNat

/-- A `split(s, "=", 2)`: the parts before and behind the first `=`, the whole
string when it holds none. -/
def split_example (s : List Nat) : List (List Nat) :=
  if 61 ∈ s then [s.takeWhile (fun c => c != 61), (s.dropWhile (fun c => c != 61)).tail]
  else [s]

/-- Externals for the examples: `skip` throws behind the end, `reserve` does not
throw, the language table knows "eng" at index 0, the charset conversion is
the identity, `parse_chapters` returns a pointer, chapters are wanted and no
charset was given. -/
def cx_example : comment_externals :=
  { skip_past_end_throws := true
    reserve_throws := fun _ => false
    split := split_example
    map_to_iso639_2_code := fun s => if s = ascii "eng" then 0 else -1
    iso639_2_code := fun _ => ascii "eng"
    utf8 := fun s => s
    parse_chapters := fun _ => some (some 1)
    no_chapters := false
    chapter_charset_empty := true }

/-- A comment packet that declares 2 entries and ends inside the second: the
entry "TITLE=Sample" is complete, of the second entry (12 bytes declared) only
"LANG" is there. -/
def packet_comments_truncated : List Nat :=
  comment_packet (3 :: lit_vorbis) (ascii "x") 2 [ascii "TITLE=Sample"]
    (le32 12 ++ ascii "LANG")

/-! ## Language annotations, as the specification words them -/

/-- The string without its annotations: every segment from an opening character
`o` to the next closing character `c` behind it, or to the end of the string
when no `c` follows, is removed; the flag says whether the scan is inside
such a segment. -/
def strip_segments (o c : Nat) : Bool → List Nat → List Nat
  | _, [] => []
  | true, x :: xs =>
    if x = c then strip_segments o c false xs else strip_segments o c true xs
  | false, x :: xs =>
    if x = o then strip_segments o c true xs else x :: strip_segments o c false xs

/-! ## Titles, as the specification words them -/

/-- The value of a comment that is a TITLE comment. -/
def title_value (cx : comment_externals) (c : List Nat) : Option (List Nat) :=
  if (cx.split c).length = 2 ∧ (cx.split c).getD 0 [] = lit_TITLE then
    some ((cx.split c).getD 1 [])
  else none

/-- The value of the last TITLE entry among the entries, empty when there is
none. -/
def last_title (cx : comment_externals) (entries : List (List Nat)) : List Nat :=
  ((entries.filterMap (title_value cx)).getLast?).getD []

/-- The comment block of a stream: the entries of its second header packet;
none for a FLAC stream and for a stream with fewer than two header packets. -/
def stream_comments (cx : comment_externals) (d : ogm_demuxer_c) : List (List Nat) :=
  if OGM_STREAM_TYPE_A_FLAC = d.stype ∨ 2 > d.packet_data.length then []
  else (extract_vorbis_comments cx (d.packet_data.getD 1 [])).getD []

/-- The TITLE of a stream: the value of the last TITLE comment of its own block,
empty when the block has none. -/
def stream_title (cx : comment_externals) (d : ogm_demuxer_c) : List Nat :=
  (((stream_comments cx d).filterMap (title_value cx)).getLast?).getD []

/-- The display title a stream is to have: its TITLE converted to UTF-8, as a C
string, when the TITLE is not empty; otherwise the title it had. -/
def display_title (cx : comment_externals) (d : ogm_demuxer_c) : List Nat :=
  if stream_title cx d ≠ [] then c_str (cx.utf8 (stream_title cx d)) else d.title

/-- The lowest-index MS-compressed video stream that has a non-empty TITLE. -/
def segment_title_source (cx : comment_externals) (ds : List ogm_demuxer_c) :
    Option ogm_demuxer_c :=
  ds.find? (fun d => decide (OGM_STREAM_TYPE_V_MSCOMP = d.stype)
    && decide (stream_title cx d ≠ []))

/-- The comment block of the stream can be read without a write beyond a buffer,
and every value in it is shorter than 2^31 bytes and than `fuel`. -/
def comments_defined (cx : comment_externals) (fuel : Nat) (d : ogm_demuxer_c) : Bool :=
  decide (OGM_STREAM_TYPE_A_FLAC = d.stype) || decide (2 > d.packet_data.length)
    || match extract_vorbis_comments cx (d.packet_data.getD 1 []) with
       | none => false
       | some comments =>
         comments.all (fun c => decide (((cx.split c).getD 1 []).length < 2 ^ 31)
           && decide (((cx.split c).getD 1 []).length < fuel))

/-- A stream of the given kind that has read its two header packets, the second
being a comment packet with the given entries. -/
def dmx_with_comments (d : ogm_demuxer_c) (entries : List (List Nat)) : ogm_demuxer_c :=
  { d with
    in_use := true, headers_read := true,
    packet_data := [[1], comment_packet (3 :: lit_vorbis) (ascii "x") entries.length entries [1]] }

/-- A reader with a Vorbis stream titled "Sample", an MS-compressed video stream
without comments of its own, and two more titled "Movie" and "Other". -/
def reader_titles : ogm_reader_c :=
  ⟨[dmx_with_comments new_ogm_a_vorbis_demuxer_c [ascii "LANGUAGE=eng", ascii "TITLE=Sample"],
    dmx_with_comments new_ogm_v_mscomp_demuxer_c [ascii "ENCODER=y"],
    dmx_with_comments new_ogm_v_mscomp_demuxer_c [ascii "TITLE=Old", ascii "TITLE=Movie"],
    dmx_with_comments new_ogm_v_mscomp_demuxer_c [ascii "TITLE=Other"]], 4, [], 0, none⟩

/-- A reader whose only stream is MS-compressed video with the comment packet
`packet_comments_truncated`. -/
def reader_truncated_comments : ogm_reader_c :=
  ⟨[{ new_ogm_v_mscomp_demuxer_c with
      in_use := true, headers_read := true,
      packet_data := [[1], packet_comments_truncated] }], 1, [], 0, none⟩

/-! ## Properties -/

/-! ### Probing -/

theorem strncmp_OggS (a b c d : Nat) :
    strncmp [a, b, c, d] lit_OggS 4 = 0 ↔ a = 79 ∧ b = 103 ∧ c = 103 ∧ d = 83 := by
  simp only [strncmp, lit_OggS, List.headD_cons, List.tail_cons]
  constructor
  · intro h
    split_ifs at h <;> omega
  · rintro ⟨rfl, rfl, rfl, rfl⟩
    simp

/-- C1: `probe_file` returns 1 exactly when the size is at least 4, the calls of
the try block complete (positioning at offset 0, reading, positioning again)
with 4 bytes read, and those bytes are 'O','g','g','S'; in every other case
(size below 4, a call that throws, a short read, a differing byte) it returns
0. -/
theorem probe_file_spec (io : mm_io_c) (size : Int) :
    (probe_file io size = 1 ↔
      4 ≤ size ∧ io.setFilePointer_before = true ∧
        (∃ rest, io.read 4 = some (79 :: 103 :: 103 :: 83 :: rest)) ∧
        io.setFilePointer_after = true) ∧
    (probe_file io size = 1 ∨ probe_file io size = 0) := by
  unfold probe_file
  by_cases hs : 4 > size
  · simp [hs]
  · have hs' : 4 ≤ size := by omega
    simp only [hs, if_false]
    cases hb : io.setFilePointer_before
    · simp [hs']
    · cases hr : io.read 4 with
      | none => simp [hs']
      | some avail =>
        cases ha : io.setFilePointer_after
        · simp [hs']
        · simp only [Bool.not_true, Bool.false_eq_true, if_false, hs', true_and, and_true]
          match avail with
          | [] => simp
          | [a] => simp
          | [a, b] => simp
          | [a, b, c] => simp
          | a :: b :: c :: d :: rest =>
            have := strncmp_OggS a b c d
            simp only [List.take, List.length_cons, List.length_nil]
            simp
            exact ⟨this, em _⟩


/-! ### The header phase -/

theorem process_header_packets_delivered (ext : externals) (r : ogm_reader_c) (i : Nat)
    (dmx : ogm_demuxer_c) : (process_header_packets ext r i dmx).delivered = r.delivered := by
  unfold process_header_packets
  split_ifs <;> rfl

theorem process_header_page_delivered (ext : externals) (r : ogm_reader_c) (og : ogg_page) :
    (process_header_page ext r og).delivered = r.delivered := by
  unfold process_header_page
  split
  · rfl
  · split_ifs
    · rfl
    · exact process_header_packets_delivered ext r _ _

theorem register_stream_delivered (ext : externals) (cfg : reader_config) (r : ogm_reader_c)
    (og : ogg_page) (op : ogg_packet) (os : List ogg_packet) (dmx : ogm_demuxer_c) :
    (register_stream ext cfg r og op os dmx).state.delivered = r.delivered := rfl

theorem handle_new_stream_delivered (ext : externals) (cfg : reader_config) (r : ogm_reader_c)
    (og : ogg_page) : (handle_new_stream ext cfg r og).state.delivered = r.delivered := by
  unfold handle_new_stream
  split_ifs
  · rfl
  · simp only
    split
    · rfl
    · exact register_stream_delivered ext cfg r og _ _ _
    · exact register_stream_delivered ext cfg _ og _ _ _

theorem handle_new_stream_and_packets_delivered (ext : externals) (cfg : reader_config)
    (r : ogm_reader_c) (og : ogg_page) :
    (handle_new_stream_and_packets ext cfg r og).state.delivered = r.delivered := by
  unfold handle_new_stream_and_packets
  simp only
  split_ifs
  · exact handle_new_stream_delivered ext cfg r og
  · split
    · simp only [process_header_packets_delivered]
      exact handle_new_stream_delivered ext cfg r og
    · exact handle_new_stream_delivered ext cfg r og

theorem read_headers_cons (ext : externals) (cfg : reader_config) (og : ogg_page)
    (rest : List ogg_page) (r : ogm_reader_c) :
    read_headers ext cfg (og :: rest) r =
      if og.bos then
        if (handle_new_stream_and_packets ext cfg r og).fatal then
          ⟨(0, (handle_new_stream_and_packets ext cfg r og).state), true⟩
        else read_headers ext cfg rest (handle_new_stream_and_packets ext cfg r og).state
      else if (process_header_page ext { r with bos_pages_read := 1 } og).sdemuxers.any
          (fun dmx => !dmx.headers_read && dmx.in_use) then
        read_headers ext cfg rest (process_header_page ext { r with bos_pages_read := 1 } og)
      else ⟨(1, process_header_page ext { r with bos_pages_read := 1 } og), false⟩ := rfl

theorem read_headers_delivered (ext : externals) (cfg : reader_config) (pages : List ogg_page) :
    ∀ r : ogm_reader_c, (read_headers ext cfg pages r).state.2.delivered = r.delivered := by
  induction pages with
  | nil => intro r; rfl
  | cons og rest ih =>
    intro r
    rw [read_headers_cons]
    split_ifs with hb hf hd
    · exact handle_new_stream_and_packets_delivered ext cfg r og
    · rw [ih]
      exact handle_new_stream_and_packets_delivered ext cfg r og
    · rw [ih, process_header_page_delivered]
    · simp only [process_header_page_delivered]

theorem read_headers_returns_one (ext : externals) (cfg : reader_config)
    (pages : List ogg_page) :
    ∀ r : ogm_reader_c, (read_headers ext cfg pages r).fatal = false →
      (read_headers ext cfg pages r).state.1 = 1 →
      ∀ dmx ∈ (read_headers ext cfg pages r).state.2.sdemuxers,
        dmx.in_use = true → dmx.headers_read = true := by
  induction pages with
  | nil =>
    intro r _ h
    simp [read_headers] at h
  | cons og rest ih =>
    intro r
    rw [read_headers_cons]
    split_ifs with hb hf hd
    · intro h; simp at h
    · exact ih _
    · exact ih _
    · intro _ _ dmx hmem huse
      rw [List.any_eq_true] at hd
      by_contra hh
      exact hd ⟨dmx, hmem, by simp [huse, hh]⟩

/-- C2: the header phase hands no packet to a packetizer: `handle_new_stream`,
`process_header_page` and `read_headers` leave the list of delivered packets as
it was, for every input; and when `read_headers` returns 1, every stream of the
registry that is in use has `headers_read` set. -/
theorem read_headers_no_delivery (ext : externals) (cfg : reader_config) (r : ogm_reader_c)
    (og : ogg_page) (pages : List ogg_page) :
    (handle_new_stream ext cfg r og).state.delivered = r.delivered ∧
    (process_header_page ext r og).delivered = r.delivered ∧
    (read_headers ext cfg pages r).state.2.delivered = r.delivered ∧
    ((read_headers ext cfg pages r).fatal = false ∧ (read_headers ext cfg pages r).state.1 = 1 →
      ∀ dmx ∈ (read_headers ext cfg pages r).state.2.sdemuxers,
        dmx.in_use = true → dmx.headers_read = true) :=
  ⟨handle_new_stream_delivered ext cfg r og, process_header_page_delivered ext r og,
   read_headers_delivered ext cfg pages r,
   fun h => read_headers_returns_one ext cfg pages r h.1 h.2⟩

/-- C2, witness: on the header pages of a Vorbis stream `read_headers` returns 1,
and the stream, which is in use, has its headers. -/
theorem read_headers_no_delivery_witness :
    (read_headers ext_example cfg_example pages_vorbis_headers reader_initial).state.1 = 1 ∧
    (read_headers ext_example cfg_example pages_vorbis_headers
      reader_initial).state.2.sdemuxers.length = 1 ∧
    ∀ dmx ∈ (read_headers ext_example cfg_example pages_vorbis_headers
        reader_initial).state.2.sdemuxers,
      dmx.in_use = true → dmx.headers_read = true :=
  ⟨by decide, by decide,
   (read_headers_no_delivery ext_example cfg_example reader_initial ⟨7, 0, true, []⟩
      pages_vorbis_headers).2.2.2 ⟨by decide, by decide⟩⟩

/-! ### Header accumulation -/

theorem process_header_page_loop_count (ext : externals) (l : List ogg_packet) :
    ∀ d : ogm_demuxer_c, d.headers_read = false →
      (ogm_demuxer_c.process_header_page_loop ext d l).1.headers_read = true →
      (ogm_demuxer_c.process_header_page_loop ext d l).2 = 0 →
      (ogm_demuxer_c.process_header_page_loop ext d l).1.packet_data.length
          = (ogm_demuxer_c.process_header_page_loop ext d l).1.num_header_packets
        ∧ (ogm_demuxer_c.process_header_page_loop ext d l).1.num_non_header_packets
          ≤ (ogm_demuxer_c.process_header_page_loop ext d l).1.nh_packet_data.length := by
  induction l with
  | nil =>
    intro d h0
    simp only [ogm_demuxer_c.process_header_page_loop]
    split_ifs with hc
    · intro _ _; exact hc
    · intro h; simp [h0] at h
  | cons op rest ih =>
    intro d h0
    simp only [ogm_demuxer_c.process_header_page_loop]
    split_ifs with h1 h2
    · exact ih _ h0
    · intro _ h; simp at h
    · exact ih _ h0

/-- C3, counterexample: a Theora stream that has buffered its identification
packet only and then meets a data packet gets `headers_read` set with 1
buffered header packet, while `num_header_packets` is 3. -/
theorem process_header_page_count_counterexample :
    dmx_theora_data_early.headers_read = false ∧
    (ogm_demuxer_c.process_header_page ext_example dmx_theora_data_early).1.headers_read = true ∧
    (ogm_demuxer_c.process_header_page ext_example dmx_theora_data_early).1.packet_data.length = 1 ∧
    (ogm_demuxer_c.process_header_page ext_example dmx_theora_data_early).1.num_header_packets
      = 3 ∧
    (read_headers ext_example cfg_example pages_theora_data_early reader_initial).state.1 = 1 ∧
    (read_headers ext_example cfg_example pages_theora_data_early
        reader_initial).state.2.sdemuxers.map
        (fun d => (d.headers_read, d.packet_data.length, d.num_header_packets))
      = [(true, 1, 3)] := by
  decide

theorem process_header_page_loop_warned (ext : externals) (l : List ogg_packet) :
    ∀ d : ogm_demuxer_c, (ogm_demuxer_c.process_header_page_loop ext d l).2 ≠ 0 →
      (ogm_demuxer_c.process_header_page_loop ext d l).1.headers_read = true := by
  induction l with
  | nil =>
    intro d
    simp only [ogm_demuxer_c.process_header_page_loop]
    split_ifs <;> simp
  | cons op rest ih =>
    intro d
    simp only [ogm_demuxer_c.process_header_page_loop]
    split_ifs with h1 h2
    · exact ih _
    · intro _; rfl
    · exact ih _

/-- C3, amended: when a call of `ogm_demuxer_c::process_header_page` on a stream
without `headers_read` sets the flag and prints no warning, the number of
buffered header packets equals `num_header_packets` and at least
`num_non_header_packets` non-header packets are buffered.  When the call prints
the warning about missing header packets, the flag is set whatever the
counts.  The constructors set `num_header_packets` to 3 for Vorbis and Theora,
to 1 for Kate, whose `initialize` replaces it by the declared `nheaders`, and
to 2 for the other classes of `r_ogm.cpp`. -/
theorem process_header_page_count (ext : externals) (d : ogm_demuxer_c)
    (h0 : d.headers_read = false) :
    ((ogm_demuxer_c.process_header_page ext d).1.headers_read = true
        ∧ (ogm_demuxer_c.process_header_page ext d).2 = 0 →
      (ogm_demuxer_c.process_header_page ext d).1.packet_data.length
          = (ogm_demuxer_c.process_header_page ext d).1.num_header_packets
        ∧ (ogm_demuxer_c.process_header_page ext d).1.num_non_header_packets
          ≤ (ogm_demuxer_c.process_header_page ext d).1.nh_packet_data.length) ∧
    ((ogm_demuxer_c.process_header_page ext d).2 ≠ 0 →
      (ogm_demuxer_c.process_header_page ext d).1.headers_read = true) ∧
    new_ogm_a_vorbis_demuxer_c.num_header_packets = 3 ∧
    new_ogm_v_theora_demuxer_c.num_header_packets = 3 ∧
    new_ogm_s_kate_demuxer_c.num_header_packets = 1 ∧
    (∀ (dk : ogm_demuxer_c) (k : kate_identification_header_t),
      dk.cls = demuxer_class.ogm_s_kate_demuxer_c →
      ext.kate_parse_identification_header (dk.packet_data.headD []) = some k →
      (initialize_dmx ext dk).1.state.num_header_packets = k.nheaders) ∧
    ogm_demuxer_c.new.num_header_packets = 2 ∧
    new_ogm_a_aac_demuxer_c.num_header_packets = 2 ∧
    new_ogm_a_ac3_demuxer_c.num_header_packets = 2 ∧
    new_ogm_a_mp3_demuxer_c.num_header_packets = 2 ∧
    new_ogm_a_pcm_demuxer_c.num_header_packets = 2 ∧
    new_ogm_s_text_demuxer_c.num_header_packets = 2 ∧
    new_ogm_v_avc_demuxer_c.num_header_packets = 2 ∧
    new_ogm_v_mscomp_demuxer_c.num_header_packets = 2 := by
  refine ⟨fun h => process_header_page_loop_count ext d.os d h0 h.1 h.2,
    process_header_page_loop_warned ext d.os d,
    rfl, rfl, rfl, ?_, rfl, rfl, rfl, rfl, rfl, rfl, rfl, rfl⟩
  intro dk k hc hk
  unfold initialize_dmx
  rw [hc]
  simp only [hk]

/-- C3, witness: a Vorbis stream that receives its second and third header
packet completes with exactly 3 buffered header packets. -/
theorem process_header_page_count_witness :
    dmx_vorbis_two_headers.headers_read = false ∧
    (ogm_demuxer_c.process_header_page ext_example dmx_vorbis_two_headers).2 = 0 ∧
    (ogm_demuxer_c.process_header_page ext_example dmx_vorbis_two_headers).1.packet_data.length
      = 3 :=
  ⟨by decide, by decide,
   ((process_header_page_count ext_example dmx_vorbis_two_headers (by decide)).1
      ⟨by decide, by decide⟩).1⟩

/-! ### Granule positions in `process_page` -/

theorem find_demuxer_from_spec (serialno : Int) (l : List ogm_demuxer_c) :
    ∀ (k i : Nat) (d : ogm_demuxer_c), find_demuxer_from serialno l k = some (i, d) →
      k ≤ i ∧ l.get? (i - k) = some d ∧ d.in_use = true ∧ d.serialno = serialno := by
  induction l with
  | nil => intro k i d h; simp [find_demuxer_from] at h
  | cons x xs ih =>
    intro k i d h
    simp only [find_demuxer_from] at h
    split_ifs at h with h1 h2
    · simp only [Option.some.injEq, Prod.mk.injEq] at h
      obtain ⟨rfl, rfl⟩ := h
      simp [h1, h2]
    · obtain ⟨hk, hg, hu, hs⟩ := ih (k + 1) i d h
      refine ⟨by omega, ?_, hu, hs⟩
      have : i - k = (i - (k + 1)) + 1 := by omega
      rw [this]
      simpa using hg

theorem find_demuxer_spec (r : ogm_reader_c) (serialno : Int) (i : Nat) (d : ogm_demuxer_c)
    (h : find_demuxer r serialno = some (i, d)) :
    r.sdemuxers.get? i = some d ∧ d.in_use = true ∧ d.serialno = serialno := by
  obtain ⟨_, hg, hu, hs⟩ := find_demuxer_from_spec serialno r.sdemuxers 0 i d h
  exact ⟨by simpa using hg, hu, hs⟩

theorem process_page_dropped (ext : externals) (r : ogm_reader_c) (og : ogg_page) (i : Nat)
    (dmx : ogm_demuxer_c) (hf : find_demuxer r og.serialno = some (i, dmx))
    (hg : og.granulepos ≠ -1 ∧ og.granulepos < dmx.last_granulepos) :
    process_page ext r og = { r with warnings := r.warnings + 1 } := by
  have hu := (find_demuxer_spec r og.serialno i dmx hf).2.1
  unfold process_page
  rw [hf]
  have hg' : -1 ≠ og.granulepos ∧ og.granulepos < dmx.last_granulepos := ⟨fun h => hg.1 h.symm, hg.2⟩
  simp [hu, hg']

theorem process_page_accepted (ext : externals) (r : ogm_reader_c) (og : ogg_page) (i : Nat)
    (dmx : ogm_demuxer_c) (hf : find_demuxer r og.serialno = some (i, dmx))
    (hg : ¬(og.granulepos ≠ -1 ∧ og.granulepos < dmx.last_granulepos)) :
    process_page ext r og =
      { r with
        sdemuxers := r.sdemuxers.set i
          { (dmx_process_page ext { dmx with os := dmx.os ++ og.packets } og.granulepos).1 with
            last_granulepos := og.granulepos },
        delivered := r.delivered ++
          (dmx_process_page ext { dmx with os := dmx.os ++ og.packets } og.granulepos).2.map
            (fun pk => (dmx.ptzr, pk)) } := by
  have hu := (find_demuxer_spec r og.serialno i dmx hf).2.1
  unfold process_page
  rw [hf]
  have hg' : ¬(-1 ≠ og.granulepos ∧ og.granulepos < dmx.last_granulepos) :=
    fun h => hg ⟨fun h' => h.1 h'.symm, h.2⟩
  simp only [hu, Bool.not_true, Bool.false_eq_true, if_false, hg']

/-- C4: for a page of an in-use stream (the stream `find_demuxer` returns for
the page's serial number, at position `i` of the registry) whose granule
position `g` satisfies `g != -1` and `g < last_granulepos`, `process_page`
changes nothing but the count of printed warnings: registry, stream state
(pending packets and `last_granulepos` included) and delivered packets stay
as they are.  For every other page of an in-use stream, the stream's
`last_granulepos` is `g` afterwards. -/
theorem process_page_granulepos (ext : externals) (r : ogm_reader_c) (og : ogg_page) (i : Nat)
    (dmx : ogm_demuxer_c) (hf : find_demuxer r og.serialno = some (i, dmx)) :
    (r.sdemuxers.get? i = some dmx ∧ dmx.in_use = true) ∧
    (og.granulepos ≠ -1 ∧ og.granulepos < dmx.last_granulepos →
      process_page ext r og = { r with warnings := r.warnings + 1 }
        ∧ (process_page ext r og).sdemuxers = r.sdemuxers
        ∧ (process_page ext r og).delivered = r.delivered) ∧
    (¬(og.granulepos ≠ -1 ∧ og.granulepos < dmx.last_granulepos) →
      ((process_page ext r og).sdemuxers.get? i).map (fun d => d.last_granulepos)
        = some og.granulepos) := by
  have hs := find_demuxer_spec r og.serialno i dmx hf
  refine ⟨⟨hs.1, hs.2.1⟩, fun hg => ?_, fun hg => ?_⟩
  · rw [process_page_dropped ext r og i dmx hf hg]
    exact ⟨rfl, rfl, rfl⟩
  · rw [process_page_accepted ext r og i dmx hf hg]
    have hi : i < r.sdemuxers.length := by
      have := hs.1
      rw [List.get?_eq_some] at this
      exact this.1
    simp [hi]

/-- C4, witness: with `last_granulepos` 10, a page with granule position 5 is
dropped and a page with granule position 12 moves `last_granulepos` to 12. -/
theorem process_page_granulepos_witness :
    process_page ext_example
        ⟨[{ dmx_vorbis_steady with last_granulepos := 10 }], 1, [], 0, none⟩ (page_audio 5 1)
      = ⟨[{ dmx_vorbis_steady with last_granulepos := 10 }], 1, [], 1, none⟩ ∧
    ((process_page ext_example
        ⟨[{ dmx_vorbis_steady with last_granulepos := 10 }], 1, [], 0, none⟩
        (page_audio 12 1)).sdemuxers.get? 0).map (fun d => d.last_granulepos) = some 12 :=
  ⟨((process_page_granulepos ext_example
        ⟨[{ dmx_vorbis_steady with last_granulepos := 10 }], 1, [], 0, none⟩ (page_audio 5 1) 0
        { dmx_vorbis_steady with last_granulepos := 10 } (by decide)).2.1 (by decide)).1,
   (process_page_granulepos ext_example
        ⟨[{ dmx_vorbis_steady with last_granulepos := 10 }], 1, [], 0, none⟩ (page_audio 12 1) 0
        { dmx_vorbis_steady with last_granulepos := 10 } (by decide)).2.2 (by decide)⟩

/-- C5, evaluation at the failing input: for one in-use stream, pages with the
granule positions 10, -1, 5 are all accepted (no warning is printed, the
packet of each page is delivered, `last_granulepos` ends at 5), although 5
is below the granule position 10 that was accepted before. -/
theorem process_page_accepts_decrease_after_undefined :
    (reader_after_pages [page_audio 10 1, page_audio (-1) 2, page_audio 5 3]).warnings = 0 ∧
    (reader_after_pages [page_audio 10 1, page_audio (-1) 2, page_audio 5 3]).delivered.map
        (fun x => x.2.mem.data) = [[0, 1], [0, 2], [0, 3]] ∧
    (reader_after_pages [page_audio 10 1, page_audio (-1) 2, page_audio 5 3]).sdemuxers.map
        (fun d => d.last_granulepos) = [5] ∧
    (reader_after_pages [page_audio 10 1, page_audio 5 3]).warnings = 1 ∧
    (reader_after_pages [page_audio 10 1, page_audio 5 3]).delivered.map
        (fun x => x.2.mem.data) = [[0, 1]] := by
  decide

/-! ### Duration decoding -/

set_option maxRecDepth 100000 in
theorem duration_len_field :
    ∀ b, b < 256 →
      ((b &&& PACKET_LEN_BITS01) >>> 6) ||| ((b &&& PACKET_LEN_BITS2) <<< 1)
        = b / 64 + 4 * (b / 2 % 2) := by
  decide

theorem duration_len_of_encodes (b len : Nat) (h : encodes_duration_len b len) :
    ((b &&& PACKET_LEN_BITS01) >>> 6) ||| ((b &&& PACKET_LEN_BITS2) <<< 1) = len := by
  obtain ⟨hb, h1, h2⟩ := h
  rw [duration_len_field b hb]
  omega

/-- C6, counterexample: duration 1 stored in 2 bytes in big-endian order, behind
a first byte whose length field holds 2, is decoded to 256. -/
theorem get_duration_and_len_big_endian_counterexample :
    encodes_duration_len 0x80 2 ∧
    duration_bytes_be 2 1 = [0, 1] ∧
    get_duration_and_len ⟨0x80 :: duration_bytes_be 2 1, false⟩ = (256, 2) :=
  ⟨⟨by decide, by decide, by decide⟩, by decide, by decide⟩

/-- C6, amended: for every `duration_len` in 1..7 and every `d` below
`2^(8*duration_len)`, a packet whose first byte encodes `duration_len` in its
3-bit length field and whose next `duration_len` bytes hold `d` in
little-endian order is decoded by `get_duration_and_len` to duration `d` and
the same `duration_len`, whatever follows in the packet. -/
theorem get_duration_and_len_roundtrip (b len d : Nat) (rest : List Nat) (e : Bool)
    (h1 : 1 ≤ len) (h7 : len ≤ 7) (hb : encodes_duration_len b len)
    (hd : d < 2 ^ (8 * len)) :
    get_duration_and_len ⟨b :: (duration_bytes_le len d ++ rest), e⟩ = (d, len) := by
  have hlen := duration_len_of_encodes b len hb
  unfold get_duration_and_len
  simp only [byte_at, List.getD_cons_zero, hlen]
  interval_cases len <;>
    simp [ogg_packet.bytes, duration_bytes_le, List.range_succ, Nat.shiftLeft_eq] <;>
    norm_num at hd <;>
    (rw [if_pos (by omega)]; simp only [Prod.mk.injEq, and_true]; omega)

/-- C6, witness: duration 0x0201 in 2 little-endian bytes. -/
theorem get_duration_and_len_roundtrip_witness :
    get_duration_and_len ⟨0x80 :: (duration_bytes_le 2 513 ++ [9]), false⟩ = (513, 2) :=
  get_duration_and_len_roundtrip 0x80 2 513 [9] false (by decide) (by decide)
    ⟨by decide, by decide, by decide⟩ (by decide)

/-! ### Classification of the first packet -/

theorem strncmp_eq_zero_iff (lit : List Nat) (hz : ∀ c ∈ lit, c ≠ 0) :
    ∀ s : List Nat, strncmp s lit lit.length = 0 ↔ s.take lit.length = lit := by
  induction lit with
  | nil => intro s; simp [strncmp]
  | cons c cs ih =>
    intro s
    have hc : c ≠ 0 := hz c (List.mem_cons_self _ _)
    have ih' := ih (fun x hx => hz x (List.mem_cons_of_mem _ hx))
    cases s with
    | nil =>
      simp only [List.length_cons, strncmp, List.headD_nil, List.headD_cons]
      rw [if_pos (fun h => hc h.symm)]
      simp
      omega
    | cons x xs =>
      simp only [List.length_cons, strncmp, List.headD_cons, List.tail_cons, List.take_succ_cons,
        List.cons.injEq]
      by_cases hx : x = c
      · subst hx
        simp [hc, ih' xs]
      · simp [hx]
        omega

theorem memcmp_eq_zero_iff (lit : List Nat) :
    ∀ s : List Nat, lit.length ≤ s.length →
      (memcmp s lit lit.length = 0 ↔ s.take lit.length = lit) := by
  induction lit with
  | nil => intro s _; simp [memcmp]
  | cons c cs ih =>
    intro s hs
    cases s with
    | nil => simp at hs
    | cons x xs =>
      simp only [List.length_cons, memcmp, List.headD_cons, List.tail_cons, List.take_succ_cons,
        List.cons.injEq]
      have hs' : cs.length ≤ xs.length := by simpa using hs
      by_cases hx : x = c
      · subst hx
        simp [ih xs hs']
      · simp [hx]
        omega

theorem tagged_vorbis_iff (op : ogg_packet) :
    (7 ≤ op.bytes ∧ strncmp (op.packet.drop 1) lit_vorbis 6 = 0) ↔ tagged op.packet lit_vorbis := by
  have h := strncmp_eq_zero_iff lit_vorbis (by decide) (op.packet.drop 1)
  simp only [tagged, ogg_packet.bytes, show lit_vorbis.length = 6 from rfl] at h ⊢
  rw [h]
  constructor <;> rintro ⟨a, b⟩ <;> exact ⟨by omega, b⟩

theorem tagged_theora_iff (op : ogg_packet) :
    (7 ≤ op.bytes ∧ strncmp (op.packet.drop 1) lit_theora 6 = 0) ↔ tagged op.packet lit_theora := by
  have h := strncmp_eq_zero_iff lit_theora (by decide) (op.packet.drop 1)
  simp only [tagged, ogg_packet.bytes, show lit_theora.length = 6 from rfl] at h ⊢
  rw [h]
  constructor <;> rintro ⟨a, b⟩ <;> exact ⟨by omega, b⟩

theorem tagged_kate_iff (op : ogg_packet) :
    (8 ≤ op.bytes ∧ memcmp (op.packet.drop 1) lit_kate 7 = 0) ↔ tagged op.packet lit_kate := by
  simp only [tagged, ogg_packet.bytes, show lit_kate.length = 7 from rfl]
  constructor
  · rintro ⟨a, b⟩
    have h := memcmp_eq_zero_iff lit_kate (op.packet.drop 1) (by simp [lit_kate]; omega)
    exact ⟨by omega, h.1 b⟩
  · rintro ⟨a, b⟩
    have h := memcmp_eq_zero_iff lit_kate (op.packet.drop 1) (by simp [lit_kate]; omega)
    exact ⟨by omega, h.2 b⟩

theorem fLaC_iff (op : ogg_packet) :
    (4 ≤ op.bytes ∧ strncmp op.packet lit_fLaC 4 = 0) ↔ op.packet.take 4 = lit_fLaC := by
  have h := strncmp_eq_zero_iff lit_fLaC (by decide) op.packet
  simp only [ogg_packet.bytes, show lit_fLaC.length = 4 from rfl] at h ⊢
  rw [h]
  constructor
  · exact fun a => a.2
  · intro a
    refine ⟨?_, a⟩
    have := congrArg List.length a
    simp [lit_fLaC] at this
    omega

theorem legacy_header_iff (ext : externals) (op : ogg_packet) :
    ((byte_at op.packet 0 &&& PACKET_TYPE_BITS) = PACKET_TYPE_HEADER
      ∧ op.bytes ≥ (ext.layout.sizeof_stream_header : Int) + 1) ↔ legacy_header ext op.packet := by
  simp only [legacy_header, ogg_packet.bytes, PACKET_TYPE_BITS, PACKET_TYPE_HEADER]
  constructor <;> rintro ⟨a, b⟩ <;> exact ⟨a, by omega⟩

theorem streamtype_video_iff (ext : externals) (op : ogg_packet) :
    strncmp (op.packet.drop (1 + ext.layout.streamtype)) lit_video 5 = 0
      ↔ streamtype_begins ext op.packet lit_video :=
  strncmp_eq_zero_iff lit_video (by decide) _

theorem streamtype_audio_iff (ext : externals) (op : ogg_packet) :
    strncmp (op.packet.drop (1 + ext.layout.streamtype)) lit_audio 5 = 0
      ↔ streamtype_begins ext op.packet lit_audio :=
  strncmp_eq_zero_iff lit_audio (by decide) _

theorem streamtype_text_iff (ext : externals) (op : ogg_packet) :
    strncmp (op.packet.drop (1 + ext.layout.streamtype)) lit_text 4 = 0
      ↔ streamtype_begins ext op.packet lit_text :=
  strncmp_eq_zero_iff lit_text (by decide) _

theorem sniff_audio_eq (ext : externals) (op : ogg_packet) :
    sniff_audio ext op = audio_by_codec_id (audio_codec_id ext op.packet) := by
  unfold sniff_audio audio_by_codec_id audio_codec_id subtype_buf
  simp only [eq_comm]

theorem sniff_classify (ext : externals) (cfg : reader_config) (n : Nat) (op : ogg_packet) :
    sniff ext cfg n op = classify_first_packet ext cfg n op.packet := by
  unfold sniff classify_first_packet
  simp only [tagged_vorbis_iff, tagged_theora_iff, tagged_kate_iff, fLaC_iff, legacy_header_iff,
    sniff_audio_eq, streamtype_video_iff, streamtype_audio_iff, streamtype_text_iff]
  simp [subtype_buf]

/-- C7, amended: `handle_new_stream` selects the demuxer for the first packet by
the priority list `classify_first_packet`: Vorbis iff the packet has at least
7 bytes and bytes 1..6 are "vorbis"; otherwise Theora iff it has at least 7
bytes and bytes 1..6 are "theora"; otherwise Kate iff it has at least 8 bytes
and bytes 1..7 are "kate" and three zero bytes; otherwise, when its first 4
bytes are "fLaC", the FLAC demuxer in a build with FLAC support (without it a
base class object tagged FLAC, or a fatal error when the track is requested);
otherwise, when `(byte0 & 0x07) == 0x01` and the packet has at least
`1 + sizeof(stream_header)` bytes: AVC or MS-compressed video when the
streamtype begins "video", the audio demuxer of the codec id when it begins
"audio" and the id is known, the text demuxer when it begins "text"; in every
remaining case no demuxer is selected and the base class object is used. -/
theorem sniff_eq_classify (ext : externals) (cfg : reader_config) (r : ogm_reader_c)
    (og : ogg_page) (op : ogg_packet) (rest : List ogg_packet)
    (hinit : cfg.ogg_stream_init_fails = false) (hp : og.packets = op :: rest) :
    sniff ext cfg r.sdemuxers.length op
      = classify_first_packet ext cfg r.sdemuxers.length op.packet ∧
    handle_new_stream ext cfg r og =
      match classify_first_packet ext cfg r.sdemuxers.length op.packet with
      | sniffed.fatal => ⟨r, true⟩
      | sniffed.dmx d => register_stream ext cfg r og op rest d
      | sniffed.null w =>
        register_stream ext cfg { r with warnings := r.warnings + w } og op rest
          ogm_demuxer_c.new := by
  refine ⟨sniff_classify ext cfg _ op, ?_⟩
  unfold handle_new_stream
  simp only [hinit, Bool.false_eq_true, if_false, hp, List.headD_cons, List.tail_cons,
    sniff_classify]

/-- C7, witness: the Vorbis identification packet on a beginning-of-stream page
registers a Vorbis demuxer. -/
theorem sniff_eq_classify_witness :
    sniff ext_example cfg_example 0 op_vorbis_id = sniffed.dmx new_ogm_a_vorbis_demuxer_c ∧
    (handle_new_stream ext_example cfg_example reader_initial
        ⟨7, 0, true, [op_vorbis_id]⟩).state.sdemuxers.map (fun d => d.cls)
      = [demuxer_class.ogm_a_vorbis_demuxer_c] :=
  ⟨((sniff_eq_classify ext_example cfg_example reader_initial ⟨7, 0, true, [op_vorbis_id]⟩
      op_vorbis_id [] (by decide) rfl).1).trans (by decide),
   by decide⟩

theorem hex_digit_range (c v : Nat) (h : hex_digit c = some v) :
    (48 ≤ c ∧ c ≤ 57 ∧ v = c - 48) ∨ (97 ≤ c ∧ c ≤ 102 ∧ v = c - 87)
      ∨ (65 ≤ c ∧ c ≤ 70 ∧ v = c - 55) := by
  unfold hex_digit at h
  split_ifs at h with h1 h2 h3 <;> simp at h <;> omega

theorem strtol16_hex4 (c0 c1 c2 c3 v0 v1 v2 v3 : Nat) (h0 : hex_digit c0 = some v0)
    (h1 : hex_digit c1 = some v1) (h2 : hex_digit c2 = some v2) (h3 : hex_digit c3 = some v3) :
    strtol16 [c0, c1, c2, c3] = (((v0 : Int) * 16 + v1) * 16 + v2) * 16 + v3 := by
  have r0 := hex_digit_range c0 v0 h0
  have r1 := hex_digit_range c1 v1 h1
  have hsp : isspace c0 = false := by
    simp only [isspace, Bool.or_eq_false_iff, beq_eq_false_iff_ne, ne_eq, Bool.and_eq_false_iff,
      decide_eq_false_iff_not]
    omega
  have hm : c0 ≠ 45 := by omega
  have hp : c0 ≠ 43 := by omega
  have hx : c1 ≠ 120 := by omega
  have hX : c1 ≠ 88 := by omega
  have hplus : (c0 == 43) = false := by simp [hp]
  have hneg : (c0 == 45) = false := by simp [hm]
  unfold strtol16
  simp only [List.dropWhile, hsp, List.headD_cons, hplus, hneg, Bool.or_self,
    Bool.false_eq_true, if_false]
  have hs3 : (match [c0, c1, c2, c3] with
      | 48 :: x :: h :: t => if (x == 120 || x == 88) && (hex_digit h).isSome then h :: t
          else [c0, c1, c2, c3]
      | _ => [c0, c1, c2, c3]) = [c0, c1, c2, c3] := by
    split
    · rename_i x h t heq
      simp only [List.cons.injEq] at heq
      obtain ⟨_, rfl, _⟩ := heq
      simp [hx, hX]
    · rfl
  rw [hs3]
  simp [strtol16_digits, h0, h1, h2, h3]

/-- C7, counterexample: a first packet with `(byte0 & 0x07) == 0x01` and
`1 + sizeof(stream_header)` bytes that matches none of the earlier tags, but
whose streamtype is none of "video", "audio", "text", selects no legacy
demuxer: the base class object (type "unknown") is registered.  So it is for
a packet that begins with "fLaC" in a build without FLAC support. -/
theorem sniff_legacy_header_unknown_counterexample :
    legacy_header ext_example op_legacy_unknown.packet ∧
    ¬tagged op_legacy_unknown.packet lit_vorbis ∧
    ¬tagged op_legacy_unknown.packet lit_theora ∧
    ¬tagged op_legacy_unknown.packet lit_kate ∧
    op_legacy_unknown.packet.take 4 ≠ lit_fLaC ∧
    sniff ext_example cfg_example 0 op_legacy_unknown = sniffed.null 0 ∧
    (handle_new_stream ext_example cfg_example reader_initial
        ⟨9, 0, true, [op_legacy_unknown]⟩).state.sdemuxers.map (fun d => (d.cls, get_type d))
      = [(demuxer_class.ogm_demuxer_c, "unknown")] ∧
    (handle_new_stream ext_example cfg_no_flac reader_initial
        ⟨9, 0, true, [op_fLaC]⟩).state.sdemuxers.map (fun d => (d.cls, get_type d))
      = [(demuxer_class.ogm_demuxer_c, "unknown")] := by
  decide

theorem legacy_header_not_fLaC (ext : externals) (p : List Nat) (h : legacy_header ext p) :
    p.take 4 ≠ lit_fLaC := by
  intro hf
  cases p with
  | nil => simp [lit_fLaC] at hf
  | cons x xs =>
    have hx : x = 102 := by
      simp [lit_fLaC] at hf
      exact hf.1
    subst hx
    have := h.1
    simp only [byte_at, List.getD_cons_zero] at this
    exact absurd this (by decide)

theorem audio_not_video (ext : externals) (p : List Nat)
    (h : streamtype_begins ext p lit_audio) : ¬streamtype_begins ext p lit_video := by
  intro hv
  unfold streamtype_begins at h hv
  rw [show lit_video.length = lit_audio.length from rfl, h] at hv
  exact absurd hv (by decide)

theorem classify_legacy_audio (ext : externals) (cfg : reader_config) (n : Nat) (p : List Nat)
    (h : legacy_audio_header ext p) :
    classify_first_packet ext cfg n p = audio_by_codec_id (audio_codec_id ext p) := by
  obtain ⟨hv, ht, hk, hl, ha⟩ := h
  unfold classify_first_packet
  simp only [hv, ht, hk, legacy_header_not_fLaC ext p hl, hl, audio_not_video ext p ha, ha,
    if_true, if_false]

/-- C8: for every first packet that reaches the OggDS branch with a streamtype
beginning "audio", the demuxer is selected by the codec id, the 4 characters
of subtype read as a hexadecimal number: 0x0001 selects PCM, 0x0050 and 0x0055
MP2/MP3 (whose kind is audio and whose codec name is "MP2/MP3"), 0x2000 AC3,
0x00ff AAC, and every other id selects none, so that the base class object is
used.  For 4 hexadecimal digits the id is their value. -/
theorem sniff_legacy_audio (ext : externals) (cfg : reader_config) (n : Nat) (op : ogg_packet)
    (h : legacy_audio_header ext op.packet) :
    (audio_codec_id ext op.packet = 0x0001 →
      sniff ext cfg n op = sniffed.dmx new_ogm_a_pcm_demuxer_c) ∧
    (audio_codec_id ext op.packet = 0x0050 ∨ audio_codec_id ext op.packet = 0x0055 →
      sniff ext cfg n op = sniffed.dmx new_ogm_a_mp3_demuxer_c) ∧
    (audio_codec_id ext op.packet = 0x2000 →
      sniff ext cfg n op = sniffed.dmx new_ogm_a_ac3_demuxer_c) ∧
    (audio_codec_id ext op.packet = 0x00ff →
      sniff ext cfg n op = sniffed.dmx new_ogm_a_aac_demuxer_c) ∧
    (audio_codec_id ext op.packet ≠ 0x0001 ∧ audio_codec_id ext op.packet ≠ 0x0050
        ∧ audio_codec_id ext op.packet ≠ 0x0055 ∧ audio_codec_id ext op.packet ≠ 0x2000
        ∧ audio_codec_id ext op.packet ≠ 0x00ff →
      sniff ext cfg n op = sniffed.null 1) ∧
    new_ogm_a_mp3_demuxer_c.cls = demuxer_class.ogm_a_mp3_demuxer_c ∧
    get_type new_ogm_a_mp3_demuxer_c = "audio" ∧
    get_codec new_ogm_a_mp3_demuxer_c = some "MP2/MP3" ∧
    (∀ v0 v1 v2 v3 : Nat,
      hex_digit (byte_at op.packet (1 + ext.layout.subtype)) = some v0 →
      hex_digit (byte_at op.packet (1 + ext.layout.subtype + 1)) = some v1 →
      hex_digit (byte_at op.packet (1 + ext.layout.subtype + 2)) = some v2 →
      hex_digit (byte_at op.packet (1 + ext.layout.subtype + 3)) = some v3 →
      audio_codec_id ext op.packet = 4096 * v0 + 256 * v1 + 16 * v2 + v3) := by
  have hs : sniff ext cfg n op = audio_by_codec_id (audio_codec_id ext op.packet) := by
    rw [sniff_classify]
    exact classify_legacy_audio ext cfg n op.packet h
  rw [hs]
  refine ⟨?_, ?_, ?_, ?_, ?_, rfl, by decide, by decide, ?_⟩
  · intro h1; rw [h1]; rfl
  · rintro (h1 | h1) <;> rw [h1] <;> rfl
  · intro h1; rw [h1]; rfl
  · intro h1; rw [h1]; rfl
  · rintro ⟨a, b, c, d, e⟩
    simp [audio_by_codec_id, a, b, c, d, e]
  · intro v0 v1 v2 v3 h0 h1 h2 h3
    have r0 := hex_digit_range _ _ h0
    have r1 := hex_digit_range _ _ h1
    have r2 := hex_digit_range _ _ h2
    have r3 := hex_digit_range _ _ h3
    unfold audio_codec_id
    have hl : (List.range 4).map (fun i => byte_at op.packet (1 + ext.layout.subtype + i))
        = [byte_at op.packet (1 + ext.layout.subtype),
           byte_at op.packet (1 + ext.layout.subtype + 1),
           byte_at op.packet (1 + ext.layout.subtype + 2),
           byte_at op.packet (1 + ext.layout.subtype + 3)] := by
      simp [List.range_succ]
    rw [hl, strtol16_hex4 _ _ _ _ v0 v1 v2 v3 h0 h1 h2 h3]
    omega

/-- C8, witness: the subtype "0055" selects the MP2/MP3 demuxer. -/
theorem sniff_legacy_audio_witness :
    audio_codec_id ext_example (op_legacy_audio [48, 48, 53, 53]).packet = 0x0055 ∧
    sniff ext_example cfg_example 0 (op_legacy_audio [48, 48, 53, 53])
      = sniffed.dmx new_ogm_a_mp3_demuxer_c :=
  ⟨by decide,
   (sniff_legacy_audio ext_example cfg_example 0 (op_legacy_audio [48, 48, 53, 53])
      ⟨by decide, by decide, by decide, by decide, by decide⟩).2.1 (Or.inr (by decide))⟩

/-- C9, counterexample: the same first packet "fLaC" selects the FLAC demuxer
in a build with FLAC support and a base class object in a build without it
(where, if the track is requested, the call does not return at all). -/
theorem sniff_depends_on_build_counterexample :
    sniff ext_example cfg_example 0 op_fLaC = sniffed.dmx (new_ogm_a_flac_demuxer_c ext_example) ∧
    sniff ext_example cfg_no_flac 0 op_fLaC
      = sniffed.dmx { ogm_demuxer_c.new with stype := OGM_STREAM_TYPE_A_FLAC, in_use := true } ∧
    sniff ext_example cfg_no_flac_requested 0 op_fLaC = sniffed.fatal ∧
    (handle_new_stream ext_example cfg_example reader_initial
        ⟨9, 0, true, [op_fLaC]⟩).state.sdemuxers.map (fun d => d.cls)
      = [demuxer_class.ogm_a_flac_demuxer_c] ∧
    (handle_new_stream ext_example cfg_no_flac reader_initial
        ⟨9, 0, true, [op_fLaC]⟩).state.sdemuxers.map (fun d => d.cls)
      = [demuxer_class.ogm_demuxer_c] := by
  decide

/-- C9, amended: the demuxer selected for a first packet is a function of the
packet's bytes and of three settings: whether the build has FLAC support,
whether the hack that allows AVC in VfW mode is engaged, and, in a build without
FLAC support, whether the audio track with the next free track number is
requested.  Two invocations that agree on these select the same demuxer,
whatever the registered streams and the rest of the track selection; and for a
packet that does not begin with "fLaC" and whose streamtype does not begin with
"video" every two invocations select the same demuxer. -/
theorem sniff_config_dependence (ext : externals) (cfg1 cfg2 : reader_config) (n1 n2 : Nat)
    (op : ogg_packet) :
    (cfg1.HAVE_FLAC_FORMAT_H = cfg2.HAVE_FLAC_FORMAT_H →
      cfg1.hack_allow_avc_in_vfw_mode = cfg2.hack_allow_avc_in_vfw_mode →
      (cfg1.HAVE_FLAC_FORMAT_H = false →
        cfg1.demuxing_requested 'a' n1 = cfg2.demuxing_requested 'a' n2) →
      sniff ext cfg1 n1 op = sniff ext cfg2 n2 op) ∧
    (op.packet.take 4 ≠ lit_fLaC → ¬streamtype_begins ext op.packet lit_video →
      sniff ext cfg1 n1 op = sniff ext cfg2 n2 op) := by
  constructor
  · intro hf hh hr
    rw [sniff_classify, sniff_classify]
    unfold classify_first_packet
    rw [hf, hh]
    cases hF : cfg2.HAVE_FLAC_FORMAT_H
    · rw [hr (hf.trans hF)]
    · rfl
  · intro hf hv
    rw [sniff_classify, sniff_classify]
    unfold classify_first_packet
    simp only [hf, hv, if_false]

/-- C9, witness: a Vorbis first packet selects the Vorbis demuxer in a build
with FLAC support and every track requested, with no stream registered, as in
a build without FLAC support and no track requested, with 5 streams
registered. -/
theorem sniff_config_dependence_witness :
    sniff ext_example cfg_example 0 op_vorbis_id = sniff ext_example cfg_no_flac 5 op_vorbis_id ∧
    sniff ext_example cfg_example 0 op_vorbis_id = sniffed.dmx new_ogm_a_vorbis_demuxer_c :=
  ⟨(sniff_config_dependence ext_example cfg_example cfg_no_flac 0 5 op_vorbis_id).2
      (by decide) (by decide),
   by decide⟩

theorem classify_unknown (ext : externals) (cfg : reader_config) (n : Nat) (p : List Nat)
    (h : no_known_codec ext p ∨ unknown_audio_codec ext p) :
    classify_first_packet ext cfg n p = sniffed.null 0
      ∨ classify_first_packet ext cfg n p = sniffed.null 1 := by
  rcases h with ⟨hv, ht, hk, hf, hl⟩ | ⟨ha, a, b, c, d, e⟩
  · left
    unfold classify_first_packet
    simp only [hv, ht, hk, hf, if_false]
    rcases hl with hl | ⟨h1, h2, h3⟩
    · simp only [hl, if_false]
    · simp only [h1, h2, h3, if_false, ite_self]
  · right
    rw [classify_legacy_audio ext cfg n p ha]
    simp [audio_by_codec_id, a, b, c, d, e]

theorem register_stream_base (ext : externals) (cfg : reader_config) (r : ogm_reader_c)
    (og : ogg_page) (op : ogg_packet) (os : List ogg_packet) :
    register_stream ext cfg r og op os ogm_demuxer_c.new =
      ⟨{ r with
          sdemuxers := r.sdemuxers ++ [{ ogm_demuxer_c.new with
            serialno := og.serialno, track_id := r.sdemuxers.length, in_use := false,
            packet_data := [op.packet], os := os }]
          g_video_fps := if r.g_video_fps.isNone then none else r.g_video_fps }, false⟩ := by
  have ht : get_type ogm_demuxer_c.new = "unknown" := rfl
  unfold register_stream
  simp only [ht, bne_self_eq_false, Bool.false_and]
  rfl

/-- C10: for every first packet that matches no known codec, and for every
legacy audio header whose codec id is none of 0x0001, 0x0050, 0x0055, 0x2000,
0x00ff, `handle_new_stream` returns and has appended one stream to the
registry, behind the streams registered before, which are unchanged: an object
of the base class, of type "unknown", with the page's serial number and the
next track number, holding the first packet, and with `in_use` false whatever
the track selection. -/
theorem handle_new_stream_unknown (ext : externals) (cfg : reader_config) (r : ogm_reader_c)
    (og : ogg_page) (op : ogg_packet) (rest : List ogg_packet)
    (hinit : cfg.ogg_stream_init_fails = false) (hp : og.packets = op :: rest)
    (h : no_known_codec ext op.packet ∨ unknown_audio_codec ext op.packet) :
    (handle_new_stream ext cfg r og).fatal = false ∧
    ∃ d : ogm_demuxer_c,
      (handle_new_stream ext cfg r og).state.sdemuxers = r.sdemuxers ++ [d] ∧
      d.cls = demuxer_class.ogm_demuxer_c ∧ get_type d = "unknown" ∧ d.in_use = false ∧
      d.serialno = og.serialno ∧ d.track_id = r.sdemuxers.length ∧
      d.packet_data = [op.packet] := by
  have hs := classify_unknown ext cfg r.sdemuxers.length op.packet h
  rw [← sniff_classify] at hs
  unfold handle_new_stream
  simp only [hinit, Bool.false_eq_true, if_false, hp, List.headD_cons, List.tail_cons]
  rcases hs with hs | hs <;> rw [hs] <;> dsimp only <;> rw [register_stream_base] <;>
    exact ⟨rfl, _, rfl, rfl, rfl, rfl, rfl, rfl, rfl⟩

/-- C10, witness: a legacy audio header with subtype "0002" is registered as an
unused stream of type "unknown" although every track is requested. -/
theorem handle_new_stream_unknown_witness :
    (handle_new_stream ext_example cfg_example reader_vorbis_steady
        ⟨9, 0, true, [op_legacy_audio [48, 48, 48, 50]]⟩).fatal = false ∧
    ∃ d : ogm_demuxer_c,
      (handle_new_stream ext_example cfg_example reader_vorbis_steady
          ⟨9, 0, true, [op_legacy_audio [48, 48, 48, 50]]⟩).state.sdemuxers
        = reader_vorbis_steady.sdemuxers ++ [d] ∧
      d.cls = demuxer_class.ogm_demuxer_c ∧ get_type d = "unknown" ∧ d.in_use = false ∧
      d.serialno = 9 ∧ d.track_id = 1 ∧
      d.packet_data = [(op_legacy_audio [48, 48, 48, 50]).packet] :=
  handle_new_stream_unknown ext_example cfg_example reader_vorbis_steady
    ⟨9, 0, true, [op_legacy_audio [48, 48, 48, 50]]⟩ (op_legacy_audio [48, 48, 48, 50]) []
    (by decide) rfl
    (Or.inr ⟨⟨by decide, by decide, by decide, by decide, by decide⟩,
      by decide, by decide, by decide, by decide, by decide⟩)

/-! ### The stream registry -/

theorem find_demuxer_from_not_found (serialno : Int) (l : List ogm_demuxer_c)
    (h : ∀ d ∈ l, d.serialno ≠ serialno) : ∀ k, find_demuxer_from serialno l k = none := by
  induction l with
  | nil => intro k; rfl
  | cons x xs ih =>
    intro k
    have hx : x.serialno ≠ serialno := h x (List.mem_cons_self _ _)
    simp only [find_demuxer_from, hx, if_false]
    exact ih (fun d hd => h d (List.mem_cons_of_mem _ hd)) (k + 1)

theorem find_demuxer_from_first (serialno : Int) (l : List ogm_demuxer_c) (d : ogm_demuxer_c)
    (h : l.find? (fun x => decide (x.serialno = serialno)) = some d) :
    ∀ k, find_demuxer_from serialno l k
      = if d.in_use then
          some (k + (l.takeWhile (fun x => !decide (x.serialno = serialno))).length, d)
        else none := by
  induction l with
  | nil => simp at h
  | cons x xs ih =>
    intro k
    by_cases hx : x.serialno = serialno
    · simp only [List.find?, hx, decide_True, Option.some.injEq] at h
      subst h
      simp [find_demuxer_from, hx]
    · simp only [List.find?, hx, decide_False] at h
      simp only [find_demuxer_from, hx, if_false, ih h (k + 1)]
      split_ifs
      · simp [List.takeWhile, hx]; omega
      · rfl

theorem find_demuxer_not_found (r : ogm_reader_c) (serialno : Int)
    (h : ∀ d ∈ r.sdemuxers, d.serialno ≠ serialno) : find_demuxer r serialno = none :=
  find_demuxer_from_not_found serialno r.sdemuxers h 0

/-- C11, counterexample: with one registered stream, serial number 7, that is
not in use, `find_demuxer` returns the same NULL pointer for serial number 7
(registered, not in use) and for serial number 8 (not registered). -/
theorem find_demuxer_not_in_use_counterexample :
    reader_unused_stream.sdemuxers.map (fun d => (d.serialno, d.in_use)) = [(7, false)] ∧
    find_demuxer reader_unused_stream 7 = none ∧
    find_demuxer reader_unused_stream 8 = none ∧
    find_demuxer reader_unused_stream 7 = find_demuxer reader_unused_stream 8 := by
  decide

/-- C11, amended: `find_demuxer` returns the first registered stream with the
given serial number when that stream is in use, and the NULL pointer both when
that stream is not in use and when no registered stream has the serial number;
the two cases give the same result. -/
theorem find_demuxer_result (r : ogm_reader_c) (serialno : Int) :
    ((∀ d ∈ r.sdemuxers, d.serialno ≠ serialno) → find_demuxer r serialno = none) ∧
    (∀ d : ogm_demuxer_c,
      r.sdemuxers.find? (fun x => decide (x.serialno = serialno)) = some d →
      d.in_use = false → find_demuxer r serialno = none) ∧
    (∀ d : ogm_demuxer_c,
      r.sdemuxers.find? (fun x => decide (x.serialno = serialno)) = some d →
      d.in_use = true →
      ∃ i, find_demuxer r serialno = some (i, d) ∧ r.sdemuxers.get? i = some d) := by
  refine ⟨find_demuxer_not_found r serialno, ?_, ?_⟩
  · intro d hd hu
    unfold find_demuxer
    rw [find_demuxer_from_first serialno r.sdemuxers d hd 0]
    simp [hu]
  · intro d hd hu
    have h := find_demuxer_from_first serialno r.sdemuxers d hd 0
    simp only [hu, if_true] at h
    exact ⟨_, h, (find_demuxer_spec r serialno _ d h).1⟩

/-- C11, witness: the in-use stream with serial number 7 is returned, at position
0 of the registry. -/
theorem find_demuxer_result_witness :
    ∃ i, find_demuxer reader_vorbis_steady 7 = some (i, dmx_vorbis_steady)
      ∧ reader_vorbis_steady.sdemuxers.get? i = some dmx_vorbis_steady :=
  (find_demuxer_result reader_vorbis_steady 7).2.2 dmx_vorbis_steady (by decide) (by decide)

/-- C12: for every page whose serial number matches no registered stream,
`process_page` and `process_header_page` return the reader state they were
given: registry, every stream's state, delivered packets and the count of
warnings are unchanged. -/
theorem process_page_unregistered (ext : externals) (r : ogm_reader_c) (og : ogg_page)
    (h : ∀ d ∈ r.sdemuxers, d.serialno ≠ og.serialno) :
    process_page ext r og = r ∧ process_header_page ext r og = r := by
  have hf := find_demuxer_not_found r og.serialno h
  constructor
  · unfold process_page
    rw [hf]
  · unfold process_header_page
    rw [hf]

/-- C12, witness: a page with serial number 8 leaves a reader unchanged whose
only stream has serial number 7. -/
theorem process_page_unregistered_witness :
    process_page ext_example reader_vorbis_steady ⟨8, 5, false, [⟨[0, 1], false⟩]⟩
      = reader_vorbis_steady ∧
    process_header_page ext_example reader_vorbis_steady ⟨8, 5, false, [⟨[0, 1], false⟩]⟩
      = reader_vorbis_steady :=
  process_page_unregistered ext_example reader_vorbis_steady ⟨8, 5, false, [⟨[0, 1], false⟩]⟩
    (by decide)

/-! ### Kate header packets -/

theorem process_header_page_loop_num (ext : externals) (l : List ogg_packet) :
    ∀ d : ogm_demuxer_c,
      (ogm_demuxer_c.process_header_page_loop ext d l).1.num_header_packets
        = d.num_header_packets := by
  induction l with
  | nil =>
    intro d
    simp only [ogm_demuxer_c.process_header_page_loop]
    split_ifs <;> rfl
  | cons op rest ih =>
    intro d
    simp only [ogm_demuxer_c.process_header_page_loop]
    split_ifs
    · rw [ih]
    · rfl
    · rw [ih]

/-- C13, counterexample: a Kate stream whose identification header declares 4
headers and whose next page holds a data packet (first byte 0x00) has
`headers_read` set with 1 buffered header packet, and `read_headers` returns
1. -/
theorem kate_header_count_counterexample :
    (initialize_dmx ext_example dmx_kate_registered).1.state.num_header_packets = 4 ∧
    (ogm_demuxer_c.process_header_page ext_example
        (dmx_kate_with_page [⟨[0x00, 1], false⟩])).1.headers_read = true ∧
    (ogm_demuxer_c.process_header_page ext_example
        (dmx_kate_with_page [⟨[0x00, 1], false⟩])).1.packet_data.length = 1 ∧
    (read_headers ext_example cfg_example pages_kate_data_early reader_initial).state.1 = 1 ∧
    (read_headers ext_example cfg_example pages_kate_data_early
        reader_initial).state.2.sdemuxers.map
        (fun d => (d.cls, d.headers_read, d.packet_data.length, d.num_header_packets))
      = [(demuxer_class.ogm_s_kate_demuxer_c, true, 1, 4)] := by
  decide

/-- C13, amended: for every Kate stream whose identification header parses with
`nheaders = n`, `initialize` returns and sets `num_header_packets` to `n`,
whatever the constructor left there; `process_header_page` keeps that value;
and a call of `process_header_page` that sets `headers_read` without printing
the warning about missing header packets ends with exactly `n` header packets
buffered in `packet_data`.  A call that prints the warning sets `headers_read`
whatever the number of buffered header packets. -/
theorem kate_header_count (ext : externals) (d : ogm_demuxer_c)
    (k : kate_identification_header_t)
    (hc : d.cls = demuxer_class.ogm_s_kate_demuxer_c)
    (hk : ext.kate_parse_identification_header (d.packet_data.headD []) = some k) :
    (initialize_dmx ext d).1.fatal = false ∧
    (initialize_dmx ext d).1.state.num_header_packets = k.nheaders ∧
    ∀ d2 : ogm_demuxer_c, d2.num_header_packets = k.nheaders → d2.headers_read = false →
      (ogm_demuxer_c.process_header_page ext d2).1.num_header_packets = k.nheaders ∧
      ((ogm_demuxer_c.process_header_page ext d2).1.headers_read = true
          ∧ (ogm_demuxer_c.process_header_page ext d2).2 = 0 →
        (ogm_demuxer_c.process_header_page ext d2).1.packet_data.length = k.nheaders) ∧
      ((ogm_demuxer_c.process_header_page ext d2).2 ≠ 0 →
        (ogm_demuxer_c.process_header_page ext d2).1.headers_read = true) := by
  refine ⟨?_, ?_, ?_⟩
  · unfold initialize_dmx
    rw [hc]
    simp only [hk]
  · unfold initialize_dmx
    rw [hc]
    simp only [hk]
  · intro d2 hn h0
    have hnum := process_header_page_loop_num ext d2.os d2
    refine ⟨by rw [← hn]; exact hnum, fun h => ?_,
      process_header_page_loop_warned ext d2.os d2⟩
    have := (process_header_page_loop_count ext d2.os d2 h0 h.1 h.2).1
    rw [hnum, hn] at this
    exact this

/-- C13, witness: with `nheaders = 4`, the stream that holds the identification
packet and receives three more header packets has `headers_read` set, without
a warning, with 4 buffered header packets; after two more header packets only,
the flag is still unset. -/
theorem kate_header_count_witness :
    (ogm_demuxer_c.process_header_page ext_example
        (dmx_kate_with_page [⟨[0x81], false⟩, ⟨[0x82], false⟩, ⟨[0x83], false⟩])).1.headers_read
      = true ∧
    (ogm_demuxer_c.process_header_page ext_example
        (dmx_kate_with_page [⟨[0x81], false⟩, ⟨[0x82], false⟩, ⟨[0x83], false⟩])).1.packet_data.length
      = 4 ∧
    (ogm_demuxer_c.process_header_page ext_example
        (dmx_kate_with_page [⟨[0x81], false⟩, ⟨[0x82], false⟩])).1.headers_read = false :=
  ⟨by decide,
   ((kate_header_count ext_example dmx_kate_registered ⟨4⟩ rfl (by decide)).2.2
      (dmx_kate_with_page [⟨[0x81], false⟩, ⟨[0x82], false⟩, ⟨[0x83], false⟩])
      (by decide) (by decide)).2.1 ⟨by decide, by decide⟩,
   by decide⟩

/-! ### End of the header phase -/

theorem read_headers_one_append (ext : externals) (cfg : reader_config)
    (pages more : List ogg_page) :
    ∀ r : ogm_reader_c, (read_headers ext cfg pages r).fatal = false →
      (read_headers ext cfg pages r).state.1 = 1 →
      read_headers ext cfg (pages ++ more) r = read_headers ext cfg pages r := by
  induction pages with
  | nil => intro r _ h; simp [read_headers] at h
  | cons og rest ih =>
    intro r
    rw [List.cons_append, read_headers_cons, read_headers_cons]
    split_ifs with hb hf hd
    · intro _ _; rfl
    · exact ih _
    · exact ih _
    · intro _ _; rfl

theorem read_headers_zero_append (ext : externals) (cfg : reader_config)
    (pages more : List ogg_page) :
    ∀ r : ogm_reader_c, (read_headers ext cfg pages r).fatal = false →
      (read_headers ext cfg pages r).state.1 = 0 →
      read_headers ext cfg (pages ++ more) r
        = read_headers ext cfg more (read_headers ext cfg pages r).state.2 := by
  induction pages with
  | nil => intro r _ _; rfl
  | cons og rest ih =>
    intro r
    rw [List.cons_append, read_headers_cons, read_headers_cons]
    split_ifs with hb hf hd
    · intro h; simp at h
    · exact ih _
    · exact ih _
    · intro _ h; simp at h

theorem read_headers_all_bos (ext : externals) (cfg : reader_config) (pages : List ogg_page) :
    ∀ r : ogm_reader_c, (∀ og ∈ pages, og.bos = true) →
      (read_headers ext cfg pages r).state.1 = 0 := by
  induction pages with
  | nil => intro r _; rfl
  | cons og rest ih =>
    intro r h
    have hb : og.bos = true := h og (List.mem_cons_self _ _)
    rw [read_headers_cons]
    simp only [hb, if_true]
    split_ifs
    · rfl
    · exact ih _ (fun x hx => h x (List.mem_cons_of_mem _ hx))

theorem read_headers_zero_or_one (ext : externals) (cfg : reader_config)
    (pages : List ogg_page) :
    ∀ r : ogm_reader_c, (read_headers ext cfg pages r).state.1 = 0
      ∨ (read_headers ext cfg pages r).state.1 = 1 := by
  induction pages with
  | nil => intro r; left; rfl
  | cons og rest ih =>
    intro r
    rw [read_headers_cons]
    split_ifs
    · left; rfl
    · exact ih _
    · exact ih _
    · right; rfl

/-- C14, counterexample: the source holds one page, the beginning-of-stream page
of a Kate stream that needs 1 header packet.  The stream is in use and has
`headers_read` set after that page, the input is exhausted, and `read_headers`
returns 0. -/
theorem read_headers_all_complete_counterexample :
    (read_headers ext_example cfg_example [⟨5, 0, true, [op_kate_id 1]⟩] reader_initial).fatal
      = false ∧
    (read_headers ext_example cfg_example [⟨5, 0, true, [op_kate_id 1]⟩] reader_initial).state.1
      = 0 ∧
    (read_headers ext_example cfg_example [⟨5, 0, true, [op_kate_id 1]⟩]
        reader_initial).state.2.sdemuxers.map (fun d => (d.in_use, d.headers_read))
      = [(true, true)] := by
  decide

/-- C14, amended: `read_headers` checks for the end of the header phase only
behind a page that is not a beginning-of-stream page.  When, after such a page
has gone through `process_header_page`, every in-use stream has
`headers_read`, it returns 1 at once, and no page behind it is read.  It
returns 0 only when the input is exhausted (the state it returns is the one
from which more pages would be processed), and it does so for every input
without such a page, also when no in-use stream lacks its headers.  These are
the only values it returns. -/
theorem read_headers_end (ext : externals) (cfg : reader_config) (pages : List ogg_page)
    (r : ogm_reader_c) :
    (∀ (og : ogg_page) (rest : List ogg_page), pages = og :: rest → og.bos = false →
      (∀ dmx ∈ (process_header_page ext { r with bos_pages_read := 1 } og).sdemuxers,
        dmx.in_use = true → dmx.headers_read = true) →
      read_headers ext cfg pages r
        = ⟨(1, process_header_page ext { r with bos_pages_read := 1 } og), false⟩) ∧
    ((read_headers ext cfg pages r).fatal = false ∧ (read_headers ext cfg pages r).state.1 = 1 →
      (∀ dmx ∈ (read_headers ext cfg pages r).state.2.sdemuxers,
        dmx.in_use = true → dmx.headers_read = true) ∧
      ∀ more, read_headers ext cfg (pages ++ more) r = read_headers ext cfg pages r) ∧
    ((read_headers ext cfg pages r).fatal = false ∧ (read_headers ext cfg pages r).state.1 = 0 →
      ∀ more, read_headers ext cfg (pages ++ more) r
        = read_headers ext cfg more (read_headers ext cfg pages r).state.2) ∧
    ((∀ og ∈ pages, og.bos = true) → (read_headers ext cfg pages r).state.1 = 0) ∧
    ((read_headers ext cfg pages r).state.1 = 0 ∨ (read_headers ext cfg pages r).state.1 = 1) := by
  refine ⟨?_, ?_, ?_, read_headers_all_bos ext cfg pages r, read_headers_zero_or_one ext cfg pages r⟩
  · intro og rest hp hb hall
    subst hp
    rw [read_headers_cons]
    have hany : (process_header_page ext { r with bos_pages_read := 1 } og).sdemuxers.any
        (fun dmx => !dmx.headers_read && dmx.in_use) = false := by
      rw [Bool.eq_false_iff]
      intro h
      rw [List.any_eq_true] at h
      obtain ⟨dmx, hm, hc⟩ := h
      simp only [Bool.and_eq_true, Bool.not_eq_true'] at hc
      have := hall dmx hm hc.2
      rw [hc.1] at this
      exact absurd this (by decide)
    simp [hb, hany]
  · intro h
    exact ⟨read_headers_returns_one ext cfg pages r h.1 h.2,
      fun more => read_headers_one_append ext cfg pages more r h.1 h.2⟩
  · intro h more
    exact read_headers_zero_append ext cfg pages more r h.1 h.2

/-- C14, witness: on the header pages of a Vorbis stream `read_headers` returns
1, and pages behind them change nothing. -/
theorem read_headers_end_witness :
    (read_headers ext_example cfg_example pages_vorbis_headers reader_initial).state.1 = 1 ∧
    read_headers ext_example cfg_example (pages_vorbis_headers ++ [page_audio 10 1])
        reader_initial
      = read_headers ext_example cfg_example pages_vorbis_headers reader_initial :=
  ⟨by decide,
   ((read_headers_end ext_example cfg_example pages_vorbis_headers reader_initial).2.1
      ⟨by decide, by decide⟩).2 [page_audio 10 1]⟩

/-! ### Steady-state reading -/

theorem read_loop_bos_prefix (ext : externals) (bos_pages : List ogg_page) (og : ogg_page)
    (rest : List ogg_page) (r : ogm_reader_c) (hb : ∀ p ∈ bos_pages, p.bos = true)
    (ho : og.bos = false) :
    read_loop ext (bos_pages ++ og :: rest) r = some (process_page ext r og, rest) := by
  induction bos_pages with
  | nil => simp [read_loop, ho]
  | cons p ps ih =>
    have hp : p.bos = true := hb p (List.mem_cons_self _ _)
    simp only [List.cons_append, read_loop, hp, Bool.not_true, Bool.false_eq_true, if_false]
    exact ih (fun x hx => hb x (List.mem_cons_of_mem _ hx))

theorem read_loop_all_bos (ext : externals) (pages : List ogg_page) (r : ogm_reader_c)
    (hb : ∀ p ∈ pages, p.bos = true) : read_loop ext pages r = none := by
  induction pages with
  | nil => rfl
  | cons p ps ih =>
    have hp : p.bos = true := hb p (List.mem_cons_self _ _)
    simp only [read_loop, hp, Bool.not_true, Bool.false_eq_true, if_false]
    exact ih (fun x hx => hb x (List.mem_cons_of_mem _ hx))

/-- C15, counterexample: with exactly 20 MiB queued, `read` does not return
HOLDING: it reads the next page and hands it to `process_page`, which delivers
the page's packet. -/
theorem read_at_cap_counterexample :
    (read ext_example (20 * 1024 * 1024) [page_audio 10 1] reader_vorbis_steady).status
      = file_status_e.FILE_STATUS_MOREDATA ∧
    (read ext_example (20 * 1024 * 1024) [page_audio 10 1] reader_vorbis_steady).rest = [] ∧
    (read ext_example (20 * 1024 * 1024) [page_audio 10 1]
        reader_vorbis_steady).reader.delivered.length = 1 ∧
    (read ext_example (20 * 1024 * 1024) [page_audio 10 1]
        reader_vorbis_steady).reader.sdemuxers.map (fun d => d.last_granulepos) = [10] := by
  decide

/-- C15, amended: whenever more than 20 MiB (more than 20*1024*1024 bytes) of
packet data are queued, `read` returns HOLDING, reads no page, changes no
state and does not flush; with 20*1024*1024 bytes or fewer queued it does not
return HOLDING. -/
theorem read_holding (ext : externals) (queued_bytes : Int) (pages : List ogg_page)
    (r : ogm_reader_c) :
    (queued_bytes > 20 * 1024 * 1024 →
      read ext queued_bytes pages r = ⟨file_status_e.FILE_STATUS_HOLDING, r, pages, false⟩) ∧
    (queued_bytes ≤ 20 * 1024 * 1024 →
      (read ext queued_bytes pages r).status ≠ file_status_e.FILE_STATUS_HOLDING) := by
  constructor
  · intro h
    unfold read
    rw [if_pos h]
  · intro h
    unfold read
    rw [if_neg (by omega)]
    split
    · simp
    · split_ifs <;> simp

/-- C15, witness: with one byte more than 20 MiB queued nothing is read. -/
theorem read_holding_witness :
    read ext_example (20 * 1024 * 1024 + 1) [page_audio 10 1] reader_vorbis_steady
      = ⟨file_status_e.FILE_STATUS_HOLDING, reader_vorbis_steady, [page_audio 10 1], false⟩ :=
  (read_holding ext_example (20 * 1024 * 1024 + 1) [page_audio 10 1] reader_vorbis_steady).1
    (by decide)

/-- C16: when the read-ahead cap does not apply (at most 20*1024*1024 bytes
queued), `read` skips the beginning-of-stream pages in front of the first other
page without changing the reader state, hands that page to `process_page`,
leaves the pages behind it unread, and returns DONE if every in-use stream has
`eos` set in the state `process_page` left, MOREDATA otherwise; when the source
holds beginning-of-stream pages only (or nothing), it returns DONE with the
state unchanged. -/
theorem read_steady_state (ext : externals) (queued_bytes : Int) (r : ogm_reader_c)
    (hq : queued_bytes ≤ 20 * 1024 * 1024) :
    (∀ (bos_pages : List ogg_page) (og : ogg_page) (rest : List ogg_page),
      (∀ p ∈ bos_pages, p.bos = true) → og.bos = false →
      (read ext queued_bytes (bos_pages ++ og :: rest) r).reader = process_page ext r og ∧
      (read ext queued_bytes (bos_pages ++ og :: rest) r).rest = rest ∧
      ((read ext queued_bytes (bos_pages ++ og :: rest) r).status
          = file_status_e.FILE_STATUS_DONE ↔
        ∀ dmx ∈ (process_page ext r og).sdemuxers, dmx.in_use = true → dmx.eos = true) ∧
      ((read ext queued_bytes (bos_pages ++ og :: rest) r).status
          ≠ file_status_e.FILE_STATUS_DONE →
        (read ext queued_bytes (bos_pages ++ og :: rest) r).status
          = file_status_e.FILE_STATUS_MOREDATA)) ∧
    (∀ pages : List ogg_page, (∀ p ∈ pages, p.bos = true) →
      (read ext queued_bytes pages r).status = file_status_e.FILE_STATUS_DONE ∧
      (read ext queued_bytes pages r).reader = r) := by
  have hq' : ¬queued_bytes > 20 * 1024 * 1024 := by omega
  constructor
  · intro bos_pages og rest hb ho
    unfold read
    rw [if_neg hq', read_loop_bos_prefix ext bos_pages og rest r hb ho]
    simp only
    by_cases hany : (process_page ext r og).sdemuxers.any (fun dmx => !dmx.eos && dmx.in_use)
        = true
    · rw [if_pos hany]
      refine ⟨rfl, rfl, ?_, fun _ => rfl⟩
      constructor
      · intro h; exact file_status_e.noConfusion h
      · intro hall
        rw [List.any_eq_true] at hany
        obtain ⟨dmx, hm, hc⟩ := hany
        simp only [Bool.and_eq_true, Bool.not_eq_true'] at hc
        have := hall dmx hm hc.2
        rw [hc.1] at this
        exact absurd this (by decide)
    · rw [if_neg hany]
      refine ⟨rfl, rfl, ?_, fun h => absurd rfl h⟩
      constructor
      · intro _ dmx hm hu
        by_contra he
        exact hany (List.any_eq_true.2 ⟨dmx, hm, by simp [hu, he]⟩)
      · intro _; rfl
  · intro pages hb
    unfold read
    rw [if_neg hq', read_loop_all_bos ext pages r hb]
    exact ⟨rfl, rfl⟩

/-- C16, witness: behind a beginning-of-stream page, the first other page is
processed and, the stream not being at its end, MOREDATA is returned. -/
theorem read_steady_state_witness :
    (read ext_example 0 ([⟨7, 0, true, [op_vorbis_id]⟩] ++ page_audio 10 1 :: [page_audio 11 2])
        reader_vorbis_steady).reader = process_page ext_example reader_vorbis_steady
          (page_audio 10 1) ∧
    (read ext_example 0 ([⟨7, 0, true, [op_vorbis_id]⟩] ++ page_audio 10 1 :: [page_audio 11 2])
        reader_vorbis_steady).status = file_status_e.FILE_STATUS_MOREDATA :=
  ⟨((read_steady_state ext_example 0 reader_vorbis_steady (by decide)).1
      [⟨7, 0, true, [op_vorbis_id]⟩] (page_audio 10 1) [page_audio 11 2] (by decide)
      (by decide)).1,
   by decide⟩

/-! ### Theora packets -/

theorem memory_at_whole (p : List Nat) : memory_at p 0 (p.length : Int) = ⟨p.length, p⟩ := by
  simp [memory_at]

theorem theora_process_page_loop_output (ext : externals) (l : List ogg_packet) :
    ∀ d : ogm_demuxer_c,
      (ogm_v_theora_demuxer_c.process_page_loop ext d l).2
          = theora_output ext d.theora d.units_processed l ∧
      (ogm_v_theora_demuxer_c.process_page_loop ext d l).1.units_processed
          = d.units_processed + (theora_output ext d.theora d.units_processed l).length := by
  induction l with
  | nil => intro d; simp [ogm_v_theora_demuxer_c.process_page_loop, theora_output]
  | cons op rest ih =>
    intro d
    simp only [ogm_v_theora_demuxer_c.process_page_loop, theora_output]
    by_cases hs : op.bytes = 0 ∨ (byte_at op.packet 0 &&& 0x80) ≠ 0
    · have hs' : (op.packet.length = 0 || high_bit_set op) = true := by
        simp only [ogg_packet.bytes, high_bit_set] at hs ⊢
        rcases hs with h | h
        · simp [Int.natCast_eq_zero.1 h]
        · simp [h]
      rw [if_pos hs, if_pos hs']
      exact ih _
    · have hs' : ¬(op.packet.length = 0 || high_bit_set op) = true := by
        simp only [ogg_packet.bytes, high_bit_set] at hs ⊢
        push_neg at hs
        simp [hs.2]
        intro h
        exact hs.1 (by simp [h])
      rw [if_neg hs, if_neg hs']
      have h := ih { d with os := rest, eos := d.eos || op.e_o_s,
                            units_processed := d.units_processed + 1 }
      simp only at h
      constructor
      · rw [h.1]
        simp [theora_packet, theora_keyframe, ogg_packet.bytes, memory_at_whole]
      · rw [h.2]
        simp only [List.length_cons]
        push_cast
        ring

theorem theora_output_filter (ext : externals) (th : theora_identification_header_t)
    (l : List ogg_packet) :
    ∀ k : Int, (theora_output ext th k l).map (fun pk => (pk.mem.data, pk.bref))
      = (l.filter (fun op => !(decide (op.packet.length = 0) || high_bit_set op))).map
          (fun op => (op.packet,
            some (if theora_keyframe op then frame_type_e.VFT_IFRAME
                  else frame_type_e.VFT_PFRAMEAUTOMATIC))) := by
  induction l with
  | nil => intro k; rfl
  | cons op rest ih =>
    intro k
    simp only [theora_output, List.filter]
    by_cases hs : (decide (op.packet.length = 0) || high_bit_set op) = true
    · simp only [hs, if_true, Bool.not_true]
      exact ih k
    · simp only [hs, if_false]
      simp only [Bool.not_eq_true] at hs
      simp only [hs, Bool.not_false, List.map_cons, theora_packet, ih (k + 1),
        Bool.false_eq_true, if_false]

set_option maxRecDepth 100000 in
theorem high_bit_range : ∀ b, b < 256 → ((b &&& 0x80 ≠ 0) ↔ 0x80 ≤ b) := by
  decide

/-- C18, counterexample: a packet whose first byte is 0x83 has the high bit set
and is skipped by `process_page` in steady state, but `is_header_packet` does
not accept it: the bytes with the high bit set are not the range
0x80..0x82. -/
theorem theora_header_range_counterexample :
    high_bit_set ⟨[0x83, 1], false⟩ = true ∧
    is_header_packet ext_example (dmx_theora_steady []) ⟨[0x83, 1], false⟩ = false ∧
    (ogm_v_theora_demuxer_c.process_page ext_example
        (dmx_theora_steady [⟨[0x83, 1], false⟩]) 0).2 = [] ∧
    (ogm_v_theora_demuxer_c.process_page ext_example
        (dmx_theora_steady [⟨[0x83, 1], false⟩]) 0).1.units_processed = 0 := by
  decide

/-- C18, amended: for Theora, `is_header_packet` accepts exactly the packets
whose first byte is in 0x80..0x82, while steady-state `process_page` skips
exactly the empty packets and the packets whose first byte has the high bit
set (0x80..0xFF for a byte), and hands on every other packet, in order, with
its bytes, flagged as a keyframe iff bit 0x40 of its first byte is clear; each
packet handed on counts one unit in `units_processed`. -/
theorem theora_header_and_steady (ext : externals) (d : ogm_demuxer_c) (granulepos : Int)
    (hc : d.cls = demuxer_class.ogm_v_theora_demuxer_c) :
    (∀ op : ogg_packet, is_header_packet ext d op = true
      ↔ 0x80 ≤ byte_at op.packet 0 ∧ byte_at op.packet 0 ≤ 0x82) ∧
    (∀ op : ogg_packet, byte_at op.packet 0 < 256 →
      (high_bit_set op = true ↔ 0x80 ≤ byte_at op.packet 0)) ∧
    (dmx_process_page ext d granulepos).2
      = theora_output ext d.theora d.units_processed d.os ∧
    (dmx_process_page ext d granulepos).2.map (fun pk => (pk.mem.data, pk.bref))
      = (d.os.filter (fun op => !(decide (op.packet.length = 0) || high_bit_set op))).map
          (fun op => (op.packet,
            some (if theora_keyframe op then frame_type_e.VFT_IFRAME
                  else frame_type_e.VFT_PFRAMEAUTOMATIC))) ∧
    (dmx_process_page ext d granulepos).1.units_processed
      = d.units_processed + (dmx_process_page ext d granulepos).2.length := by
  have hp : dmx_process_page ext d granulepos
      = ogm_v_theora_demuxer_c.process_page_loop ext d d.os := by
    unfold dmx_process_page
    rw [hc]
    rfl
  have hl := theora_process_page_loop_output ext d.os d
  refine ⟨?_, ?_, ?_, ?_, ?_⟩
  · intro op
    unfold is_header_packet
    rw [hc]
    simp
  · intro op hb
    have := high_bit_range (byte_at op.packet 0) hb
    simp only [high_bit_set, bne_iff_ne]
    exact this
  · rw [hp, hl.1]
  · rw [hp, hl.1, theora_output_filter]
  · rw [hp, hl.2, hl.1]

/-- C18, witness: of a header packet (0x80), a keyframe (0x00), an empty packet
and an inter frame (0x40), the keyframe and the inter frame are handed on. -/
theorem theora_header_and_steady_witness :
    (dmx_process_page ext_example
        (dmx_theora_steady [⟨[0x80, 9], false⟩, ⟨[0x00, 1], false⟩, ⟨[], false⟩,
          ⟨[0x40, 2], false⟩]) 0).2.map (fun pk => (pk.mem.data, pk.bref))
      = [([0x00, 1], some frame_type_e.VFT_IFRAME),
         ([0x40, 2], some frame_type_e.VFT_PFRAMEAUTOMATIC)] :=
  ((theora_header_and_steady ext_example
      (dmx_theora_steady [⟨[0x80, 9], false⟩, ⟨[0x00, 1], false⟩, ⟨[], false⟩,
        ⟨[0x40, 2], false⟩]) 0 rfl).2.2.2.1).trans (by decide)

/-! ### Text subtitle packets -/

theorem text_payload_access (op : ogg_packet) (h : text_payload op ≠ []) :
    (op.bytes - 1 - ((get_duration_and_len op).2 : Int) = ((text_payload op).length : Int)) ∧
    (text_payload op).head? = some (byte_at op.packet ((get_duration_and_len op).2 + 1)) ∧
    memory_at op.packet ((get_duration_and_len op).2 + 1)
        (op.bytes - 1 - ((get_duration_and_len op).2 : Int))
      = ⟨(text_payload op).length, text_payload op⟩ := by
  have hlen : (get_duration_and_len op).2 + 1 < op.packet.length := by
    by_contra hc
    apply h
    unfold text_payload
    exact List.drop_eq_nil_of_le (by omega)
  have h1 : op.bytes - 1 - ((get_duration_and_len op).2 : Int)
      = ((text_payload op).length : Int) := by
    simp only [ogg_packet.bytes, text_payload, List.length_drop]
    omega
  refine ⟨h1, ?_, ?_⟩
  · simp only [text_payload, byte_at]
    rw [List.head?_drop, List.getD_eq_getElem?_getD, Nat.add_comm]
    rw [List.getElem?_eq_getElem hlen]
    rfl
  · rw [h1]
    simp only [memory_at, Int.toNat_ofNat, text_payload, Nat.add_comm]
    rw [List.take_of_length_le (le_refl _)]

theorem filler_start_iff (op : ogg_packet) (h : text_payload op ≠ []) :
    filler_start_payload op = true ↔
      ¬(op.bytes - 1 - ((get_duration_and_len op).2 : Int) > 2
        ∨ (byte_at op.packet ((get_duration_and_len op).2 + 1) ≠ 32
          ∧ byte_at op.packet ((get_duration_and_len op).2 + 1) ≠ 0
          ∧ iscr (byte_at op.packet ((get_duration_and_len op).2 + 1)) = false)) := by
  obtain ⟨h1, h2, _⟩ := text_payload_access op h
  rw [h1]
  simp only [filler_start_payload, h2, Option.map_some', is_filler, iscr]
  simp only [Bool.and_eq_true, decide_eq_true_eq, beq_iff_eq, Option.some.injEq,
    Bool.or_eq_true, Bool.or_eq_false_iff, beq_eq_false_iff_ne, ne_eq]
  constructor
  · rintro ⟨ha, hb⟩ hc
    rcases hc with hc | ⟨c1, c2, c3, c4⟩
    · omega
    · rcases hb with ((hb | hb) | hb) | hb
      · exact c1 hb
      · exact c2 hb
      · exact c4 hb
      · exact c3 hb
  · intro hc
    refine ⟨by omega, ?_⟩
    by_contra hn
    apply hc
    right
    refine ⟨fun e => hn (Or.inl (Or.inl (Or.inl e))), fun e => hn (Or.inl (Or.inl (Or.inr e))),
      fun e => hn (Or.inr e), fun e => hn (Or.inl (Or.inr e))⟩

theorem text_process_page_loop_output (granulepos : Int) (l : List ogg_packet) :
    ∀ d : ogm_demuxer_c,
      (∀ op ∈ l, is_header_or_comment op = false → text_payload op ≠ []) →
      (ogm_s_text_demuxer_c.process_page_loop granulepos d l).2
        = l.filterMap (fun op =>
            if is_header_or_comment op || filler_start_payload op then none
            else some (text_packet granulepos op)) := by
  induction l with
  | nil => intro d _; rfl
  | cons op rest ih =>
    intro d hall
    have hrest : ∀ x ∈ rest, is_header_or_comment x = false → text_payload x ≠ [] :=
      fun x hx => hall x (List.mem_cons_of_mem _ hx)
    rw [List.filterMap_cons]
    unfold ogm_s_text_demuxer_c.process_page_loop
    by_cases hh : is_header_or_comment op = true
    · simp only [hh, if_true, Bool.true_or]
      exact ih _ hrest
    · have hne := hall op (List.mem_cons_self _ _) (Bool.not_eq_true _ ▸ hh)
      obtain ⟨_, _, h3⟩ := text_payload_access op hne
      have hf := filler_start_iff op hne
      simp only [hh, if_false]
      by_cases hfs : filler_start_payload op = true
      · rw [if_neg (hf.1 hfs)]
        simp only [hfs, Bool.or_true, if_true]
        exact ih _ hrest
      · rw [if_pos (not_not.1 (fun hc => hfs (hf.2 hc)))]
        simp only [Bool.not_eq_true] at hfs hh
        simp only [hfs, hh, Bool.or_self, Bool.false_eq_true, if_false, h3]
        rw [ih _ hrest]
        rfl

/-- C19, counterexample: the payload " A" (space, 'A') is 2 bytes long and does
not consist of filler bytes only, yet the packet is suppressed: only the first
byte of the payload is inspected. -/
theorem text_filler_counterexample :
    is_header_or_comment ⟨[0x00, 32, 65], false⟩ = false ∧
    text_payload ⟨[0x00, 32, 65], false⟩ = [32, 65] ∧
    all_filler_payload ⟨[0x00, 32, 65], false⟩ = false ∧
    (dmx_process_page ext_example (dmx_text_steady [⟨[0x00, 32, 65], false⟩]) 5).2 = [] := by
  decide

/-- C19, amended: in `ogm_s_text_demuxer_c::process_page`, a packet that is not
tagged header or comment and has a payload of at least one byte is suppressed
if and only if its payload is at most 2 bytes long and the first byte of the
payload is a filler byte (space, NUL, carriage return, line feed); every other
such packet is handed on, in order, with its payload, the page's granule
position and its duration. -/
theorem text_process_page_output (ext : externals) (d : ogm_demuxer_c) (granulepos : Int)
    (hc : d.cls = demuxer_class.ogm_s_text_demuxer_c)
    (hall : ∀ op ∈ d.os, is_header_or_comment op = false → text_payload op ≠ []) :
    (dmx_process_page ext d granulepos).2
      = d.os.filterMap (fun op =>
          if is_header_or_comment op || filler_start_payload op then none
          else some (text_packet granulepos op)) := by
  unfold dmx_process_page
  rw [hc]
  exact text_process_page_loop_output granulepos d.os _ hall

/-- C19, witness: of the payloads " A", "ABC", "A" and of a header packet, "ABC"
and "A" are handed on. -/
theorem text_process_page_output_witness :
    (dmx_process_page ext_example
        (dmx_text_steady [⟨[0x00, 32, 65], false⟩, ⟨[0x00, 65, 66, 67], false⟩,
          ⟨[0x00, 65], false⟩, ⟨[0x01, 65, 66, 67], false⟩]) 5).2.map (fun pk => pk.mem.data)
      = [[65, 66, 67], [65]] :=
  (congrArg (List.map (fun pk => pk.mem.data))
    (text_process_page_output ext_example
      (dmx_text_steady [⟨[0x00, 32, 65], false⟩, ⟨[0x00, 65, 66, 67], false⟩,
        ⟨[0x00, 65], false⟩, ⟨[0x01, 65, 66, 67], false⟩]) 5 rfl (by decide))).trans (by decide)

/-! ### The timecode baseline of MS-compressed video -/

/-- C20, evaluation at the failing input: where `size_t` has 64 bits, a page
with granule position -1 and one frame moves the baseline from 10 to -2 (and
the frame gets the timecode -2 * default_duration, also when the page comes
through `ogm_reader_c::process_page`); a page with granule position -1 and no
frame moves it to -1.  With a signed comparison (a `size_t` of 32 bits) the
baseline stays at 10 in both cases. -/
theorem mscomp_baseline_moved_at_undefined_granulepos :
    ext_example.size_t_64 = true ∧
    (ogm_v_mscomp_demuxer_c.process_page ext_example
        (dmx_mscomp_steady [⟨[0x08, 1, 2, 3], false⟩]) (-1)).1.last_granulepos = -2 ∧
    (ogm_v_mscomp_demuxer_c.process_page ext_example
        (dmx_mscomp_steady [⟨[0x08, 1, 2, 3], false⟩]) (-1)).2.map (fun pk => pk.timecode)
      = [some (-80000000)] ∧
    (ogm_v_mscomp_demuxer_c.process_page ext_example
        (dmx_mscomp_steady []) (-1)).1.last_granulepos = -1 ∧
    (process_page ext_example reader_mscomp_steady
        ⟨7, -1, false, [⟨[0x08, 1, 2, 3], false⟩]⟩).delivered.map (fun x => x.2.timecode)
      = [some (-80000000)] ∧
    (ogm_v_mscomp_demuxer_c.process_page { ext_example with size_t_64 := false }
        (dmx_mscomp_steady [⟨[0x08, 1, 2, 3], false⟩]) (-1)).1.last_granulepos = 10 ∧
    (ogm_v_mscomp_demuxer_c.process_page { ext_example with size_t_64 := false }
        (dmx_mscomp_steady [⟨[0x08, 1, 2, 3], false⟩]) (-1)).2.map (fun pk => pk.timecode)
      = [some 400000000] ∧
    (ogm_v_mscomp_demuxer_c.process_page { ext_example with size_t_64 := false }
        (dmx_mscomp_steady []) (-1)).1.last_granulepos = 10 := by
  decide

/-! ### Vorbis packets in steady state -/

theorem vorbis_process_page_loop_output (l : List ogg_packet) :
    ∀ d : ogm_demuxer_c,
      (ogm_a_vorbis_demuxer_c.process_page_loop d l).2
        = (l.filter (fun op => !is_header_or_comment op)).map
            (fun op => (⟨⟨op.packet.length, op.packet⟩, none, none, none, none⟩ : packet_t)) := by
  induction l with
  | nil => intro d; rfl
  | cons op rest ih =>
    intro d
    simp only [ogm_a_vorbis_demuxer_c.process_page_loop, List.filter]
    by_cases hh : is_header_or_comment op = true
    · simp only [hh, if_true, Bool.not_true]
      exact ih _
    · simp only [Bool.not_eq_true] at hh
      simp only [hh, Bool.false_eq_true, if_false, Bool.not_false, List.map_cons, ih,
        ogg_packet.bytes, memory_at_whole]

/-- C21: in steady state `ogm_a_vorbis_demuxer_c::process_page` hands on, in page
order, exactly the packets whose first byte `b` has `(b & 3)` neither 1 nor
3, each with all its bytes and without timecode and duration; packets with
first byte 1, 3 or 5 (the three Vorbis headers) are among the skipped ones. -/
theorem vorbis_process_page_output (ext : externals) (d : ogm_demuxer_c) (granulepos : Int)
    (hc : d.cls = demuxer_class.ogm_a_vorbis_demuxer_c)
    (_hne : ∀ op ∈ d.os, op.packet ≠ []) :
    (dmx_process_page ext d granulepos).2
      = (d.os.filter (fun op => !is_header_or_comment op)).map
          (fun op => (⟨⟨op.packet.length, op.packet⟩, none, none, none, none⟩ : packet_t)) ∧
    (∀ (b : Nat) (tail : List Nat) (e : Bool),
      is_header_or_comment ⟨b :: tail, e⟩ = ((b &&& 3) == 1 || (b &&& 3) == 3)) ∧
    (∀ (tail : List Nat) (e : Bool),
      is_header_or_comment ⟨1 :: tail, e⟩ = true ∧ is_header_or_comment ⟨3 :: tail, e⟩ = true
        ∧ is_header_or_comment ⟨5 :: tail, e⟩ = true) := by
  refine ⟨?_, fun b tail e => ?_, fun tail e => ?_⟩
  rotate_left
  · simp [is_header_or_comment, byte_at, PACKET_TYPE_HEADER, PACKET_TYPE_COMMENT]
  · simp only [is_header_or_comment, byte_at, PACKET_TYPE_HEADER, PACKET_TYPE_COMMENT,
      List.getD_cons_zero]
    decide
  unfold dmx_process_page
  rw [hc]
  exact vorbis_process_page_loop_output d.os d

/-- C21, witness: a page with the three header packets and 5 audio packets
(first byte even) yields the 5 audio packets. -/
theorem vorbis_process_page_output_witness :
    (dmx_process_page ext_example
        (dmx_vorbis_with_page [⟨[1, 118], false⟩, ⟨[3, 118], false⟩, ⟨[5, 118], false⟩,
          ⟨[0, 10], false⟩, ⟨[2, 11], false⟩, ⟨[0, 12], false⟩, ⟨[4, 13], false⟩,
          ⟨[0, 14], false⟩]) 0).2.map (fun pk => (pk.mem.data, pk.timecode, pk.duration))
      = [([0, 10], none, none), ([2, 11], none, none), ([0, 12], none, none),
         ([4, 13], none, none), ([0, 14], none, none)] :=
  (congrArg (List.map (fun pk => (pk.mem.data, pk.timecode, pk.duration)))
    (vorbis_process_page_output ext_example
      (dmx_vorbis_with_page [⟨[1, 118], false⟩, ⟨[3, 118], false⟩, ⟨[5, 118], false⟩,
        ⟨[0, 10], false⟩, ⟨[2, 11], false⟩, ⟨[0, 12], false⟩, ⟨[4, 13], false⟩,
        ⟨[0, 14], false⟩]) 0 rfl (by decide)).1).trans (by decide)

/-! ### Bounds of the payload slice -/

/-- C26, evaluation at the failing input: the one-byte packet 0xC2 is not tagged
header or comment and its length field says `duration_len = 7`, so
`1 + duration_len = 8` exceeds the packet length 1; the base class and the
MS-compressed video `process_page` hand on a `memory_c` of size
`1 - 1 - 7 = -7` that starts at `&op.packet[8]`, and the text `process_page`
inspects `op.packet[8]`. -/
theorem legacy_payload_out_of_bounds :
    is_header_or_comment ⟨[0xC2], false⟩ = false ∧
    (get_duration_and_len ⟨[0xC2], false⟩).2 = 7 ∧
    (⟨[0xC2], false⟩ : ogg_packet).bytes - 1 - 7 = -7 ∧
    (ogm_demuxer_c.process_page (dmx_generic_steady [⟨[0xC2], false⟩]) 0).2.map
        (fun pk => pk.mem.size) = [-7] ∧
    (ogm_v_mscomp_demuxer_c.process_page ext_example (dmx_mscomp_steady [⟨[0xC2], false⟩])
        11).2.map (fun pk => pk.mem.size) = [-7] := by
  decide

/-! ### The header buffers -/

theorem process_header_page_loop_reset (ext : externals) (l : List ogg_packet) :
    ∀ d : ogm_demuxer_c, (ogm_demuxer_c.process_header_page_loop ext d l).2 ≠ 0 →
      (ogm_demuxer_c.process_header_page_loop ext d l).1.os = [] := by
  induction l with
  | nil =>
    intro d
    simp only [ogm_demuxer_c.process_header_page_loop]
    split_ifs <;> simp
  | cons op rest ih =>
    intro d
    simp only [ogm_demuxer_c.process_header_page_loop]
    split_ifs with h1 h2
    · exact ih _
    · intro _; rfl
    · exact ih _

theorem process_header_page_loop_appended (ext : externals) (hdr : ogg_packet → Bool)
    (cls : demuxer_class)
    (hh : ∀ (x : ogm_demuxer_c) (op : ogg_packet), x.cls = cls →
      is_header_packet ext x op = hdr op)
    (l : List ogg_packet) :
    ∀ d : ogm_demuxer_c, d.cls = cls → ∃ n : Nat, n ≤ l.length
      ∧ (ogm_demuxer_c.process_header_page_loop ext d l).1.packet_data
          = d.packet_data ++ ((l.take n).filter hdr).map (fun op => op.packet)
      ∧ ((ogm_demuxer_c.process_header_page_loop ext d l).2 = 0 → n = l.length)
      ∧ ((ogm_demuxer_c.process_header_page_loop ext d l).2 ≠ 0 →
          ∃ op, l.get? n = some op ∧ hdr op = false)
      ∧ (ogm_demuxer_c.process_header_page_loop ext d l).1.num_header_packets
          = d.num_header_packets := by
  induction l with
  | nil =>
    intro d _
    refine ⟨0, le_rfl, ?_, fun _ => rfl, ?_, ?_⟩
    · simp only [ogm_demuxer_c.process_header_page_loop]
      split_ifs <;> simp
    · simp only [ogm_demuxer_c.process_header_page_loop]
      split_ifs <;> simp
    · simp only [ogm_demuxer_c.process_header_page_loop]
      split_ifs <;> rfl
  | cons op rest ih =>
    intro d hc
    have hop : is_header_packet ext { d with os := rest, eos := d.eos || op.e_o_s } op
        = hdr op := hh _ op hc
    simp only [ogm_demuxer_c.process_header_page_loop, hop]
    by_cases hd : hdr op = true
    · obtain ⟨n, hn, hpd, h0, h1, hnum⟩ := ih
        { d with os := rest, packet_data := d.packet_data ++ [op.packet],
                 eos := (d.eos || op.e_o_s) || op.e_o_s } hc
      rw [hd, if_neg (by simp)]
      refine ⟨n + 1, by simpa using hn, ?_, fun h => by simpa using h0 h, ?_, hnum⟩
      · rw [hpd]
        simp [List.take_succ_cons, List.filter_cons, hd]
      · intro h
        obtain ⟨x, hx, hxh⟩ := h1 h
        exact ⟨x, by simpa using hx, hxh⟩
    · simp only [Bool.not_eq_true] at hd
      rw [hd, if_pos rfl]
      by_cases hfull : d.nh_packet_data.length = d.num_non_header_packets
      · rw [if_neg (by simpa using hfull)]
        exact ⟨0, Nat.zero_le _, by simp, fun h => by simp at h,
          fun _ => ⟨op, rfl, hd⟩, rfl⟩
      · obtain ⟨n, hn, hpd, h0, h1, hnum⟩ := ih
          { d with os := rest, eos := d.eos || op.e_o_s,
                   nh_packet_data := d.nh_packet_data ++ [op.packet] } hc
        rw [if_pos (by simpa using hfull)]
        refine ⟨n + 1, by simpa using hn, ?_, fun h => by simpa using h0 h, ?_, hnum⟩
        · rw [hpd]
          simp [List.take_succ_cons, List.filter_cons, hd]
        · intro h
          obtain ⟨x, hx, hxh⟩ := h1 h
          exact ⟨x, by simpa using hx, hxh⟩

/-- C27, counterexample: a Theora stream that has buffered its identification
packet (1 of 3, so the bound holds) and then gets a page with three more
packets that `is_header_packet` accepts holds 4 buffered header packets after
`process_header_page`, more than `num_header_packets = 3`; the same through
`read_headers`. -/
theorem process_header_page_bound_counterexample :
    1 ≤ dmx_theora_extra_header.num_header_packets ∧
    dmx_theora_extra_header.packet_data.length ≤ dmx_theora_extra_header.num_header_packets ∧
    (ogm_demuxer_c.process_header_page ext_example dmx_theora_extra_header).1.packet_data.length
      = 4 ∧
    (ogm_demuxer_c.process_header_page ext_example dmx_theora_extra_header).1.num_header_packets
      = 3 ∧
    (read_headers ext_example cfg_example pages_theora_extra_header
        reader_initial).state.2.sdemuxers.map
        (fun d => (d.packet_data.length, d.num_header_packets))
      = [(4, 3)] := by
  decide

/-- C27, amended: where the header test depends on the packet alone (`hdr`; so
for Theora and Kate), `ogm_demuxer_c::process_header_page` appends to
`packet_data`, in page order, the pending packets that the test accepts, up to
the place where it returns, and never looks at `num_header_packets` in doing
so: when it prints no warning these are all accepted pending packets; when it
prints the warning it has stopped at a packet the test refuses (the non-header
buffer being full), and what is pending behind that packet is dropped.
`num_header_packets` is unchanged. -/
theorem process_header_page_appended (ext : externals) (d : ogm_demuxer_c)
    (hdr : ogg_packet → Bool)
    (hh : ∀ (x : ogm_demuxer_c) (op : ogg_packet), x.cls = d.cls →
      is_header_packet ext x op = hdr op) :
    ∃ n : Nat, n ≤ d.os.length
      ∧ (ogm_demuxer_c.process_header_page ext d).1.packet_data
          = d.packet_data ++ ((d.os.take n).filter hdr).map (fun op => op.packet)
      ∧ ((ogm_demuxer_c.process_header_page ext d).2 = 0 →
          n = d.os.length
            ∧ (ogm_demuxer_c.process_header_page ext d).1.packet_data
              = d.packet_data ++ (d.os.filter hdr).map (fun op => op.packet))
      ∧ ((ogm_demuxer_c.process_header_page ext d).2 ≠ 0 →
          ∃ op, d.os.get? n = some op ∧ hdr op = false
            ∧ (ogm_demuxer_c.process_header_page ext d).1.os = [])
      ∧ (ogm_demuxer_c.process_header_page ext d).1.num_header_packets
          = d.num_header_packets := by
  obtain ⟨n, hn, hpd, h0, h1, hnum⟩ :=
    process_header_page_loop_appended ext hdr d.cls hh d.os d rfl
  refine ⟨n, hn, hpd, ?_, ?_, hnum⟩
  · intro h
    have hn' := h0 h
    refine ⟨hn', ?_⟩
    unfold ogm_demuxer_c.process_header_page
    rw [hpd, hn', List.take_length]
  · intro h
    obtain ⟨op, hop, hf⟩ := h1 h
    exact ⟨op, hop, hf, process_header_page_loop_reset ext d.os d h⟩

/-- C27, witness: the Theora stream that holds its identification packet and
gets three more packets with first bytes 0x81, 0x82, 0x80 buffers all three. -/
theorem process_header_page_appended_witness :
    (ogm_demuxer_c.process_header_page ext_example dmx_theora_extra_header).1.packet_data
      = [[0x80, 116, 104, 101, 111, 114, 97], [0x81, 116], [0x82, 116], [0x80, 116]] := by
  obtain ⟨_, _, _, h0, _⟩ := process_header_page_appended ext_example dmx_theora_extra_header
    theora_header_test (fun x op hc => by
      unfold is_header_packet
      rw [hc]
      rfl)
  exact (h0 (by decide)).2.trans (by decide)

theorem process_header_page_loop_nh (ext : externals) (l : List ogg_packet) :
    ∀ d : ogm_demuxer_c, d.nh_packet_data.length ≤ d.num_non_header_packets →
      (ogm_demuxer_c.process_header_page_loop ext d l).1.num_non_header_packets
          = d.num_non_header_packets
        ∧ (ogm_demuxer_c.process_header_page_loop ext d l).1.nh_packet_data.length
          ≤ d.num_non_header_packets
        ∧ (d.headers_read = false →
            (ogm_demuxer_c.process_header_page_loop ext d l).1.headers_read = true →
            (ogm_demuxer_c.process_header_page_loop ext d l).1.nh_packet_data.length
              = d.num_non_header_packets) := by
  induction l with
  | nil =>
    intro d hle
    simp only [ogm_demuxer_c.process_header_page_loop]
    split_ifs with hc
    · exact ⟨rfl, hle, fun _ _ => le_antisymm hle hc.2⟩
    · exact ⟨rfl, hle, fun h0 h1 => by simp [h0] at h1⟩
  | cons op rest ih =>
    intro d hle
    simp only [ogm_demuxer_c.process_header_page_loop]
    split_ifs with h1 h2
    · refine ih _ ?_
      simp only [List.length_append, List.length_singleton]
      omega
    · simp only [ne_eq, not_not] at h2
      exact ⟨rfl, hle, fun _ _ => h2⟩
    · exact ih _ hle

/-- C29: for a stream whose non-header buffer is not over-full,
`ogm_demuxer_c::process_header_page` leaves `num_non_header_packets` as it is
and keeps `nh_packet_data.size() <= num_non_header_packets`; when the call sets
`headers_read`, the buffer holds exactly `num_non_header_packets` packets.  The
constructors set 0 for every variant except legacy AVC, which sets 3. -/
theorem process_header_page_nh_bound (ext : externals) (d : ogm_demuxer_c)
    (hle : d.nh_packet_data.length ≤ d.num_non_header_packets) :
    (ogm_demuxer_c.process_header_page ext d).1.num_non_header_packets
        = d.num_non_header_packets
      ∧ (ogm_demuxer_c.process_header_page ext d).1.nh_packet_data.length
        ≤ d.num_non_header_packets
      ∧ (d.headers_read = false →
          (ogm_demuxer_c.process_header_page ext d).1.headers_read = true →
          (ogm_demuxer_c.process_header_page ext d).1.nh_packet_data.length
            = d.num_non_header_packets)
      ∧ [ogm_demuxer_c.new, new_ogm_a_aac_demuxer_c, new_ogm_a_ac3_demuxer_c,
          new_ogm_a_mp3_demuxer_c, new_ogm_a_pcm_demuxer_c, new_ogm_a_vorbis_demuxer_c,
          new_ogm_s_text_demuxer_c, new_ogm_v_mscomp_demuxer_c, new_ogm_v_theora_demuxer_c,
          new_ogm_s_kate_demuxer_c].map (fun x => x.num_non_header_packets)
          = [0, 0, 0, 0, 0, 0, 0, 0, 0, 0]
      ∧ new_ogm_v_avc_demuxer_c.num_non_header_packets = 3 := by
  obtain ⟨h1, h2, h3⟩ := process_header_page_loop_nh ext d.os d hle
  exact ⟨h1, h2, h3, by decide, by decide⟩

/-- C29, witness: a legacy AVC stream that gets its comment packet and three
frames completes with exactly 3 buffered non-header packets. -/
theorem process_header_page_nh_bound_witness :
    dmx_avc_headers.nh_packet_data.length ≤ dmx_avc_headers.num_non_header_packets ∧
    (ogm_demuxer_c.process_header_page ext_example dmx_avc_headers).1.headers_read = true ∧
    (ogm_demuxer_c.process_header_page ext_example dmx_avc_headers).1.nh_packet_data.length
      = 3 :=
  ⟨by decide, by decide,
   ((process_header_page_nh_bound ext_example dmx_avc_headers (by decide)).2.2.1
      (by decide) (by decide)).trans (by decide)⟩

/-! ### The codec type tag -/

/-- C30, evaluation at the failing input: a legacy text header is sniffed into
an `ogm_s_text_demuxer_c` and a legacy audio header with subtype "00ff" into an
`ogm_a_aac_demuxer_c`; the two classes differ, their types are "subtitles" and
"audio", and both constructors assign `stype = OGM_STREAM_TYPE_A_AAC`. -/
theorem text_stype_is_aac :
    sniff ext_example cfg_example 0 op_legacy_text = sniffed.dmx new_ogm_s_text_demuxer_c ∧
    sniff ext_example cfg_example 0 (op_legacy_audio [48, 48, 102, 102])
      = sniffed.dmx new_ogm_a_aac_demuxer_c ∧
    new_ogm_s_text_demuxer_c.cls = demuxer_class.ogm_s_text_demuxer_c ∧
    new_ogm_a_aac_demuxer_c.cls = demuxer_class.ogm_a_aac_demuxer_c ∧
    new_ogm_s_text_demuxer_c.stype = OGM_STREAM_TYPE_A_AAC ∧
    new_ogm_a_aac_demuxer_c.stype = OGM_STREAM_TYPE_A_AAC ∧
    get_type new_ogm_s_text_demuxer_c ≠ get_type new_ogm_a_aac_demuxer_c := by
  decide

/-! ### Timecodes of MS-compressed video across pages -/

theorem int64_of_range (x : Int) (h0 : 0 ≤ x) (h1 : x < 2 ^ 63) : int64 x = x := by
  unfold int64
  omega

theorem uint64_of_range (x : Int) (h0 : 0 ≤ x) (h1 : x < 2 ^ 63) : uint64 x = x := by
  unfold uint64
  omega

theorem collect_frames_spec (l : List ogg_packet) :
    ∀ (d : ogm_demuxer_c) (duration : Option Int),
      (ogm_v_mscomp_demuxer_c.collect_frames d duration l).2.2.length
          = (l.filter (fun op => !is_header_or_comment op)).length
        ∧ ∃ e, (ogm_v_mscomp_demuxer_c.collect_frames d duration l).1
            = { d with os := [], eos := e } := by
  induction l with
  | nil => intro d duration; exact ⟨rfl, d.eos, rfl⟩
  | cons op rest ih =>
    intro d duration
    simp only [ogm_v_mscomp_demuxer_c.collect_frames, List.filter]
    by_cases hh : is_header_or_comment op = true
    · simp only [hh, if_true, Bool.not_true]
      obtain ⟨h1, e, h2⟩ := ih { d with os := rest, eos := d.eos || op.e_o_s } duration
      exact ⟨h1, e, h2⟩
    · simp only [Bool.not_eq_true] at hh
      simp only [hh, Bool.false_eq_true, if_false, Bool.not_false, List.length_cons]
      obtain ⟨h1, e, h2⟩ := ih { d with os := rest, eos := d.eos || op.e_o_s }
        (some (if (get_duration_and_len op).2 = 0 ∨ (get_duration_and_len op).1 = 0 then 1
          else ((get_duration_and_len op).1 : Int)))
      exact ⟨by rw [h1], e, h2⟩

theorem emit_frames_spec (duration : Int) (frames : List ogm_frame_t) :
    ∀ d : ogm_demuxer_c,
      (ogm_v_mscomp_demuxer_c.emit_frames duration d frames).2.map (fun pk => pk.timecode)
          = (List.range frames.length).map (fun i : Nat =>
              some (int64 ((d.last_granulepos + d.frames_since_granulepos_change + (i : Int))
                * d.default_duration)))
        ∧ ∃ u, (ogm_v_mscomp_demuxer_c.emit_frames duration d frames).1
            = { d with
                frames_since_granulepos_change :=
                  d.frames_since_granulepos_change + (frames.length : Int),
                units_processed := u } := by
  induction frames with
  | nil =>
    intro d
    refine ⟨rfl, d.units_processed, ?_⟩
    simp [ogm_v_mscomp_demuxer_c.emit_frames]
  | cons frame rest ih =>
    intro d
    obtain ⟨h1, u, h2⟩ := ih { d with
      frames_since_granulepos_change := d.frames_since_granulepos_change + 1,
      units_processed := d.units_processed + duration }
    simp only [ogm_v_mscomp_demuxer_c.emit_frames, List.map_cons, List.length_cons]
    refine ⟨?_, u, ?_⟩
    · rw [h1, List.range_succ_eq_map, List.map_cons, List.map_map]
      simp only [Nat.cast_zero, add_zero, List.cons.injEq, true_and]
      apply List.map_congr_left
      intro i _
      simp only [Function.comp_apply, Nat.cast_succ]
      congr 2
      ring
    · rw [h2]
      simp only [ogm_demuxer_c.mk.injEq, true_and, and_true]
      push_cast
      ring

theorem mscomp_process_page_contiguous (ext : externals) (d : ogm_demuxer_c) (g : Int)
    (hfs : d.frames_since_granulepos_change = 0)
    (hk : 1 ≤ (d.os.filter (fun op => !is_header_or_comment op)).length)
    (hg : g = d.last_granulepos
      + ((d.os.filter (fun op => !is_header_or_comment op)).length : Int))
    (hlt : ((d.os.filter (fun op => !is_header_or_comment op)).length : Int) < 2 ^ 63) :
    (ogm_v_mscomp_demuxer_c.process_page ext d g).2.map (fun pk => pk.timecode)
        = (List.range (d.os.filter (fun op => !is_header_or_comment op)).length).map
            (fun i : Nat => some (int64 ((d.last_granulepos + (i : Int)) * d.default_duration)))
      ∧ ∃ e u, (ogm_v_mscomp_demuxer_c.process_page ext d g).1
          = { d with os := [], eos := e, units_processed := u,
                     frames_since_granulepos_change := 0 } := by
  obtain ⟨hlen, e, hcol⟩ := collect_frames_spec d.os d none
  have hgap : (if ext.size_t_64 then
        decide (uint64 (int64 (g - d.last_granulepos))
          > ((ogm_v_mscomp_demuxer_c.collect_frames d none d.os).2.2.length : Int))
      else decide (int64 (g - d.last_granulepos)
          > ((ogm_v_mscomp_demuxer_c.collect_frames d none d.os).2.2.length : Int))) = false := by
    have hd : g - d.last_granulepos
        = ((d.os.filter (fun op => !is_header_or_comment op)).length : Int) := by omega
    rw [hd, hlen, int64_of_range _ (by omega) hlt, uint64_of_range _ (by omega) hlt]
    simp
  obtain ⟨htc, u, hemit⟩ := emit_frames_spec
    ((ogm_v_mscomp_demuxer_c.collect_frames d none d.os).2.1.getD 0)
    (ogm_v_mscomp_demuxer_c.collect_frames d none d.os).2.2
    { d with os := [], eos := e }
  simp only [ogm_v_mscomp_demuxer_c.process_page, hcol, hgap, Bool.false_eq_true, if_false]
  refine ⟨?_, e, u, ?_⟩
  · rw [htc, hlen]
    simp only [hfs, add_zero]
  · rw [hemit]
    simp only [hfs, zero_add, hlen]
    rw [if_pos (by simp only [ne_eq]; omega)]

theorem find_demuxer_from_set (serialno : Int) (d2 : ogm_demuxer_c)
    (hs : d2.serialno = serialno) (hu : d2.in_use = true) (l : List ogm_demuxer_c) :
    ∀ (k i : Nat) (d : ogm_demuxer_c), find_demuxer_from serialno l k = some (i, d) →
      find_demuxer_from serialno (l.set (i - k) d2) k = some (i, d2) := by
  induction l with
  | nil => intro k i d h; simp [find_demuxer_from] at h
  | cons x xs ih =>
    intro k i d h
    simp only [find_demuxer_from] at h
    split_ifs at h with h1 h2
    · simp only [Option.some.injEq, Prod.mk.injEq] at h
      obtain ⟨rfl, rfl⟩ := h
      simp [find_demuxer_from, hs, hu]
    · have hk := (find_demuxer_from_spec serialno xs (k + 1) i d h).1
      have : i - k = (i - (k + 1)) + 1 := by omega
      rw [this, List.set_cons_succ]
      simp only [find_demuxer_from, h1, if_false]
      exact ih (k + 1) i d h

theorem find_demuxer_set (r : ogm_reader_c) (serialno : Int) (i : Nat) (d d2 : ogm_demuxer_c)
    (delivered : List (Int × packet_t))
    (h : find_demuxer r serialno = some (i, d)) (hs : d2.serialno = serialno)
    (hu : d2.in_use = true) :
    find_demuxer { r with sdemuxers := r.sdemuxers.set i d2, delivered := delivered } serialno
      = some (i, d2) :=
  find_demuxer_from_set serialno d2 hs hu r.sdemuxers 0 i d h

theorem process_pages_mscomp (ext : externals) (s dd : Int) (pages : List ogg_page) :
    ∀ (G : Int) (r : ogm_reader_c) (i : Nat) (d : ogm_demuxer_c), 0 ≤ G →
      find_demuxer r s = some (i, d) → d.cls = demuxer_class.ogm_v_mscomp_demuxer_c →
      d.os = [] → d.last_granulepos = G → d.frames_since_granulepos_change = 0 →
      d.default_duration = dd → contiguous s G pages →
      G + (frame_count pages : Int) < 2 ^ 63 →
      ∃ L : List (Int × packet_t),
        (pages.foldl (process_page ext) r).delivered = r.delivered ++ L
          ∧ L.map (fun x => x.2.timecode)
            = (List.range (frame_count pages)).map
                (fun n : Nat => some (int64 ((G + (n : Int)) * dd))) := by
  induction pages with
  | nil =>
    intro G r i d _ _ _ _ _ _ _ _ _
    exact ⟨[], by simp, rfl⟩
  | cons og rest ih =>
    intro G r i d hG hf hcls hos hlast hfs hdd hcont hN
    obtain ⟨hser, _, hk, hg, hrest⟩ := hcont
    have hfc : frame_count (og :: rest) = (frames_of og).length + frame_count rest := by
      simp [frame_count]
    rw [hfc] at hN ⊢
    push_cast at hN
    have hf' : find_demuxer r og.serialno = some (i, d) := by rw [hser]; exact hf
    have hspec := find_demuxer_spec r s i d hf
    have hacc := process_page_accepted ext r og i d hf'
      (fun h => by rw [hlast] at h; omega)
    have hdmx : dmx_process_page ext { d with os := d.os ++ og.packets } og.granulepos
        = ogm_v_mscomp_demuxer_c.process_page ext { d with os := d.os ++ og.packets }
            og.granulepos := by
      unfold dmx_process_page
      simp only [hcls]
    have hfo : ({ d with os := d.os ++ og.packets } : ogm_demuxer_c).os.filter
        (fun op => !is_header_or_comment op) = frames_of og := by
      simp only [hos, List.nil_append]
      rfl
    obtain ⟨htc, e, u, hst⟩ := mscomp_process_page_contiguous ext
      { d with os := d.os ++ og.packets } og.granulepos hfs
      (by rw [hfo]; exact hk) (by rw [hfo, hg]; simp only [hlast])
      (by rw [hfo]; have := Int.natCast_nonneg (frame_count rest); omega)
    rw [hfo] at htc
    rw [hdmx] at hacc
    rw [List.foldl_cons, hacc]
    have hfind := find_demuxer_set r s i d
      { (ogm_v_mscomp_demuxer_c.process_page ext { d with os := d.os ++ og.packets }
          og.granulepos).1 with last_granulepos := og.granulepos }
      (r.delivered ++ (ogm_v_mscomp_demuxer_c.process_page ext
        { d with os := d.os ++ og.packets } og.granulepos).2.map (fun pk => (d.ptzr, pk)))
      hf (by rw [hst]; exact hspec.2.2) (by rw [hst]; exact hspec.2.1)
    obtain ⟨L, hL, hLt⟩ := ih og.granulepos _ i _ (by omega) hfind
      (by rw [hst]; exact hcls) (by rw [hst]) rfl (by rw [hst]) (by rw [hst]; exact hdd)
      hrest (by omega)
    refine ⟨(ogm_v_mscomp_demuxer_c.process_page ext { d with os := d.os ++ og.packets }
        og.granulepos).2.map (fun pk => (d.ptzr, pk)) ++ L, ?_, ?_⟩
    · rw [hL, List.append_assoc]
    · rw [List.map_append, List.map_map, hLt, List.range_add, List.map_append, List.map_map]
      congr 1
      · have : ((fun x : Int × packet_t => x.2.timecode) ∘ fun pk => (d.ptzr, pk))
            = fun pk : packet_t => pk.timecode := rfl
        rw [this, htc]
        simp only [hlast, hdd]
      · apply List.map_congr_left
        intro n _
        simp only [Function.comp_apply, hg]
        push_cast
        congr 3
        ring

/-- C28, counterexample: a legacy video header with `time_unit` 0 is registered as
an MS-compressed video stream with `default_duration = 0`; three contiguous
pages with 2, 1 and 3 frames are then delivered with the timecode 0 six times:
the timecodes are not strictly increasing. -/
theorem mscomp_zero_duration_counterexample :
    (read_headers ext_example cfg_example pages_mscomp_zero_unit reader_initial).state.2.sdemuxers
        = [dmx_mscomp_zero_unit]
      ∧ dmx_mscomp_zero_unit.default_duration = 0
      ∧ dmx_mscomp_zero_unit.last_granulepos = 0
      ∧ dmx_mscomp_zero_unit.frames_since_granulepos_change = 0
      ∧ contiguous 7 0 pages_mscomp_contiguous
      ∧ (pages_mscomp_contiguous.foldl (process_page ext_example)
            ⟨[dmx_mscomp_zero_unit], 1, [], 0, none⟩).delivered.map (fun x => x.2.timecode)
          = [some 0, some 0, some 0, some 0, some 0, some 0] :=
  ⟨by decide, by decide, by decide, by decide,
   ⟨rfl, by decide, by decide, rfl, rfl, by decide, by decide, rfl, rfl, by decide, by decide,
     rfl, trivial⟩,
   by decide⟩

/-- C28, amended: for an in-use MS-compressed video stream (the stream
`find_demuxer` returns for serial number `s`) with no pending packets,
`last_granulepos = 0` and `frames_since_granulepos_change = 0`, and pages of
that stream without empty packets of which page j carries `k_j >= 1` frames
and has granule position `k_1 + ... + k_j`, fewer than 2^63 frames in all:
`process_page` on the pages in order delivers one packet per frame, and the
n-th of them (n from 0) carries the timecode `n * default_duration` in
`int64_t` arithmetic.  For `default_duration >= 0` and no overflow the
timecode is `n * default_duration` itself; the timecodes are strictly
increasing when moreover `default_duration > 0`, and all 0 when
`default_duration = 0`. -/
theorem mscomp_contiguous_timecodes (ext : externals) (r : ogm_reader_c) (s : Int) (i : Nat)
    (d : ogm_demuxer_c) (pages : List ogg_page)
    (hf : find_demuxer r s = some (i, d))
    (hcls : d.cls = demuxer_class.ogm_v_mscomp_demuxer_c) (hos : d.os = [])
    (hlast : d.last_granulepos = 0) (hfs : d.frames_since_granulepos_change = 0)
    (hcont : contiguous s 0 pages) (hN : (frame_count pages : Int) < 2 ^ 63) :
    ∃ L : List (Int × packet_t),
      (pages.foldl (process_page ext) r).delivered = r.delivered ++ L
        ∧ L.map (fun x => x.2.timecode)
          = (List.range (frame_count pages)).map
              (fun n : Nat => some (int64 ((n : Int) * d.default_duration)))
        ∧ (0 ≤ d.default_duration → (frame_count pages : Int) * d.default_duration < 2 ^ 63 →
            L.map (fun x => x.2.timecode)
              = (List.range (frame_count pages)).map
                  (fun n : Nat => some ((n : Int) * d.default_duration)))
        ∧ (0 < d.default_duration →
            List.Pairwise (fun a b : Int => a < b)
              ((List.range (frame_count pages)).map
                (fun n : Nat => (n : Int) * d.default_duration)))
        ∧ (d.default_duration = 0 →
            L.map (fun x => x.2.timecode) = List.replicate (frame_count pages) (some 0)) := by
  obtain ⟨L, h1, h2⟩ := process_pages_mscomp ext s d.default_duration pages 0 r i d
    le_rfl hf hcls hos hlast hfs rfl hcont (by omega)
  simp only [zero_add] at h2
  refine ⟨L, h1, h2, ?_, ?_, ?_⟩
  · intro h0 hlt
    rw [h2]
    apply List.map_congr_left
    intro n hn
    have hn' : n < frame_count pages := List.mem_range.mp hn
    have hle : (n : Int) * d.default_duration
        ≤ (frame_count pages : Int) * d.default_duration :=
      mul_le_mul_of_nonneg_right (by exact_mod_cast hn'.le) h0
    rw [int64_of_range _ (mul_nonneg (Int.natCast_nonneg n) h0) (by omega)]
  · intro hpos
    rw [List.pairwise_map]
    refine List.Pairwise.imp ?_ (List.pairwise_lt_range _)
    intro a b hab
    exact mul_lt_mul_of_pos_right (by exact_mod_cast hab) hpos
  · intro hz
    rw [h2, hz]
    have h0 : int64 0 = 0 := by decide
    simp only [mul_zero, h0]
    rw [List.eq_replicate_iff]
    refine ⟨by simp, ?_⟩
    intro b hb
    simp only [List.mem_map] at hb
    obtain ⟨_, _, rfl⟩ := hb
    rfl

/-- C28, witness: three pages with 2, 1 and 3 frames and granule positions 2, 3
and 6, at 40 ms per frame, yield the timecodes 0, 40, ..., 200 ms. -/
theorem mscomp_contiguous_timecodes_witness :
    (pages_mscomp_contiguous.foldl (process_page ext_example) reader_mscomp_start).delivered.map
        (fun x => x.2.timecode)
      = [some 0, some 40000000, some 80000000, some 120000000, some 160000000,
         some 200000000] := by
  obtain ⟨L, h1, _, h3, _⟩ := mscomp_contiguous_timecodes ext_example reader_mscomp_start 7 0
    { dmx_mscomp_steady [] with serialno := 7, last_granulepos := 0 }
    pages_mscomp_contiguous (by decide) (by decide) (by decide) (by decide) (by decide)
    ⟨rfl, by decide, by decide, rfl, rfl, by decide, by decide, rfl, rfl, by decide, by decide,
      rfl, trivial⟩
    (by decide)
  rw [h1, show reader_mscomp_start.delivered = [] from rfl, List.nil_append,
    h3 (by decide) (by decide)]
  decide

/-! ### Vorbis comments -/

theorem get_uint32_le_le32 (n : Nat) (t : List Nat) (h : n < 2 ^ 32) :
    get_uint32_le (le32 n ++ t) = n := by
  simp only [get_uint32_le, le32, byte_at, List.cons_append, List.nil_append,
    List.getD_cons_zero, List.getD_cons_succ]
  omega

theorem skip_append (cx : comment_externals) (a b : List Nat) :
    mm_mem_io_c.skip cx ⟨a ++ b⟩ a.length = some ⟨b⟩ := by
  simp [mm_mem_io_c.skip]

theorem read_append (a b : List Nat) :
    (⟨a ++ b⟩ : mm_mem_io_c).read a.length = (a, ⟨b⟩) := by
  simp [mm_mem_io_c.read]

theorem read_uint32_le_le32 (n : Nat) (t : List Nat) (h : n < 2 ^ 32) :
    (⟨le32 n ++ t⟩ : mm_mem_io_c).read_uint32_le = some (n, ⟨t⟩) := by
  have hr : (⟨le32 n ++ t⟩ : mm_mem_io_c).read 4 = (le32 n, ⟨t⟩) :=
    read_append (le32 n) t
  unfold mm_mem_io_c.read_uint32_le
  rw [hr]
  have := get_uint32_le_le32 n [] h
  simp only [List.append_nil] at this
  rw [if_neg (by simp [le32])]
  simp only [this]

theorem read_uint32_le_short (l : List Nat) (h : l.length < 4) :
    (⟨l⟩ : mm_mem_io_c).read_uint32_le = none := by
  unfold mm_mem_io_c.read_uint32_le mm_mem_io_c.read
  simp only [List.length_take]
  rw [if_pos (by omega)]

theorem extract_loop_entries (entries : List (List Nat)) :
    ∀ (k : Nat) (acc : List (List Nat)) (t : List Nat),
      (∀ e ∈ entries, e.length + 1 < 2 ^ 32) →
      extract_vorbis_comments_loop (entries.length + k) ⟨encoded_entries entries ++ t⟩ acc
        = extract_vorbis_comments_loop k ⟨t⟩ (acc ++ entries) := by
  induction entries with
  | nil => intro k acc t _; simp [encoded_entries]
  | cons e rest ih =>
    intro k acc t he
    have hlen : e.length + 1 < 2 ^ 32 := he e (List.mem_cons_self _ _)
    have henc : encoded_entries (e :: rest) ++ t
        = le32 e.length ++ (e ++ (encoded_entries rest ++ t)) := by
      simp [encoded_entries, length_prefixed, List.append_assoc]
    have hcount : (e :: rest).length + k = (rest.length + k) + 1 := by
      simp only [List.length_cons]; omega
    rw [henc, hcount, extract_vorbis_comments_loop,
      read_uint32_le_le32 _ _ (by omega)]
    simp only [read_append]
    rw [Nat.mod_eq_of_lt hlen, if_neg (by omega), if_neg (by simp)]
    rw [ih k (acc ++ [e]) t (fun x hx => he x (List.mem_cons_of_mem _ hx))]
    simp

theorem extract_loop_incomplete (k : Nat) (partial_entry : List Nat) (acc : List (List Nat))
    (h : incomplete_entry partial_entry) (hw : ¬ writes_beyond_buffer partial_entry) :
    extract_vorbis_comments_loop (k + 1) ⟨partial_entry⟩ acc = some acc := by
  rcases h with h | ⟨len, body, rfl, hb, hl⟩
  · rw [extract_vorbis_comments_loop, read_uint32_le_short _ h]
  · rw [extract_vorbis_comments_loop, read_uint32_le_le32 _ _ hl]
    simp only [mm_mem_io_c.read, List.length_take]
    by_cases hmax : len + 1 < 2 ^ 32
    · rw [Nat.mod_eq_of_lt hmax, if_neg (by omega), if_pos (by omega)]
    · have hlen : len = 2 ^ 32 - 1 := by omega
      have hbody : body = [] := by
        by_contra hne
        exact hw ⟨body, by rw [hlen], hne⟩
      subst hbody
      rw [if_neg (by simp), if_pos (by simp only [List.length_nil]; omega)]

theorem extract_loop_writes_beyond (k : Nat) (partial_entry : List Nat)
    (acc : List (List Nat)) (hw : writes_beyond_buffer partial_entry) :
    extract_vorbis_comments_loop (k + 1) ⟨partial_entry⟩ acc = none := by
  obtain ⟨body, rfl, hne⟩ := hw
  rw [extract_vorbis_comments_loop, read_uint32_le_le32 _ _ (by norm_num)]
  simp only [mm_mem_io_c.read, List.length_take]
  have hpos : 0 < body.length := List.length_pos.mpr hne
  rw [if_pos (by
    have : (2 ^ 32 - 1 + 1) % 2 ^ 32 = 0 := by norm_num
    rw [this]
    exact lt_min (by norm_num) hpos)]

theorem extract_comment_packet (cx : comment_externals) (lead vendor : List Nat) (n : Nat)
    (rest : List Nat) (hlead : lead.length = 7) (hv : vendor.length < 2 ^ 32)
    (hn : n < 2 ^ 32) :
    extract_vorbis_comments cx (lead ++ length_prefixed vendor ++ le32 n ++ rest)
      = if cx.reserve_throws n then some []
        else extract_vorbis_comments_loop n ⟨rest⟩ [] := by
  have h1 : lead ++ length_prefixed vendor ++ le32 n ++ rest
      = lead ++ (le32 vendor.length ++ (vendor ++ (le32 n ++ rest))) := by
    simp [length_prefixed, List.append_assoc]
  have h2 := skip_append cx lead (le32 vendor.length ++ (vendor ++ (le32 n ++ rest)))
  rw [hlead] at h2
  unfold extract_vorbis_comments
  rw [h1, h2]
  simp only [read_uint32_le_le32 _ _ hv, skip_append, read_uint32_le_le32 _ _ hn]

theorem skip_short (cx : comment_externals) (inp in1 : mm_mem_io_c) (n : Nat)
    (h : inp.rest.length < n + 4) (hs : mm_mem_io_c.skip cx inp n = some in1) :
    in1.read_uint32_le = none := by
  unfold mm_mem_io_c.skip at hs
  split_ifs at hs with h1 h2
  · simp only [Option.some.injEq] at hs
    subst hs
    exact read_uint32_le_short _ (by simp only [List.length_drop]; omega)
  · simp only [Option.some.injEq] at hs
    subst hs
    exact read_uint32_le_short _ (by simp)

theorem extract_short (cx : comment_externals) (p : List Nat) (h : p.length < 11) :
    extract_vorbis_comments cx p = some [] := by
  unfold extract_vorbis_comments
  cases hs : mm_mem_io_c.skip cx ⟨p⟩ 7 with
  | none => rfl
  | some in1 =>
    simp only [skip_short cx ⟨p⟩ in1 7 (by simpa using h) hs]

theorem extract_vendor_incomplete (cx : comment_externals) (lead : List Nat) (v : Nat)
    (tail : List Nat) (hlead : lead.length = 7) (hv : v < 2 ^ 32)
    (ht : tail.length < v + 4) :
    extract_vorbis_comments cx (lead ++ le32 v ++ tail) = some [] := by
  have h2 := skip_append cx lead (le32 v ++ tail)
  rw [hlead] at h2
  unfold extract_vorbis_comments
  rw [List.append_assoc, h2]
  simp only [read_uint32_le_le32 _ _ hv]
  cases hs : mm_mem_io_c.skip cx ⟨tail⟩ v with
  | none => rfl
  | some in1 =>
    simp only [skip_short cx ⟨tail⟩ in1 v ht hs]

theorem find_index_none (c : Nat) (l : List Nat) (h : c ∉ l) : find_index c l = none := by
  induction l with
  | nil => rfl
  | cons x xs ih =>
    simp only [List.mem_cons, not_or] at h
    simp only [find_index, if_neg (Ne.symm h.1), ih h.2, Option.map_none']

theorem find_index_append (c : Nat) (a b : List Nat) (h : c ∉ a) :
    find_index c (a ++ c :: b) = some a.length := by
  induction a with
  | nil => simp [find_index]
  | cons x xs ih =>
    simp only [List.mem_cons, not_or] at h
    simp only [List.cons_append, find_index, if_neg (Ne.symm h.1), List.append_eq, ih h.2,
      Option.map_some', List.length_cons]

theorem strip_segments_outside (o c : Nat) (a l : List Nat) (h : o ∉ a) :
    strip_segments o c false (a ++ l) = a ++ strip_segments o c false l := by
  induction a with
  | nil => rfl
  | cons x xs ih =>
    simp only [List.mem_cons, not_or] at h
    simp only [List.cons_append, strip_segments, if_neg (Ne.symm h.1), List.append_eq, ih h.2]

theorem strip_segments_no_open (o c : Nat) (l : List Nat) (h : o ∉ l) :
    strip_segments o c false l = l := by
  have := strip_segments_outside o c l [] h
  simpa [strip_segments] using this

theorem strip_segments_inside (o c : Nat) (b1 b2 : List Nat) (h : c ∉ b1) :
    strip_segments o c true (b1 ++ c :: b2) = strip_segments o c false b2 := by
  induction b1 with
  | nil => simp [strip_segments]
  | cons x xs ih =>
    simp only [List.mem_cons, not_or] at h
    simp only [List.cons_append, strip_segments, if_neg (Ne.symm h.1), List.append_eq, ih h.2]

theorem strip_segments_unclosed (o c : Nat) (b : List Nat) (h : c ∉ b) :
    strip_segments o c true b = [] := by
  induction b with
  | nil => rfl
  | cons x xs ih =>
    simp only [List.mem_cons, not_or] at h
    simp only [strip_segments, if_neg (Ne.symm h.1), ih h.2]

theorem strip_segments_sublist (o c : Nat) (l : List Nat) :
    ∀ b : Bool, (strip_segments o c b l).Sublist l := by
  induction l with
  | nil => intro b; cases b <;> exact List.Sublist.refl _
  | cons x xs ih =>
    intro b
    cases b
    · simp only [strip_segments]
      split_ifs
      · exact (ih true).cons _
      · exact (ih false).cons₂ _
    · simp only [strip_segments]
      split_ifs
      · exact (ih false).cons _
      · exact (ih true).cons _

theorem int32_of_range (x : Int) (h0 : 0 ≤ x) (h1 : x < 2 ^ 31) : int32 x = x := by
  unfold int32
  omega

theorem int32_npos (ext : externals) : int32 (npos ext) = -1 := by
  unfold int32 npos
  split_ifs <;> simp

theorem to_size_t_of_range (ext : externals) (x : Nat) (h1 : x < 2 ^ 31) :
    to_size_t ext (x : Int) = x := by
  unfold to_size_t npos
  split_ifs
  · have : ((x : Int) % (((2 ^ 64 - 1 : Nat) : Int) + 1)) = x := by
      apply Int.emod_eq_of_lt
      · simp
      · simp; omega
    rw [this]; simp
  · have : ((x : Int) % (((2 ^ 32 - 1 : Nat) : Int) + 1)) = x := by
      apply Int.emod_eq_of_lt
      · simp
      · simp; omega
    rw [this]; simp

theorem strip_loop_exit (ext : externals) (o c fuel : Nat) (lang : List Nat) :
    strip_loop ext o c (fuel + 1) lang (int32 (npos ext)) = some lang := by
  rw [strip_loop, int32_npos, if_neg (by omega)]

theorem strip_loop_closed (ext : externals) (o c fuel : Nat) (lang : List Nat) (P Q : Nat)
    (hf : string_find ext lang c P = Q) (hPQ : P ≤ Q) (hQ : Q + 1 < 2 ^ 31) :
    strip_loop ext o c (fuel + 1) lang (int32 (P : Int))
      = strip_loop ext o c fuel (string_erase lang P (Q - P + 1))
          (int32 (string_find ext (string_erase lang P (Q - P + 1)) o 0)) := by
  have hP : int32 (P : Int) = P := int32_of_range _ (by omega) (by omega)
  have hQ' : int32 (Q : Int) = Q := int32_of_range _ (by omega) (by omega)
  have hd : int32 ((Q : Int) - (P : Int) + 1) = ((Q - P + 1 : Nat) : Int) := by
    rw [int32_of_range ((Q : Int) - (P : Int) + 1) (by omega) (by omega)]
    omega
  rw [strip_loop, hP, if_pos (by omega)]
  simp only [to_size_t_of_range ext P (by omega), hf, hQ']
  rw [if_neg (by omega), hd, to_size_t_of_range ext (Q - P + 1) (by omega)]

theorem strip_loop_unclosed (ext : externals) (o c fuel : Nat) (lang : List Nat) (P : Nat)
    (hf : string_find ext lang c P = npos ext) (hP : P < lang.length)
    (hl : lang.length < 2 ^ 31) :
    strip_loop ext o c (fuel + 1) lang (int32 (P : Int))
      = strip_loop ext o c fuel (string_erase lang P (lang.length - P))
          (int32 (string_find ext (string_erase lang P (lang.length - P)) o 0)) := by
  have hP' : int32 (P : Int) = P := int32_of_range _ (by omega) (by omega)
  have hL : int32 ((lang.length : Int) - 1) = ((lang.length - 1 : Nat) : Int) := by
    rw [int32_of_range ((lang.length : Int) - 1) (by omega) (by omega)]
    omega
  have hd : int32 (((lang.length - 1 : Nat) : Int) - (P : Int) + 1)
      = ((lang.length - P : Nat) : Int) := by
    rw [int32_of_range (((lang.length - 1 : Nat) : Int) - (P : Int) + 1) (by omega) (by omega)]
    omega
  rw [strip_loop, hP', if_pos (by omega)]
  simp only [to_size_t_of_range ext P (by omega), hf, int32_npos, if_true, hL]
  rw [hd, to_size_t_of_range ext (lang.length - P) (by omega)]

theorem string_find_absent (ext : externals) (s : List Nat) (c pos : Nat)
    (h : c ∉ s.drop pos) : string_find ext s c pos = npos ext := by
  unfold string_find
  rw [find_index_none c _ h]

theorem string_find_present (ext : externals) (pre a b : List Nat) (c : Nat) (h : c ∉ a) :
    string_find ext (pre ++ (a ++ c :: b)) c pre.length = pre.length + a.length := by
  unfold string_find
  rw [List.drop_left, find_index_append c a b h]

theorem strip_loop_spec (ext : externals) (o c : Nat) (hoc : o ≠ c) :
    ∀ (fuel : Nat) (pre rest : List Nat), o ∉ pre → (pre ++ rest).length < 2 ^ 31 →
      rest.length < fuel →
      strip_loop ext o c fuel (pre ++ rest) (int32 (string_find ext (pre ++ rest) o 0))
        = some (pre ++ strip_segments o c false rest) := by
  intro fuel
  induction fuel with
  | zero => intro pre rest _ _ h; omega
  | succ fuel ih =>
    intro pre rest hpre hlen hfuel
    by_cases ho : o ∈ rest
    · obtain ⟨a, b, rfl, ha⟩ := List.eq_append_cons_of_mem ho
      have hpa : o ∉ pre ++ a := by
        simp only [List.mem_append, not_or]; exact ⟨hpre, ha⟩
      have hfind : string_find ext (pre ++ (a ++ o :: b)) o 0 = pre.length + a.length := by
        have := string_find_present ext [] (pre ++ a) b o hpa
        simpa [List.append_assoc] using this
      simp only [List.length_append, List.length_cons] at hlen hfuel
      rw [hfind, strip_segments_outside o c a _ ha]
      simp only [strip_segments, if_true]
      by_cases hc : c ∈ b
      · obtain ⟨b1, b2, rfl, hb1⟩ := List.eq_append_cons_of_mem hc
        simp only [List.length_append, List.length_cons] at hlen hfuel
        have hob1 : c ∉ o :: b1 := by
          simp only [List.mem_cons, not_or]; exact ⟨fun h => hoc h.symm, hb1⟩
        have hfc : string_find ext (pre ++ (a ++ o :: (b1 ++ c :: b2))) c
            (pre.length + a.length) = pre.length + a.length + (b1.length + 1) := by
          have := string_find_present ext (pre ++ a) (o :: b1) b2 c hob1
          simpa [List.append_assoc] using this
        have herase : string_erase (pre ++ (a ++ o :: (b1 ++ c :: b2))) (pre.length + a.length)
            (pre.length + a.length + (b1.length + 1) - (pre.length + a.length) + 1)
            = (pre ++ a) ++ b2 := by
          unfold string_erase
          have e1 : pre ++ (a ++ o :: (b1 ++ c :: b2)) = (pre ++ a) ++ ((o :: b1 ++ [c]) ++ b2) := by
            simp [List.append_assoc]
          have e2 : pre.length + a.length = (pre ++ a).length := by simp
          have e3 : pre.length + a.length
              + (pre.length + a.length + (b1.length + 1) - (pre.length + a.length) + 1)
              = ((pre ++ a) ++ (o :: b1 ++ [c])).length := by
            simp only [List.length_append, List.length_cons, List.length_nil]; omega
          rw [e3, e1, ← List.append_assoc (pre ++ a), List.drop_left, List.append_assoc (pre ++ a),
            e2, List.take_left]
        rw [strip_loop_closed ext o c fuel _ _ _ hfc (by omega) (by omega), herase,
          ih (pre ++ a) b2 hpa (by simp only [List.length_append]; omega) (by omega),
          strip_segments_inside o c b1 b2 hb1, List.append_assoc]
      · have hfc : string_find ext (pre ++ (a ++ o :: b)) c (pre.length + a.length)
            = npos ext := by
          apply string_find_absent
          have e1 : pre ++ (a ++ o :: b) = (pre ++ a) ++ (o :: b) := by simp [List.append_assoc]
          have e2 : pre.length + a.length = (pre ++ a).length := by simp
          rw [e1, e2, List.drop_left]
          simp only [List.mem_cons, not_or]
          exact ⟨fun h => hoc h.symm, hc⟩
        have herase : string_erase (pre ++ (a ++ o :: b)) (pre.length + a.length)
            ((pre ++ (a ++ o :: b)).length - (pre.length + a.length)) = (pre ++ a) ++ [] := by
          unfold string_erase
          have e1 : pre ++ (a ++ o :: b) = (pre ++ a) ++ (o :: b) := by simp [List.append_assoc]
          have e2 : pre.length + a.length = (pre ++ a).length := by simp
          rw [List.drop_eq_nil_of_le (by omega), e1, e2, List.take_left]
        rw [strip_loop_unclosed ext o c fuel _ _ hfc
            (by simp only [List.length_append, List.length_cons]; omega)
            (by simp only [List.length_append, List.length_cons]; omega), herase,
          ih (pre ++ a) [] hpa (by simp only [List.length_append, List.length_nil]; omega)
            (by simp only [List.length_nil]; omega),
          strip_segments_unclosed o c b hc]
        simp [strip_segments]
    · have hall : o ∉ pre ++ rest := by
        simp only [List.mem_append, not_or]; exact ⟨hpre, ho⟩
      rw [string_find_absent ext _ o 0 (by simpa using hall), strip_loop_exit,
        strip_segments_no_open o c rest ho]

theorem strip_language_spec (ext : externals) (fuel : Nat) (value : List Nat)
    (hlen : value.length < 2 ^ 31) (hfuel : value.length < fuel) :
    strip_language ext fuel value
      = some (strip_segments 40 41 false (strip_segments 91 93 false value)) := by
  have h1 := strip_loop_spec ext 91 93 (by decide) fuel [] value (by simp)
    (by simpa using hlen) hfuel
  have hsub := (strip_segments_sublist 91 93 value false).length_le
  have h2 := strip_loop_spec ext 40 41 (by decide) fuel [] (strip_segments 91 93 false value)
    (by simp) (by simp only [List.nil_append]; omega) (by omega)
  simp only [List.nil_append] at h1 h2
  unfold strip_language
  rw [h1]
  exact h2

theorem handle_language_some (ext : externals) (cx : comment_externals) (fuel : Nat)
    (d : ogm_demuxer_c) (value : List Nat) (hlen : value.length < 2 ^ 31)
    (hfuel : value.length < fuel) :
    ∃ d1, handle_language ext cx fuel d value = some d1 ∧ d1.stype = d.stype
      ∧ d1.title = d.title := by
  unfold handle_language
  rw [strip_language_spec ext fuel value hlen hfuel]
  simp only []
  split_ifs
  · exact ⟨_, rfl, rfl, rfl⟩
  · exact ⟨_, rfl, rfl, rfl⟩
  · exact ⟨_, rfl, rfl, rfl⟩

theorem getLast_cons_getD (v t : List Nat) (l : List (List Nat)) :
    ((v :: l).getLast?).getD t = (l.getLast?).getD v := by
  cases l with
  | nil => rfl
  | cons x xs =>
    rw [List.getLast?_cons_cons, List.getLast?_eq_getLast _ (List.cons_ne_nil x xs)]
    rfl

theorem handle_comments_loop_spec (ext : externals) (cx : comment_externals) (fuel : Nat)
    (comments : List (List Nat)) :
    ∀ (d : ogm_demuxer_c) (title : List Nat) (cs : List (List Nat)),
      (∀ c ∈ comments, ((cx.split c).getD 1 []).length < 2 ^ 31
        ∧ ((cx.split c).getD 1 []).length < fuel) →
      ∃ d1 cs1, handle_comments_loop ext cx fuel comments d title cs
          = some (d1, ((comments.filterMap (title_value cx)).getLast?).getD title, cs1)
        ∧ d1.stype = d.stype ∧ d1.title = d.title := by
  induction comments with
  | nil => intro d title cs _; exact ⟨d, cs, rfl, rfl, rfl⟩
  | cons c rest ih =>
    intro d title cs h
    have hrest : ∀ x ∈ rest, ((cx.split x).getD 1 []).length < 2 ^ 31
        ∧ ((cx.split x).getD 1 []).length < fuel :=
      fun x hx => h x (List.mem_cons_of_mem _ hx)
    have hc := h c (List.mem_cons_self _ _)
    unfold handle_comments_loop
    by_cases h2 : (cx.split c).length = 2
    · rw [if_neg (by simpa using h2)]
      by_cases hl : (cx.split c).getD 0 [] = lit_LANGUAGE
      · have hnt : title_value cx c = none := by
          unfold title_value
          rw [if_neg]
          rw [hl]
          intro hh
          exact absurd hh.2 (by decide)
        obtain ⟨d1, hd1, hs1, ht1⟩ := handle_language_some ext cx fuel d _ hc.1 hc.2
        obtain ⟨d2, cs2, hd2, hs2, ht2⟩ := ih d1 title cs hrest
        rw [if_pos hl, hd1]
        simp only [List.filterMap_cons, hnt]
        exact ⟨d2, cs2, hd2, hs2.trans hs1, ht2.trans ht1⟩
      · rw [if_neg hl]
        by_cases ht : (cx.split c).getD 0 [] = lit_TITLE
        · have hv : title_value cx c = some ((cx.split c).getD 1 []) := by
            unfold title_value
            rw [if_pos ⟨h2, ht⟩]
          obtain ⟨d2, cs2, hd2, hs2, ht2⟩ := ih d ((cx.split c).getD 1 []) cs hrest
          rw [if_pos ht]
          simp only [List.filterMap_cons, hv, getLast_cons_getD]
          exact ⟨d2, cs2, hd2, hs2, ht2⟩
        · have hnt : title_value cx c = none := by
            unfold title_value
            rw [if_neg (fun hh => ht hh.2)]
          rw [if_neg ht]
          simp only [List.filterMap_cons, hnt]
          split_ifs
          · exact ih d title _ hrest
          · exact ih d title cs hrest
    · have hnt : title_value cx c = none := by
        unfold title_value
        rw [if_neg (fun hh => h2 hh.1)]
      rw [if_pos (by simpa using h2)]
      simp only [List.filterMap_cons, hnt]
      exact ih d title cs hrest

theorem chapters_keep_title (g1 : session_globals) (parsed : Option (Option Nat)) :
    (match parsed with
      | some p => { g1 with g_kax_chapters := p }
      | none => g1).g_segment_title = g1.g_segment_title
    ∧ (match parsed with
      | some p => { g1 with g_kax_chapters := p }
      | none => g1).g_segment_title_set = g1.g_segment_title_set := by
  cases parsed <;> exact ⟨rfl, rfl⟩

theorem apply_stream_comments_spec (cx : comment_externals) (d : ogm_demuxer_c)
    (title : List Nat) (cs : List (List Nat)) (st : comments_state) :
    (apply_stream_comments cx d title cs st).2.title = []
      ∧ (apply_stream_comments cx d title cs st).1.title
          = (if title ≠ [] then c_str (cx.utf8 title) else d.title)
      ∧ ((st.globals.g_segment_title_set = true ∨ st.globals.g_segment_title ≠ []
            ∨ OGM_STREAM_TYPE_V_MSCOMP ≠ d.stype ∨ title = []) →
          (apply_stream_comments cx d title cs st).2.globals.g_segment_title
              = st.globals.g_segment_title
            ∧ (apply_stream_comments cx d title cs st).2.globals.g_segment_title_set
              = st.globals.g_segment_title_set)
      ∧ (st.globals.g_segment_title_set = false → st.globals.g_segment_title = [] →
          OGM_STREAM_TYPE_V_MSCOMP = d.stype → title ≠ [] →
          (apply_stream_comments cx d title cs st).2.globals.g_segment_title = cx.utf8 title
            ∧ (apply_stream_comments cx d title cs st).2.globals.g_segment_title_set = true) := by
  refine ⟨?_, ?_, ?_, ?_⟩
  · simp only [apply_stream_comments]
    split_ifs with h
    · rfl
    · simpa using h
  · simp only [apply_stream_comments]
    split_ifs <;> rfl
  · intro h
    simp only [apply_stream_comments]
    rw [(chapters_keep_title _ _).1, (chapters_keep_title _ _).2]
    have hseg : (decide (title ≠ []) && !st.globals.g_segment_title_set
        && st.globals.g_segment_title.isEmpty
        && decide (OGM_STREAM_TYPE_V_MSCOMP = d.stype)) = false := by
      rcases h with h | h | h | h
      · simp [h]
      · have : st.globals.g_segment_title.isEmpty = false := by
          cases hg : st.globals.g_segment_title with
          | nil => exact absurd hg h
          | cons _ _ => rfl
        simp [this]
      · simp [h]
      · simp [h]
    simp only [hseg, Bool.false_eq_true, if_false, and_self]
  · intro h1 h2 h3 h4
    simp only [apply_stream_comments]
    rw [(chapters_keep_title _ _).1, (chapters_keep_title _ _).2]
    have hseg : (decide (title ≠ []) && !st.globals.g_segment_title_set
        && st.globals.g_segment_title.isEmpty
        && decide (OGM_STREAM_TYPE_V_MSCOMP = d.stype)) = true := by
      simp [h1, h2, h3, h4]
    simp only [hseg, if_true, if_pos h4, and_self]

theorem handle_stream_spec (ext : externals) (cx : comment_externals) (fuel : Nat)
    (d : ogm_demuxer_c) (st : comments_state) (ht : st.title = [])
    (hdef : comments_defined cx fuel d = true) :
    ∃ d1 st1, handle_stream ext cx fuel d st = some (d1, st1) ∧ st1.title = []
      ∧ d1.title = display_title cx d
      ∧ ((st.globals.g_segment_title_set = true ∨ st.globals.g_segment_title ≠ []
            ∨ OGM_STREAM_TYPE_V_MSCOMP ≠ d.stype ∨ stream_title cx d = []) →
          st1.globals.g_segment_title = st.globals.g_segment_title
            ∧ st1.globals.g_segment_title_set = st.globals.g_segment_title_set)
      ∧ (st.globals.g_segment_title_set = false → st.globals.g_segment_title = [] →
          OGM_STREAM_TYPE_V_MSCOMP = d.stype → stream_title cx d ≠ [] →
          st1.globals.g_segment_title = cx.utf8 (stream_title cx d)
            ∧ st1.globals.g_segment_title_set = true) := by
  by_cases hskip : OGM_STREAM_TYPE_A_FLAC = d.stype ∨ 2 > d.packet_data.length
  · have hst : stream_title cx d = [] := by
      unfold stream_title stream_comments
      rw [if_pos hskip]
      rfl
    refine ⟨d, st, ?_, ht, ?_, fun _ => ⟨rfl, rfl⟩, fun _ _ _ h => absurd hst h⟩
    · unfold handle_stream
      rw [if_pos hskip]
    · unfold display_title
      rw [if_neg (by simpa using hst)]
  · cases hex : extract_vorbis_comments cx (d.packet_data.getD 1 []) with
    | none =>
      unfold comments_defined at hdef
      rw [hex] at hdef
      simp only [not_or] at hskip
      simp [hskip.1, hskip.2] at hdef
    | some comments =>
      have hsc : stream_comments cx d = comments := by
        unfold stream_comments
        rw [if_neg hskip, hex]
        rfl
      by_cases hemp : comments.isEmpty = true
      · have hst : stream_title cx d = [] := by
          unfold stream_title
          rw [hsc, List.isEmpty_iff.mp hemp]
          rfl
        refine ⟨d, st, ?_, ht, ?_, fun _ => ⟨rfl, rfl⟩, fun _ _ _ h => absurd hst h⟩
        · unfold handle_stream
          rw [if_neg hskip, hex]
          simp only [hemp, if_true]
        · unfold display_title
          rw [if_neg (by simpa using hst)]
      · have hall : ∀ c ∈ comments, ((cx.split c).getD 1 []).length < 2 ^ 31
            ∧ ((cx.split c).getD 1 []).length < fuel := by
          unfold comments_defined at hdef
          rw [hex] at hdef
          simp only [not_or] at hskip
          simp only [hskip.1, hskip.2, decide_False, Bool.false_or, List.all_eq_true,
            Bool.and_eq_true, decide_eq_true_eq] at hdef
          exact hdef
        obtain ⟨d1, cs1, hloop, hs1, ht1⟩ :=
          handle_comments_loop_spec ext cx fuel comments d st.title [] hall
        have htitle : ((comments.filterMap (title_value cx)).getLast?).getD st.title
            = stream_title cx d := by
          unfold stream_title
          rw [hsc, ht]
        rw [htitle] at hloop
        obtain ⟨a1, a2, a3, a4⟩ :=
          apply_stream_comments_spec cx d1 (stream_title cx d) cs1 st
        refine ⟨(apply_stream_comments cx d1 (stream_title cx d) cs1 st).1,
          (apply_stream_comments cx d1 (stream_title cx d) cs1 st).2, ?_, a1, ?_, ?_, ?_⟩
        · unfold handle_stream
          rw [if_neg hskip, hex]
          simp only [hemp, Bool.false_eq_true, if_false, hloop]
        · rw [a2, ht1]
          rfl
        · rw [hs1] at a3
          exact a3
        · rw [hs1] at a4
          exact a4

theorem handle_stream_comments_loop_spec (ext : externals) (cx : comment_externals)
    (fuel : Nat) (ds : List ogm_demuxer_c) :
    ∀ st : comments_state, st.title = [] →
      (∀ d ∈ ds, comments_defined cx fuel d = true) →
      ∃ ds1 st1, handle_stream_comments_loop ext cx fuel ds st = some (ds1, st1)
        ∧ ds1.map (fun d => d.title) = ds.map (display_title cx)
        ∧ ((st.globals.g_segment_title_set = true ∨ st.globals.g_segment_title ≠ []) →
            st1.globals.g_segment_title = st.globals.g_segment_title
              ∧ st1.globals.g_segment_title_set = st.globals.g_segment_title_set)
        ∧ (st.globals.g_segment_title_set = false → st.globals.g_segment_title = [] →
            match segment_title_source cx ds with
            | some d => st1.globals.g_segment_title = cx.utf8 (stream_title cx d)
                ∧ st1.globals.g_segment_title_set = true
            | none => st1.globals.g_segment_title = []
                ∧ st1.globals.g_segment_title_set = false) := by
  induction ds with
  | nil =>
    intro st _ _
    exact ⟨[], st, rfl, rfl, fun _ => ⟨rfl, rfl⟩, fun h1 h2 => ⟨h2, h1⟩⟩
  | cons d rest ih =>
    intro st ht hdef
    obtain ⟨d1, st1, hd1, ht1, htitle, hkeep, hset⟩ :=
      handle_stream_spec ext cx fuel d st ht (hdef d (List.mem_cons_self _ _))
    obtain ⟨ds2, st2, hd2, htitles, hkeep2, hset2⟩ :=
      ih st1 ht1 (fun x hx => hdef x (List.mem_cons_of_mem _ hx))
    refine ⟨d1 :: ds2, st2, ?_, ?_, ?_, ?_⟩
    · unfold handle_stream_comments_loop
      rw [hd1]
      simp only [hd2]
    · simp only [List.map_cons, htitle, htitles]
    · intro h
      have h1 := hkeep (h.elim Or.inl (fun h' => Or.inr (Or.inl h')))
      have h2 := hkeep2 (by rw [h1.1, h1.2]; exact h)
      exact ⟨h2.1.trans h1.1, h2.2.trans h1.2⟩
    · intro hu he
      by_cases hP : OGM_STREAM_TYPE_V_MSCOMP = d.stype ∧ stream_title cx d ≠ []
      · have hsrc : segment_title_source cx (d :: rest) = some d := by
          unfold segment_title_source
          rw [List.find?_cons]
          simp [hP.1, hP.2]
        have h1 := hset hu he hP.1 hP.2
        have h2 := hkeep2 (Or.inl h1.2)
        rw [hsrc]
        exact ⟨h2.1.trans h1.1, h2.2.trans h1.2⟩
      · have hsrc : segment_title_source cx (d :: rest) = segment_title_source cx rest := by
          unfold segment_title_source
          rw [List.find?_cons]
          have : (decide (OGM_STREAM_TYPE_V_MSCOMP = d.stype)
              && decide (stream_title cx d ≠ [])) = false := by
            simpa [Bool.and_eq_false_iff, not_and_or] using hP
          rw [this]
        have h1 := hkeep (by
          rcases not_and_or.mp hP with h | h
          · exact Or.inr (Or.inr (Or.inl h))
          · exact Or.inr (Or.inr (Or.inr (not_not.mp h))))
        have h2 := hset2 (h1.2.trans hu) (h1.1.trans he)
        rw [hsrc]
        exact h2

/-- C25: for a reader whose comment blocks can be read (`comments_defined`),
`ogm_reader_c::handle_stream_comments` returns, and: when `g_segment_title_set`
is true or `g_segment_title` is non-empty on entry both are unchanged on exit;
otherwise the segment title becomes the TITLE (converted to UTF-8) of the
lowest-index MS-compressed video stream that has a non-empty TITLE, and stays
unset when there is none; every stream with a non-empty TITLE gets that title
(the last TITLE comment of its own block, converted to UTF-8, as a C string)
as its display title, and every other stream keeps the title it had. -/
theorem handle_stream_comments_titles (ext : externals) (cx : comment_externals) (fuel : Nat)
    (r : ogm_reader_c) (g : session_globals)
    (hdef : ∀ d ∈ r.sdemuxers, comments_defined cx fuel d = true) :
    ∃ r1 g1, handle_stream_comments ext cx fuel r g = some (r1, g1)
      ∧ r1.sdemuxers.map (fun d => d.title) = r.sdemuxers.map (display_title cx)
      ∧ ((g.g_segment_title_set = true ∨ g.g_segment_title ≠ []) →
          g1.g_segment_title = g.g_segment_title
            ∧ g1.g_segment_title_set = g.g_segment_title_set)
      ∧ (g.g_segment_title_set = false → g.g_segment_title = [] →
          match segment_title_source cx r.sdemuxers with
          | some d => g1.g_segment_title = cx.utf8 (stream_title cx d)
              ∧ g1.g_segment_title_set = true
          | none => g1.g_segment_title = [] ∧ g1.g_segment_title_set = false) := by
  obtain ⟨ds1, st1, h1, h2, h3, h4⟩ :=
    handle_stream_comments_loop_spec ext cx fuel r.sdemuxers ⟨[], false, g, r.warnings⟩ rfl hdef
  refine ⟨{ r with sdemuxers := ds1, warnings := st1.warnings }, st1.globals, ?_, h2, h3, h4⟩
  unfold handle_stream_comments
  rw [h1]

/-- C25, witness: of four streams the first (Vorbis) is titled "Sample", the
second has no TITLE, the third and the fourth (MS-compressed video) are titled
"Movie" (its last TITLE) and "Other"; the segment title becomes "Movie". -/
theorem handle_stream_comments_titles_witness :
    (∀ d ∈ reader_titles.sdemuxers, comments_defined cx_example 100 d = true)
      ∧ (∃ r1 g1, handle_stream_comments ext_example cx_example 100 reader_titles
            ⟨[], false, none⟩ = some (r1, g1)
          ∧ r1.sdemuxers.map (fun d => d.title)
            = [ascii "Sample", [], ascii "Movie", ascii "Other"])
      ∧ (handle_stream_comments ext_example cx_example 100 reader_titles
            ⟨[], false, none⟩).map (fun x => (x.2.g_segment_title, x.2.g_segment_title_set))
          = some (ascii "Movie", true) :=
  ⟨by decide,
   let ⟨r1, g1, h, ht, _, _⟩ := handle_stream_comments_titles ext_example cx_example 100
     reader_titles ⟨[], false, none⟩ (by decide)
   ⟨r1, g1, h, ht.trans (by decide)⟩,
   by decide⟩

/-- C23, counterexample: a comment packet that declares 2 entries and ends inside
the second yields the first entry, "TITLE=Sample", not the empty list, and
`handle_stream_comments` applies that title to the stream (and, the stream
being MS-compressed video, to the segment). -/
theorem extract_vorbis_comments_truncated_counterexample :
    packet_comments_truncated.length
        < (comment_packet (3 :: lit_vorbis) (ascii "x") 2
            [ascii "TITLE=Sample", ascii "LANGUAGE=eng"] []).length
      ∧ packet_comments_truncated
        = (comment_packet (3 :: lit_vorbis) (ascii "x") 2
            [ascii "TITLE=Sample", ascii "LANGUAGE=eng"] []).take
              packet_comments_truncated.length
      ∧ extract_vorbis_comments cx_example packet_comments_truncated
        = some [ascii "TITLE=Sample"]
      ∧ (handle_stream_comments ext_example cx_example 100 reader_truncated_comments
            ⟨[], false, none⟩).map
          (fun x => (x.1.sdemuxers.map (fun d => d.title), x.2.g_segment_title))
        = some ([ascii "Sample"], ascii "Sample") := by
  decide

/-- C23, amended: `extract_vorbis_comments` returns the entries that are complete
in front of the place where a malformed packet ends (complete entries being
shorter than 2^32 - 1 bytes): the empty list when the packet ends before the
vendor string or the count is complete (and when `reserve` throws), otherwise
the complete leading entries.  No error propagates.  Only an incomplete entry
of length 2^32 - 1 with at least one byte behind its length makes `read` write
beyond the buffer of `len + 1 = 0` bytes; the behaviour is undefined then.
A stream for which the list is empty is left as it is by
`handle_stream_comments`; for another stream the loop over the comments runs
over the returned entries, and the stream gets the title of the last TITLE
entry among them when that title is not empty. -/
theorem extract_vorbis_comments_malformed (ext : externals) (cx : comment_externals) :
    (∀ p : List Nat, p.length < 11 → extract_vorbis_comments cx p = some [])
      ∧ (∀ (lead : List Nat) (v : Nat) (tail : List Nat), lead.length = 7 → v < 2 ^ 32 →
          tail.length < v + 4 → extract_vorbis_comments cx (lead ++ le32 v ++ tail) = some [])
      ∧ (∀ (lead vendor : List Nat) (n : Nat) (entries : List (List Nat))
          (partial_entry : List Nat), lead.length = 7 → vendor.length < 2 ^ 32 → n < 2 ^ 32 →
          entries.length < n → (∀ e ∈ entries, e.length + 1 < 2 ^ 32) →
          incomplete_entry partial_entry →
          (¬ writes_beyond_buffer partial_entry →
            extract_vorbis_comments cx (comment_packet lead vendor n entries partial_entry)
              = some (if cx.reserve_throws n then [] else entries))
          ∧ (writes_beyond_buffer partial_entry →
            extract_vorbis_comments cx (comment_packet lead vendor n entries partial_entry)
              = if cx.reserve_throws n then some [] else none))
      ∧ (∀ (fuel : Nat) (d : ogm_demuxer_c) (st : comments_state),
          extract_vorbis_comments cx (d.packet_data.getD 1 []) = some [] →
          handle_stream ext cx fuel d st = some (d, st))
      ∧ (∀ (fuel : Nat) (d : ogm_demuxer_c) (st : comments_state) (entries : List (List Nat)),
          ¬(OGM_STREAM_TYPE_A_FLAC = d.stype ∨ 2 > d.packet_data.length) →
          extract_vorbis_comments cx (d.packet_data.getD 1 []) = some entries →
          entries ≠ [] →
          handle_stream ext cx fuel d st
              = (handle_comments_loop ext cx fuel entries d st.title []).map
                  (fun x => apply_stream_comments cx x.1 x.2.1 x.2.2 st)
            ∧ (st.title = [] → comments_defined cx fuel d = true →
                ∃ d1 st1, handle_stream ext cx fuel d st = some (d1, st1)
                  ∧ d1.title = if last_title cx entries ≠ []
                      then c_str (cx.utf8 (last_title cx entries)) else d.title)) := by
  refine ⟨extract_short cx, extract_vendor_incomplete cx, ?_, ?_, ?_⟩
  · intro lead vendor n entries partial_entry hlead hv hn hlt he hinc
    obtain ⟨k, hk⟩ : ∃ k, n = entries.length + (k + 1) := ⟨n - entries.length - 1, by omega⟩
    have hpk : extract_vorbis_comments cx (comment_packet lead vendor n entries partial_entry)
        = if cx.reserve_throws n then some []
          else extract_vorbis_comments_loop (k + 1) ⟨partial_entry⟩ entries := by
      unfold comment_packet
      rw [List.append_assoc, extract_comment_packet cx lead vendor n _ hlead hv hn]
      split_ifs with hr
      · rfl
      · rw [hk, extract_loop_entries entries (k + 1) [] partial_entry he, List.nil_append]
    refine ⟨fun hw => ?_, fun hw => ?_⟩
    · rw [hpk, extract_loop_incomplete k partial_entry _ hinc hw]
      split_ifs <;> rfl
    · rw [hpk, extract_loop_writes_beyond k partial_entry _ hw]
  · intro fuel d st h
    unfold handle_stream
    split_ifs with hskip
    · rfl
    · rw [h]
      rfl
  · intro fuel d st entries hskip hex hne
    refine ⟨?_, fun ht hdef => ?_⟩
    · unfold handle_stream
      rw [if_neg hskip, hex]
      have hemp : entries.isEmpty = false := by
        cases entries with
        | nil => exact absurd rfl hne
        | cons _ _ => rfl
      simp only [hemp, Bool.false_eq_true, if_false]
      cases handle_comments_loop ext cx fuel entries d st.title [] <;> rfl
    · obtain ⟨d1, st1, h1, _, h3, _⟩ := handle_stream_spec ext cx fuel d st ht hdef
      refine ⟨d1, st1, h1, ?_⟩
      rw [h3]
      unfold display_title stream_title stream_comments last_title
      rw [if_neg hskip, hex]
      rfl

/-- C23, witness: for the packet that ends inside its second entry the complete
first entry is returned; when the second entry declares 2^32 - 1 bytes and one
byte follows, the behaviour is undefined. -/
theorem extract_vorbis_comments_malformed_witness :
    extract_vorbis_comments cx_example
          (comment_packet (3 :: lit_vorbis) (ascii "x") 2 [ascii "TITLE=Sample"]
            (le32 12 ++ ascii "LANG"))
        = some (if cx_example.reserve_throws 2 then [] else [ascii "TITLE=Sample"])
      ∧ extract_vorbis_comments cx_example
          (comment_packet (3 :: lit_vorbis) (ascii "x") 2 [ascii "TITLE=Sample"]
            (le32 (2 ^ 32 - 1) ++ [65]))
        = if cx_example.reserve_throws 2 then some [] else none :=
  ⟨((extract_vorbis_comments_malformed ext_example cx_example).2.2.1 (3 :: lit_vorbis)
      (ascii "x") 2 [ascii "TITLE=Sample"] (le32 12 ++ ascii "LANG") (by decide) (by decide)
      (by decide) (by decide) (by decide)
      (Or.inr ⟨12, ascii "LANG", rfl, by decide, by decide⟩)).1
      (fun hw => by
        obtain ⟨body, h, _⟩ := hw
        simp [le32] at h),
   ((extract_vorbis_comments_malformed ext_example cx_example).2.2.1 (3 :: lit_vorbis)
      (ascii "x") 2 [ascii "TITLE=Sample"] (le32 (2 ^ 32 - 1) ++ [65]) (by decide) (by decide)
      (by decide) (by decide) (by decide)
      (Or.inr ⟨2 ^ 32 - 1, [65], rfl, by decide, by decide⟩)).2
      ⟨[65], rfl, by decide⟩⟩

end Ogm
